import Mathlib

/-
  Verification of the notation translator / evaluator of
  `combined_calculus_solver.py` (Advanced Calculus Solver).

  Strings are modelled as `List Char`.  The `re` patterns used by the
  source are embedded as explicit item sequences with leftmost-match,
  greedy-with-backtracking semantics.  The sympy engine is modelled as an
  abstract structure whose `sympify` may fail, mirroring the fact that the
  source treats it as an opaque, exception-throwing dependency.  Streamlit
  calls (`st.info` etc.) are modelled as an ordered message log.
-/

set_option maxHeartbeats 2000000

/-- ASCII decimal digit, `\d` on the inputs in scope. -/
def isDig (c : Char) : Bool := '0' ≤ c && c ≤ '9'

/-- lowercase ASCII letter, `[a-z]`. -/
def isAzLower (c : Char) : Bool := 'a' ≤ c && c ≤ 'z'

/-- uppercase ASCII letter. -/
def isAzUpper (c : Char) : Bool := 'A' ≤ c && c ≤ 'Z'

/-- `[a-zA-Z]`. -/
def isLett (c : Char) : Bool := isAzLower c || isAzUpper c

/-- `[a-zA-Z(]`. -/
def isLettPar (c : Char) : Bool := isLett c || c == '('

/-- whitespace as stripped/matched by the source's patterns (`\s`, `strip`). -/
def isWsC (c : Char) : Bool := c == ' ' || c == '\t' || c == '\n' || c == '\r'

/-- `expr.replace("^", "**")` (line 15 of the source). -/
def caretExpand : List Char → List Char
  | [] => []
  | c :: r => if c = '^' then '*' :: '*' :: caretExpand r else c :: caretExpand r

/-- `re.sub(r'(\d)([a-zA-Z\(])', r'\1*\2', expr)` (line 18): insert `*`
between a digit and a following letter or opening parenthesis; scanning
resumes after the two consumed characters, exactly as `re.sub` does. -/
def insNumMul : List Char → List Char
  | [] => []
  | [c] => [c]
  | a :: b :: r =>
    if isDig a && isLettPar b then a :: '*' :: b :: insNumMul r
    else a :: insNumMul (b :: r)

/-- `re.sub(r'(\))([a-zA-Z])', r'\1*\2', expr)` (line 21): insert `*`
between a closing parenthesis and a following letter. -/
def insParMul : List Char → List Char
  | [] => []
  | [c] => [c]
  | a :: b :: r =>
    if a == ')' && isLett b then a :: '*' :: b :: insParMul r
    else a :: insParMul (b :: r)

/-- `preprocess_expression` (lines 9-23 of the source). -/
def preprocess_expression (s : List Char) : List Char :=
  insParMul (insNumMul (caretExpand s))

theorem isDig_not_isLettPar {c : Char} (h : isDig c = true) : isLettPar c = false := by
  simp only [isDig, Bool.and_eq_true, decide_eq_true_eq] at h
  by_cases hl : isLettPar c = true
  · exfalso
    simp only [isLettPar, isLett, isAzLower, isAzUpper, Bool.or_eq_true, Bool.and_eq_true,
      decide_eq_true_eq, beq_iff_eq] at hl
    rcases hl with (⟨h1, _⟩ | ⟨h1, _⟩) | rfl
    · exact absurd (le_trans h1 h.2) (by decide)
    · exact absurd (le_trans h1 h.2) (by decide)
    · exact absurd h.1 (by decide)
  · simpa using hl

theorem isLettPar_ne_star {c : Char} (h : isLettPar c = true) : c ≠ '*' := by
  rintro rfl; exact absurd h (by decide)

theorem isLett_not_isDig {c : Char} (h : isLett c = true) : isDig c = false := by
  simp only [isLett, isAzLower, isAzUpper, Bool.or_eq_true, Bool.and_eq_true,
    decide_eq_true_eq] at h
  by_cases hd : isDig c = true
  · exfalso
    simp only [isDig, Bool.and_eq_true, decide_eq_true_eq] at hd
    rcases h with ⟨h1, _⟩ | ⟨h1, _⟩
    · exact absurd (le_trans h1 hd.2) (by decide)
    · exact absurd (le_trans h1 hd.2) (by decide)
  · simpa using hd

theorem isLett_ne_star {c : Char} (h : isLett c = true) : c ≠ '*' := by
  rintro rfl; exact absurd h (by decide)

theorem insNumMul_cc_pos {a b : Char} (h : (isDig a && isLettPar b) = true) (r : List Char) :
    insNumMul (a :: b :: r) = a :: '*' :: b :: insNumMul r := by
  simp [insNumMul, h]

theorem insNumMul_cc_neg {a b : Char} (h : (isDig a && isLettPar b) = false) (r : List Char) :
    insNumMul (a :: b :: r) = a :: insNumMul (b :: r) := by
  simp [insNumMul, h]

theorem insParMul_cc_pos {a b : Char} (h : (a == ')' && isLett b) = true) (r : List Char) :
    insParMul (a :: b :: r) = a :: '*' :: b :: insParMul r := by
  simp [insParMul, h]

theorem insParMul_cc_neg {a b : Char} (h : (a == ')' && isLett b) = false) (r : List Char) :
    insParMul (a :: b :: r) = a :: insParMul (b :: r) := by
  simp [insParMul, h]

/-- peeling a non-digit head through the digit-multiplication pass. -/
theorem insNumMul_cons_of_not_dig {a : Char} (h : isDig a = false) (l : List Char) :
    insNumMul (a :: l) = a :: insNumMul l := by
  cases l with
  | nil => rfl
  | cons b r => exact insNumMul_cc_neg (by simp [h]) r

/-- peeling a head that starts no `)`-letter pair. -/
theorem insParMul_cons_of_ne {a : Char} (h : (a == ')') = false) (l : List Char) :
    insParMul (a :: l) = a :: insParMul l := by
  cases l with
  | nil => rfl
  | cons b r => exact insParMul_cc_neg (by simp_all) r

theorem insNumMul_head (b : Char) (r : List Char) : ∃ t, insNumMul (b :: r) = b :: t := by
  cases r with
  | nil => exact ⟨[], rfl⟩
  | cons c r' =>
    cases h : (isDig b && isLettPar c) with
    | true => exact ⟨'*' :: c :: insNumMul r', insNumMul_cc_pos h r'⟩
    | false => exact ⟨insNumMul (c :: r'), insNumMul_cc_neg h r'⟩

theorem insParMul_head (b : Char) (r : List Char) : ∃ t, insParMul (b :: r) = b :: t := by
  cases r with
  | nil => exact ⟨[], rfl⟩
  | cons c r' =>
    cases h : (b == ')' && isLett c) with
    | true => exact ⟨'*' :: c :: insParMul r', insParMul_cc_pos h r'⟩
    | false => exact ⟨insParMul (c :: r'), insParMul_cc_neg h r'⟩

theorem insNumMul_idem : ∀ l, insNumMul (insNumMul l) = insNumMul l := by
  intro l
  induction l using insNumMul.induct with
  | case1 => rfl
  | case2 c => rfl
  | case3 a b r hc ih =>
    have hb : isLettPar b = true := (Bool.and_eq_true _ _ |>.mp hc).2
    rw [insNumMul_cc_pos hc]
    rw [insNumMul_cc_neg (by simp [isLettPar, isLett, isAzLower, isAzUpper])]
    rw [insNumMul_cons_of_not_dig (by decide)]
    rw [insNumMul_cons_of_not_dig (by
      cases h' : isDig b
      · rfl
      · exact absurd (isDig_not_isLettPar h') (by simp [hb]))]
    rw [ih]
  | case4 a b r hc ih =>
    have hc' : (isDig a && isLettPar b) = false := eq_false_of_ne_true hc
    rw [insNumMul_cc_neg hc']
    obtain ⟨t, ht⟩ := insNumMul_head b r
    rw [ht, insNumMul_cc_neg hc', ← ht, ih]

theorem insParMul_idem : ∀ l, insParMul (insParMul l) = insParMul l := by
  intro l
  induction l using insParMul.induct with
  | case1 => rfl
  | case2 c => rfl
  | case3 a b r hc ih =>
    have hb : isLett b = true := (Bool.and_eq_true _ _ |>.mp hc).2
    rw [insParMul_cc_pos hc]
    rw [insParMul_cc_neg (by simp [isLett, isAzLower, isAzUpper])]
    rw [insParMul_cons_of_ne (by decide)]
    rw [insParMul_cons_of_ne (by
      have : b ≠ ')' := by rintro rfl; exact absurd hb (by decide)
      simpa using this)]
    rw [ih]
  | case4 a b r hc ih =>
    have hc' : (a == ')' && isLett b) = false := eq_false_of_ne_true hc
    rw [insParMul_cc_neg hc']
    obtain ⟨t, ht⟩ := insParMul_head b r
    rw [ht, insParMul_cc_neg hc', ← ht, ih]

/-- the `)`-letter pass cannot create digit-letter adjacencies. -/
theorem insNumMul_insParMul {l : List Char} (h : insNumMul l = l) :
    insNumMul (insParMul l) = insParMul l := by
  induction l using insParMul.induct with
  | case1 => rfl
  | case2 c => simpa using h
  | case3 a b r hc ih =>
    have ha : a = ')' := by simpa using (Bool.and_eq_true _ _ |>.mp hc).1
    have hb : isLett b = true := (Bool.and_eq_true _ _ |>.mp hc).2
    have hr : insNumMul r = r := by
      rw [insNumMul_cons_of_not_dig (by rw [ha]; decide)] at h
      have h2 : insNumMul (b :: r) = b :: r := (List.cons.inj h).2
      rw [insNumMul_cons_of_not_dig (isLett_not_isDig hb)] at h2
      exact (List.cons.inj h2).2
    rw [insParMul_cc_pos hc]
    rw [insNumMul_cons_of_not_dig (by rw [ha]; decide)]
    rw [insNumMul_cons_of_not_dig (by decide)]
    rw [insNumMul_cons_of_not_dig (isLett_not_isDig hb)]
    rw [ih hr]
  | case4 a b r hc ih =>
    have hc' : (a == ')' && isLett b) = false := eq_false_of_ne_true hc
    have hnd : insNumMul (b :: r) = b :: r ∧ (isDig a && isLettPar b) = false := by
      by_cases hab : (isDig a && isLettPar b) = true
      · exfalso
        rw [insNumMul_cc_pos hab] at h
        have hb : isLettPar b = true := (Bool.and_eq_true _ _ |>.mp hab).2
        exact isLettPar_ne_star hb ((List.cons.inj (List.cons.inj h).2).1).symm
      · constructor
        · rw [insNumMul_cc_neg (eq_false_of_ne_true hab)] at h
          exact (List.cons.inj h).2
        · exact eq_false_of_ne_true hab
    rw [insParMul_cc_neg hc']
    obtain ⟨t, ht⟩ := insParMul_head b r
    rw [ht, insNumMul_cc_neg hnd.2, ← ht, ih hnd.1]

theorem mem_insNumMul {c : Char} : ∀ {l : List Char}, c ∈ insNumMul l → c ∈ l ∨ c = '*' := by
  intro l
  induction l using insNumMul.induct with
  | case1 => intro h; simp [insNumMul] at h
  | case2 d => intro h; simp [insNumMul] at h; simp [h]
  | case3 a b r hc ih =>
    rw [insNumMul_cc_pos hc]
    intro h
    simp only [List.mem_cons] at h
    rcases h with rfl | rfl | rfl | h
    · left; simp
    · right; rfl
    · left; simp
    · rcases ih h with h' | h'
      · left; simp [h']
      · right; exact h'
  | case4 a b r hc ih =>
    rw [insNumMul_cc_neg (eq_false_of_ne_true hc)]
    intro h
    simp only [List.mem_cons] at h
    rcases h with rfl | h
    · left; simp
    · rcases ih h with h' | h'
      · left; simp only [List.mem_cons] at h' ⊢; tauto
      · right; exact h'

theorem mem_insParMul {c : Char} : ∀ {l : List Char}, c ∈ insParMul l → c ∈ l ∨ c = '*' := by
  intro l
  induction l using insParMul.induct with
  | case1 => intro h; simp [insParMul] at h
  | case2 d => intro h; simp [insParMul] at h; simp [h]
  | case3 a b r hc ih =>
    rw [insParMul_cc_pos hc]
    intro h
    simp only [List.mem_cons] at h
    rcases h with rfl | rfl | rfl | h
    · left; simp
    · right; rfl
    · left; simp
    · rcases ih h with h' | h'
      · left; simp [h']
      · right; exact h'
  | case4 a b r hc ih =>
    rw [insParMul_cc_neg (eq_false_of_ne_true hc)]
    intro h
    simp only [List.mem_cons] at h
    rcases h with rfl | h
    · left; simp
    · rcases ih h with h' | h'
      · left; simp only [List.mem_cons] at h' ⊢; tauto
      · right; exact h'

theorem caret_not_mem_caretExpand : ∀ l : List Char, '^' ∉ caretExpand l := by
  intro l
  induction l with
  | nil => simp [caretExpand]
  | cons c r ih =>
    by_cases h : c = '^'
    · simp [caretExpand, h, ih]
    · simp only [caretExpand, if_neg h, List.mem_cons, not_or]
      exact ⟨fun hc => h hc.symm, ih⟩

theorem caretExpand_of_not_mem {l : List Char} (h : '^' ∉ l) : caretExpand l = l := by
  induction l with
  | nil => rfl
  | cons c r ih =>
    simp only [List.mem_cons, not_or] at h
    have hc : c ≠ '^' := fun hc => h.1 hc.symm
    simp [caretExpand, hc, ih h.2]

/-- C7: the preprocessor is idempotent: running `preprocess_expression` a
second time on already-preprocessed text produces no further change. -/
theorem preprocess_idem (s : List Char) :
    preprocess_expression (preprocess_expression s) = preprocess_expression s := by
  unfold preprocess_expression
  have hnc : '^' ∉ insParMul (insNumMul (caretExpand s)) := by
    intro h
    rcases mem_insParMul h with h | h
    · rcases mem_insNumMul h with h | h
      · exact caret_not_mem_caretExpand s h
      · exact absurd h (by decide)
    · exact absurd h (by decide)
  rw [caretExpand_of_not_mem hnc]
  rw [insNumMul_insParMul (insNumMul_idem _)]
  rw [insParMul_idem]

/-! ## The embedded `re` engine

Every pattern used by the source is a plain sequence of literals,
single-character classes, greedy stars/pluses over character classes and
greedy optional characters.  `matchItems` is the backtracking matcher
(per-item candidates tried in the order a Python regex engine tries them,
greedy alternatives first); `searchPre` is `re.search` (leftmost starting
position first). -/

inductive RItem where
  | lit (l : List Char)
  | cls (p : Char → Bool)
  | star (p : Char → Bool)
  | plus (p : Char → Bool)
  | opt (p : Char → Bool)

/-- all ways to split off a prefix of characters satisfying `p`,
shortest prefix first. -/
def splitsAsc (p : Char → Bool) : List Char → List (List Char × List Char)
  | [] => [([], [])]
  | c :: r =>
    ([], c :: r) :: (if p c then (splitsAsc p r).map (fun t => (c :: t.1, t.2)) else [])

def firstSome {α β : Type} (f : α → Option β) : List α → Option β
  | [] => none
  | a :: as =>
    match f a with
    | some b => some b
    | none => firstSome f as

/-- candidate (consumed, remainder) splits for one item, in backtracking
order: greedy alternatives first. -/
def candsOf : RItem → List Char → List (List Char × List Char)
  | .lit l, s => if l.isPrefixOf s then [(l, s.drop l.length)] else []
  | .cls _, [] => []
  | .cls p, c :: r => if p c then [([c], r)] else []
  | .star p, s => (splitsAsc p s).reverse
  | .plus p, s => ((splitsAsc p s).reverse).filter (fun t => !t.1.isEmpty)
  | .opt _, [] => [([], [])]
  | .opt p, c :: r => if p c then [([c], r), ([], c :: r)] else [([], c :: r)]

/-- the backtracking matcher: on success returns the chunk of the subject
consumed by each item, together with the remainder after the match. -/
def matchItems : List RItem → List Char → Option (List (List Char) × List Char)
  | [], s => some ([], s)
  | it :: its, s =>
    firstSome (fun t => (matchItems its t.2).map (fun m => (t.1 :: m.1, m.2))) (candsOf it s)

/-- `re.search`: try to match at every start position, leftmost first;
returns (prefix before the match, per-item chunks, remainder). -/
def searchPre (its : List RItem) : List Char → Option (List Char × List (List Char) × List Char)
  | [] =>
    match matchItems its [] with
    | some m => some ([], m.1, m.2)
    | none => none
  | c :: r =>
    match matchItems its (c :: r) with
    | some m => some ([], m.1, m.2)
    | none => (searchPre its r).map (fun t => (c :: t.1, t.2.1, t.2.2))

/-- specification of the chunk consumed by one item. -/
def itemOk : RItem → List Char → Prop
  | .lit l, t => t = l
  | .cls p, t => ∃ c, t = [c] ∧ p c = true
  | .star p, t => ∀ c ∈ t, p c = true
  | .plus p, t => t ≠ [] ∧ ∀ c ∈ t, p c = true
  | .opt p, t => t = [] ∨ ∃ c, t = [c] ∧ p c = true

theorem splitsAsc_mem {p : Char → Bool} :
    ∀ {s : List Char} {t r : List Char}, (t, r) ∈ splitsAsc p s →
      s = t ++ r ∧ ∀ c ∈ t, p c = true := by
  intro s
  induction s with
  | nil =>
    intro t r h
    simp only [splitsAsc, List.mem_singleton, Prod.mk.injEq] at h
    obtain ⟨rfl, rfl⟩ := h
    simp
  | cons c s ih =>
    intro t r h
    simp only [splitsAsc, List.mem_cons] at h
    rcases h with h | h
    · obtain ⟨rfl, rfl⟩ := Prod.mk.injEq .. |>.mp h.symm |>.imp Eq.symm Eq.symm
      simp
    · by_cases hpc : p c = true
      · simp only [if_pos hpc, List.mem_map] at h
        obtain ⟨⟨t', r'⟩, hmem, heq⟩ := h
        obtain ⟨ht, hr⟩ := Prod.mk.injEq .. |>.mp heq
        subst ht; subst hr
        obtain ⟨hs, hall⟩ := ih hmem
        refine ⟨by simp [hs], ?_⟩
        intro d hd
        rcases List.mem_cons.mp hd with rfl | hd
        · exact hpc
        · exact hall d hd
      · simp [if_neg hpc] at h
  
theorem firstSome_eq_some {α β : Type} {f : α → Option β} :
    ∀ {xs : List α} {b : β}, firstSome f xs = some b → ∃ a ∈ xs, f a = some b := by
  intro xs
  induction xs with
  | nil => intro b h; simp [firstSome] at h
  | cons a as ih =>
    intro b h
    rw [firstSome] at h
    cases hfa : f a with
    | some b' =>
      rw [hfa] at h
      exact ⟨a, List.mem_cons_self a as, by rw [hfa, ← h]⟩
    | none =>
      rw [hfa] at h
      obtain ⟨a', hmem, hfa'⟩ := ih h
      exact ⟨a', List.mem_cons_of_mem a hmem, hfa'⟩

theorem firstSome_cons_some {α β : Type} {f : α → Option β} {a : α} {as : List α} {b : β}
    (h : f a = some b) : firstSome f (a :: as) = some b := by
  rw [firstSome, h]

theorem firstSome_cons_none {α β : Type} {f : α → Option β} {a : α} {as : List α}
    (h : f a = none) : firstSome f (a :: as) = firstSome f as := by
  rw [firstSome, h]

theorem candsOf_mem {it : RItem} {s t r : List Char} (h : (t, r) ∈ candsOf it s) :
    s = t ++ r ∧ itemOk it t := by
  cases it with
  | lit l =>
    simp only [candsOf] at h
    simp at h
    obtain ⟨hpre, rfl, rfl⟩ := h
    exact ⟨(List.prefix_iff_eq_append.mp hpre).symm, rfl⟩
  | cls p =>
    cases s with
    | nil => simp [candsOf] at h
    | cons c s' =>
      simp only [candsOf] at h
      by_cases hp : p c = true
      · simp only [if_pos hp, List.mem_singleton, Prod.mk.injEq] at h
        obtain ⟨rfl, rfl⟩ := h
        exact ⟨rfl, c, rfl, hp⟩
      · simp [if_neg hp] at h
  | star p =>
    have := splitsAsc_mem (List.mem_reverse.mp h)
    exact ⟨this.1, this.2⟩
  | plus p =>
    have hmem := List.mem_of_mem_filter h
    have hne := List.of_mem_filter h
    have := splitsAsc_mem (List.mem_reverse.mp hmem)
    refine ⟨this.1, ?_, this.2⟩
    simpa using hne
  | opt p =>
    cases s with
    | nil =>
      simp only [candsOf, List.mem_singleton, Prod.mk.injEq] at h
      obtain ⟨rfl, rfl⟩ := h
      exact ⟨rfl, Or.inl rfl⟩
    | cons c s' =>
      simp only [candsOf] at h
      by_cases hp : p c = true
      · simp only [if_pos hp, List.mem_cons, List.mem_singleton, Prod.mk.injEq,
          List.not_mem_nil, or_false] at h
        rcases h with ⟨rfl, rfl⟩ | ⟨rfl, rfl⟩
        · exact ⟨rfl, Or.inr ⟨c, rfl, hp⟩⟩
        · exact ⟨rfl, Or.inl rfl⟩
      · simp only [if_neg hp, List.mem_singleton, Prod.mk.injEq] at h
        obtain ⟨rfl, rfl⟩ := h
        exact ⟨rfl, Or.inl rfl⟩

theorem matchItems_sound :
    ∀ {its : List RItem} {s : List Char} {chs : List (List Char)} {rest : List Char},
      matchItems its s = some (chs, rest) →
      s = chs.flatten ++ rest ∧ List.Forall₂ itemOk its chs := by
  intro its
  induction its with
  | nil =>
    intro s chs rest h
    simp only [matchItems, Option.some.injEq, Prod.mk.injEq] at h
    obtain ⟨rfl, rfl⟩ := h
    exact ⟨by simp, List.Forall₂.nil⟩
  | cons it its ih =>
    intro s chs rest h
    rw [matchItems] at h
    obtain ⟨⟨t, r⟩, hmem, hf⟩ := firstSome_eq_some h
    dsimp only at hf
    rw [Option.map_eq_some'] at hf
    obtain ⟨⟨chs', rest'⟩, hmi, heq⟩ := hf
    dsimp only at heq hmi
    rw [Prod.mk.injEq] at heq
    obtain ⟨h1, h2⟩ := heq
    subst h1; subst h2
    obtain ⟨hs, hok⟩ := candsOf_mem hmem
    obtain ⟨hjoin, hforall⟩ := ih hmi
    refine ⟨?_, List.Forall₂.cons hok hforall⟩
    rw [hs, hjoin, List.flatten_cons, List.append_assoc]

theorem searchPre_sound :
    ∀ {s : List Char} {its : List RItem} {pre : List Char} {chs : List (List Char)}
      {rest : List Char},
      searchPre its s = some (pre, chs, rest) →
      s = pre ++ chs.flatten ++ rest ∧ List.Forall₂ itemOk its chs ∧
        matchItems its (chs.flatten ++ rest) = some (chs, rest) := by
  intro s
  induction s with
  | nil =>
    intro its pre chs rest h
    rw [searchPre] at h
    cases hm : matchItems its [] with
    | some m =>
      rw [hm] at h
      simp only [Option.some.injEq, Prod.mk.injEq] at h
      obtain ⟨rfl, rfl, rfl⟩ := h
      obtain ⟨h1, h2⟩ := matchItems_sound hm
      exact ⟨by simpa using h1, h2, by rw [← h1]; exact hm⟩
    | none => rw [hm] at h; exact absurd h (by simp)
  | cons c s ih =>
    intro its pre chs rest h
    rw [searchPre] at h
    cases hm : matchItems its (c :: s) with
    | some m =>
      rw [hm] at h
      simp only [Option.some.injEq, Prod.mk.injEq] at h
      obtain ⟨rfl, rfl, rfl⟩ := h
      obtain ⟨h1, h2⟩ := matchItems_sound hm
      exact ⟨by simpa using h1, h2, by rw [← h1]; exact hm⟩
    | none =>
      rw [hm] at h
      rw [Option.map_eq_some'] at h
      obtain ⟨⟨pre', chs', rest'⟩, hs, heq⟩ := h
      dsimp only at heq
      rw [Prod.mk.injEq, Prod.mk.injEq] at heq
      obtain ⟨h1, h2, h3⟩ := heq
      subst h1; subst h2; subst h3
      obtain ⟨ha, hb, hc⟩ := ih hs
      exact ⟨by rw [ha]; simp, hb, hc⟩

/-! ## The fixed-point rewrite loop

Each `while re.search(p, expr): ... expr = expr[:m.start()] + repl + expr[m.end():]`
loop of the source is `rwLoop pat mk fuel`; `parse_combined_expression` runs it
with fuel `count c s + 1` for a measure character `c` that each iteration of
that loop provably removes, so the fuel never runs out (theorem `rwLoop_fix`). -/

def rwLoop (its : List RItem) (mk : List (List Char) → List Char) :
    Nat → List Char → List Char
  | 0, s => s
  | f + 1, s =>
    match searchPre its s with
    | none => s
    | some (pre, chs, rest) => rwLoop its mk f (pre ++ mk chs ++ rest)

def runLoop (its : List RItem) (mk : List (List Char) → List Char) (c : Char)
    (s : List Char) : List Char :=
  rwLoop its mk (s.count c + 1) s

theorem rwLoop_fix {its : List RItem} {mk : List (List Char) → List Char} {c : Char}
    (hdec : ∀ s pre chs rest, searchPre its s = some (pre, chs, rest) →
      (pre ++ mk chs ++ rest).count c < s.count c) :
    ∀ f s, s.count c < f → searchPre its (rwLoop its mk f s) = none := by
  intro f
  induction f with
  | zero => intro s h; exact absurd h (by omega)
  | succ f ih =>
    intro s h
    rw [rwLoop]
    cases hs : searchPre its s with
    | none => exact hs
    | some t =>
      obtain ⟨pre, chs, rest⟩ := t
      have := hdec s pre chs rest hs
      exact ih _ (by omega)

theorem runLoop_fix {its : List RItem} {mk : List (List Char) → List Char} {c : Char}
    (hdec : ∀ s pre chs rest, searchPre its s = some (pre, chs, rest) →
      (pre ++ mk chs ++ rest).count c < s.count c) (s : List Char) :
    searchPre its (runLoop its mk c s) = none :=
  rwLoop_fix hdec _ s (Nat.lt_succ_self _)

/-- a character having a property another character lacks separates them. -/
theorem ne_of_pred {p : Char → Bool} {c d : Char} (hc : p c = true) (hd : p d = false) :
    c ≠ d := by
  rintro rfl; rw [hc] at hd; exact absurd hd (by simp)

theorem count_flatten_chunks (c : Char) :
    ∀ L : List (List Char), L.flatten.count c = (L.map (List.count c)).sum := by
  intro L
  induction L with
  | nil => rfl
  | cons a L ih => simp [List.count_append, ih]

/-- total number of occurrences of `c` inside the literal items. -/
def litCount (c : Char) : List RItem → Nat
  | [] => 0
  | RItem.lit l :: its => l.count c + litCount c its
  | _ :: its => litCount c its

theorem litCount_pos {c : Char} {l : List Char} (hc : c ∈ l) :
    ∀ {its : List RItem}, RItem.lit l ∈ its → 1 ≤ litCount c its := by
  intro its
  induction its with
  | nil => intro h; simp at h
  | cons it its ih =>
    intro h
    rcases List.mem_cons.mp h with rfl | h'
    · have : 0 < l.count c := List.count_pos_iff.mpr hc
      simp only [litCount]; omega
    · cases it with
      | lit l' => simp only [litCount]; have := ih h'; omega
      | cls p => simpa only [litCount] using ih h'
      | star p => simpa only [litCount] using ih h'
      | plus p => simpa only [litCount] using ih h'
      | opt p => simpa only [litCount] using ih h'

theorem forall₂_litCount {c : Char} :
    ∀ {its : List RItem} {chs : List (List Char)}, List.Forall₂ itemOk its chs →
      litCount c its ≤ chs.flatten.count c := by
  intro its chs h
  induction h with
  | nil => simp [litCount]
  | cons hab htail ih =>
    rename_i it ch its' chs'
    cases it with
    | lit l =>
      have hch : ch = l := by simpa [itemOk] using hab
      subst hch
      simp only [litCount, List.flatten_cons, List.count_append]
      omega
    | cls p =>
      simp only [litCount, List.flatten_cons, List.count_append]
      omega
    | star p =>
      simp only [litCount, List.flatten_cons, List.count_append]
      omega
    | plus p =>
      simp only [litCount, List.flatten_cons, List.count_append]
      omega
    | opt p =>
      simp only [litCount, List.flatten_cons, List.count_append]
      omega

/-- a successful search carries every literal character of the pattern. -/
theorem searchPre_count {its : List RItem} {s pre rest : List Char}
    {chs : List (List Char)} (h : searchPre its s = some (pre, chs, rest)) (c : Char) :
    litCount c its + (pre ++ rest).count c ≤ s.count c := by
  obtain ⟨hdecomp, hf, _⟩ := searchPre_sound h
  have := forall₂_litCount (c := c) hf
  rw [hdecomp]
  simp only [List.count_append]
  omega

/-- if the subject lacks enough copies of some literal character, the search
fails. -/
theorem searchPre_none_of_count {its : List RItem} {s : List Char} {c : Char}
    (h : s.count c < litCount c its) : searchPre its s = none := by
  cases hs : searchPre its s with
  | none => rfl
  | some t =>
    obtain ⟨pre, chs, rest⟩ := t
    have := searchPre_count hs c
    omega

/-- if some literal of the pattern has a character that is absent from the
subject, the search fails. -/
theorem searchPre_none_of_lit_char {its : List RItem} {l : List Char} {c : Char}
    (hl : RItem.lit l ∈ its) (hc : c ∈ l) {s : List Char} (hs : c ∉ s) :
    searchPre its s = none := by
  cases hres : searchPre its s with
  | none => rfl
  | some t =>
    exfalso
    obtain ⟨pre, chs, rest⟩ := t
    have hlc : 1 ≤ litCount c its := litCount_pos hc hl
    have := searchPre_count hres c
    have hs0 : s.count c = 0 := List.count_eq_zero.mpr hs
    omega

/-! evaluation rules used when tracing concrete matches -/

theorem firstSome_singleton {α β : Type} (f : α → Option β) (a : α) :
    firstSome f [a] = f a := by
  rw [firstSome]
  cases h : f a with
  | some b => rfl
  | none => rw [firstSome]

theorem matchItems_lit_cons {l : List Char} {its : List RItem} {s : List Char} :
    matchItems (RItem.lit l :: its) (l ++ s) =
      (matchItems its s).map (fun m => (l :: m.1, m.2)) := by
  rw [matchItems]
  have hp : l.isPrefixOf (l ++ s) = true :=
    List.isPrefixOf_iff_prefix.mpr (List.prefix_append l s)
  simp only [candsOf, if_pos hp, List.drop_left]
  exact firstSome_singleton ..

theorem matchItems_lit_none {l : List Char} {its : List RItem} {s : List Char}
    (h : l.isPrefixOf s = false) : matchItems (RItem.lit l :: its) s = none := by
  rw [matchItems]
  simp [candsOf, h, firstSome]

theorem matchItems_lit_nil {l : List Char} (hne : l ≠ []) {its : List RItem} :
    matchItems (RItem.lit l :: its) [] = none := by
  apply matchItems_lit_none
  cases l with
  | nil => exact absurd rfl hne
  | cons c l' => rfl

theorem matchItems_cls_cons {p : Char → Bool} {c : Char} (hp : p c = true)
    {its : List RItem} {s : List Char} :
    matchItems (RItem.cls p :: its) (c :: s) =
      (matchItems its s).map (fun m => ([c] :: m.1, m.2)) := by
  rw [matchItems]
  simp only [candsOf, if_pos hp]
  exact firstSome_singleton ..

theorem matchItems_cls_none {p : Char → Bool} {c : Char} (hp : p c = false)
    {its : List RItem} {s : List Char} :
    matchItems (RItem.cls p :: its) (c :: s) = none := by
  rw [matchItems]
  simp [candsOf, hp, firstSome]

theorem matchItems_cls_nil {p : Char → Bool} {its : List RItem} :
    matchItems (RItem.cls p :: its) [] = none := by
  rw [matchItems]
  simp [candsOf, firstSome]

theorem splitsAsc_rev_head {p : Char → Bool} :
    ∀ s : List Char, ∃ tl, (splitsAsc p s).reverse = (s.takeWhile p, s.dropWhile p) :: tl := by
  intro s
  induction s with
  | nil => exact ⟨[], rfl⟩
  | cons c r ih =>
    by_cases hp : p c = true
    · obtain ⟨tl, htl⟩ := ih
      refine ⟨tl.map (fun t => (c :: t.1, t.2)) ++ [([], c :: r)], ?_⟩
      rw [splitsAsc, if_pos hp, List.reverse_cons, ← List.map_reverse, htl]
      simp [List.takeWhile, List.dropWhile, hp]
    · refine ⟨[], ?_⟩
      rw [splitsAsc, if_neg hp]
      have hp' : p c = false := eq_false_of_ne_true hp
      simp [List.takeWhile, List.dropWhile, hp']

theorem matchItems_star_greedy {p : Char → Bool} {its : List RItem} {s : List Char}
    {b : List (List Char) × List Char}
    (h : (matchItems its (s.dropWhile p)).map (fun m => (s.takeWhile p :: m.1, m.2)) = some b) :
    matchItems (RItem.star p :: its) s = some b := by
  rw [matchItems]
  obtain ⟨tl, htl⟩ := splitsAsc_rev_head (p := p) s
  simp only [candsOf]
  rw [htl]
  exact firstSome_cons_some h

theorem matchItems_plus_greedy {p : Char → Bool} {its : List RItem} {s : List Char}
    {b : List (List Char) × List Char} (hne : s.takeWhile p ≠ [])
    (h : (matchItems its (s.dropWhile p)).map (fun m => (s.takeWhile p :: m.1, m.2)) = some b) :
    matchItems (RItem.plus p :: its) s = some b := by
  rw [matchItems]
  obtain ⟨tl, htl⟩ := splitsAsc_rev_head (p := p) s
  simp only [candsOf]
  rw [htl, List.filter_cons, if_pos (by simpa using hne)]
  exact firstSome_cons_some h

theorem matchItems_opt_consume {p : Char → Bool} {c : Char} (hp : p c = true)
    {its : List RItem} {s : List Char} {b : List (List Char) × List Char}
    (h : (matchItems its s).map (fun m => ([c] :: m.1, m.2)) = some b) :
    matchItems (RItem.opt p :: its) (c :: s) = some b := by
  rw [matchItems]
  simp only [candsOf, if_pos hp]
  exact firstSome_cons_some h

theorem matchItems_opt_skip {p : Char → Bool} {c : Char} (hp : p c = false)
    {its : List RItem} {s : List Char} :
    matchItems (RItem.opt p :: its) (c :: s) =
      (matchItems its (c :: s)).map (fun m => ([] :: m.1, m.2)) := by
  rw [matchItems]
  rw [show candsOf (RItem.opt p) (c :: s) = [([], c :: s)] from by simp [candsOf, hp]]
  exact firstSome_singleton ..

theorem matchItems_opt_nil {p : Char → Bool} {its : List RItem} :
    matchItems (RItem.opt p :: its) [] =
      (matchItems its []).map (fun m => ([] :: m.1, m.2)) := by
  rw [matchItems]
  simp only [candsOf]
  exact firstSome_singleton ..

theorem matchItems_nil_eq (s : List Char) : matchItems [] s = some ([], s) := rfl

theorem searchPre_eq_found {its : List RItem} {s rest : List Char} {chs : List (List Char)}
    (h : matchItems its s = some (chs, rest)) : searchPre its s = some ([], chs, rest) := by
  cases s with
  | nil => rw [searchPre, h]
  | cons c r => rw [searchPre, h]

theorem searchPre_cons_step {its : List RItem} {c : Char} {s : List Char}
    (h : matchItems its (c :: s) = none) :
    searchPre its (c :: s) = (searchPre its s).map (fun t => (c :: t.1, t.2.1, t.2.2)) := by
  rw [searchPre, h]

theorem searchPre_none_of_matchfail {its : List RItem} :
    ∀ {s : List Char}, (∀ t, t <:+ s → matchItems its t = none) → searchPre its s = none := by
  intro s
  induction s with
  | nil =>
    intro h
    rw [searchPre, h [] (List.suffix_refl _)]
  | cons c r ih =>
    intro h
    rw [searchPre, h _ (List.suffix_refl _),
      ih (fun t ht => h t (ht.trans (List.suffix_cons c r)))]
    rfl

theorem searchPre_none_of_not_infix {l : List Char} {its : List RItem} {s : List Char}
    (h : ¬ l <:+: s) : searchPre (RItem.lit l :: its) s = none := by
  apply searchPre_none_of_matchfail
  intro t ht
  apply matchItems_lit_none
  cases hp : l.isPrefixOf t with
  | false => rfl
  | true =>
    exfalso
    obtain ⟨u, hu⟩ := List.isPrefixOf_iff_prefix.mp hp
    obtain ⟨v, hv⟩ := ht
    exact h ⟨v, u, by rw [← hv, ← hu, List.append_assoc]⟩

/-! ## Python string helpers -/

def strL (s : String) : List Char := s.data

/-- Python `str.strip()`. -/
def pyStrip (l : List Char) : List Char :=
  ((l.dropWhile isWsC).reverse.dropWhile isWsC).reverse

/-- Python's substring test `pat in s`. -/
def isSub (pat : List Char) : List Char → Bool
  | [] => pat.isEmpty
  | c :: r => pat.isPrefixOf (c :: r) || isSub pat r

/-- Python's `s.replace(t, x)` for single characters. -/
def replaceChar (t x : Char) (l : List Char) : List Char :=
  l.map (fun c => if c = t then x else c)

/-- Python's `s.split(sep)` for a single-character separator. -/
def pySplit (sep : Char) : List Char → List (List Char)
  | [] => [[]]
  | c :: r =>
    if c = sep then [] :: pySplit sep r
    else
      match pySplit sep r with
      | [] => [[c]]
      | p :: ps => (c :: p) :: ps

theorem isSub_iff {pat : List Char} :
    ∀ {s : List Char}, isSub pat s = true ↔ ∃ pre post, s = pre ++ pat ++ post := by
  intro s
  induction s with
  | nil =>
    simp only [isSub, List.isEmpty_iff]
    constructor
    · rintro rfl; exact ⟨[], [], rfl⟩
    · rintro ⟨pre, post, h⟩
      rcases List.append_eq_nil.mp (List.append_eq_nil.mp h.symm).1 with ⟨-, h2⟩
      exact h2
  | cons c r ih =>
    simp only [isSub, Bool.or_eq_true]
    constructor
    · rintro (hp | hs)
      · obtain ⟨u, hu⟩ := List.isPrefixOf_iff_prefix.mp hp
        exact ⟨[], u, by rw [← hu]; rfl⟩
      · obtain ⟨pre, post, h⟩ := ih.mp hs
        exact ⟨c :: pre, post, by rw [h]; rfl⟩
    · rintro ⟨pre, post, h⟩
      cases pre with
      | nil =>
        left
        exact List.isPrefixOf_iff_prefix.mpr ⟨post, by simpa using h.symm⟩
      | cons d pre' =>
        right
        rw [List.cons_append, List.cons_append] at h
        exact ih.mpr ⟨pre', post, (List.cons.inj h).2⟩

/-! ## The source's patterns -/

def noParen (c : Char) : Bool := !(c == '(' || c == ')')
def noParenD (c : Char) : Bool := !(c == '(' || c == ')' || c == 'd')
def notD (c : Char) : Bool := !(c == 'd')
def noBrace (c : Char) : Bool := !(c == '{' || c == '}')
def notCaret (c : Char) : Bool := !(c == '^')
def notWs (c : Char) : Bool := !(isWsC c)
def notNl (c : Char) : Bool := !(c == '\n')
def usBrace (c : Char) : Bool := c == '_' || c == '{'
def isLpar (c : Char) : Bool := c == '('
def isRpar (c : Char) : Bool := c == ')'
def isRbrace (c : Char) : Bool := c == '}'

/-- `d²/d([a-z])²\s*\(?([^()]+)\)?` (line 145 of the source). -/
def pSecondDeriv : List RItem :=
  [.lit (strL "d²/d"), .cls isAzLower, .lit (strL "²"), .star isWsC, .opt isLpar,
   .plus noParen, .opt isRpar]

/-- `∂/∂([a-z])\s*\(?([^()]+)\)?` (line 160). -/
def pPartialDeriv : List RItem :=
  [.lit (strL "∂/∂"), .cls isAzLower, .star isWsC, .opt isLpar, .plus noParen, .opt isRpar]

/-- `∂²/∂([a-z])²\s*\(?([^()]+)\)?` (line 175). -/
def pSecondPartial : List RItem :=
  [.lit (strL "∂²/∂"), .cls isAzLower, .lit (strL "²"), .star isWsC, .opt isLpar,
   .plus noParen, .opt isRpar]

/-- `∂²/∂([a-z])∂([a-z])\s*\(?([^()]+)\)?` (line 186). -/
def pMixedPartial : List RItem :=
  [.lit (strL "∂²/∂"), .cls isAzLower, .lit (strL "∂"), .cls isAzLower, .star isWsC,
   .opt isLpar, .plus noParen, .opt isRpar]

/-- `d/d([a-z])\s*\(?([^()]+)\)?` (line 198). -/
def pFirstDeriv : List RItem :=
  [.lit (strL "d/d"), .cls isAzLower, .star isWsC, .opt isLpar, .plus noParen, .opt isRpar]

/-- `∫_([^\^]+)\^([^\s]+)\s*\(?([^()d]+)\)?\s*d([a-z])` (line 213). -/
def pDefInt : List RItem :=
  [.lit (strL "∫_"), .plus notCaret, .lit (strL "^"), .plus notWs, .star isWsC,
   .opt isLpar, .plus noParenD, .opt isRpar, .star isWsC, .lit (strL "d"), .cls isAzLower]

/-- `∫\s*([^d]*)\s*d([a-z])` (line 226). -/
def pIndefInt : List RItem :=
  [.lit (strL "∫"), .star isWsC, .star notD, .star isWsC, .lit (strL "d"), .cls isAzLower]

/-- `lim[_{]?([a-z])->([^{}]+)[}]?\s*\(?([^()]+)\)?` (line 247). -/
def pLimit : List RItem :=
  [.lit (strL "lim"), .opt usBrace, .cls isAzLower, .lit (strL "->"), .plus noBrace,
   .opt isRbrace, .star isWsC, .opt isLpar, .plus noParen, .opt isRpar]

/-- `∫\s*\(\s*d/d([a-z])\s*\(([^()]+)\)\s*\)\s*d([a-z])` (line 72). -/
def pIntOfDeriv : List RItem :=
  [.lit (strL "∫"), .star isWsC, .lit (strL "("), .star isWsC, .lit (strL "d/d"),
   .cls isAzLower, .star isWsC, .lit (strL "("), .plus noParen, .lit (strL ")"),
   .star isWsC, .lit (strL ")"), .star isWsC, .lit (strL "d"), .cls isAzLower]

/-- `d/d([a-z])\s*\(\s*∫\s*([^d]+)\s*d([a-z])\s*\)` (line 96). -/
def pDerivOfInt : List RItem :=
  [.lit (strL "d/d"), .cls isAzLower, .star isWsC, .lit (strL "("), .star isWsC,
   .lit (strL "∫"), .star isWsC, .plus notD, .star isWsC, .lit (strL "d"),
   .cls isAzLower, .star isWsC, .lit (strL ")")]

/-- `d/d([a-z])\s*\(\s*lim[_{]?([a-z])->([^{}]+)[}]?\s*\(([^()]+)\)\s*\)` (line 112). -/
def pDerivOfLimit : List RItem :=
  [.lit (strL "d/d"), .cls isAzLower, .star isWsC, .lit (strL "("), .star isWsC,
   .lit (strL "lim"), .opt usBrace, .cls isAzLower, .lit (strL "->"), .plus noBrace,
   .opt isRbrace, .star isWsC, .lit (strL "("), .plus noParen, .lit (strL ")"),
   .star isWsC, .lit (strL ")")]

/-- `∫\s*\(\s*lim[_{]?([a-z])->([^{}]+)[}]?\s*\(([^()]+)\)\s*\)\s*d([a-z])` (line 127). -/
def pIntOfLimit : List RItem :=
  [.lit (strL "∫"), .star isWsC, .lit (strL "("), .star isWsC, .lit (strL "lim"),
   .opt usBrace, .cls isAzLower, .lit (strL "->"), .plus noBrace, .opt isRbrace,
   .star isWsC, .lit (strL "("), .plus noParen, .lit (strL ")"), .star isWsC,
   .lit (strL ")"), .star isWsC, .lit (strL "d"), .cls isAzLower]

/-- `integrate\((.+),\s*([a-z])\)` (line 479). -/
def pIntegrateCall : List RItem :=
  [.lit (strL "integrate("), .plus notNl, .lit (strL ","), .star isWsC,
   .cls isAzLower, .lit (strL ")")]

/-! ## Replacement templates -/

/-- the `if inner_expr.strip() == "sin x"` normalization (lines 152, 167, 205). -/
def sinxFix (l : List Char) : List Char :=
  if pyStrip l = strL "sin x" then strL "sin(x)" else l

def mkSecondDeriv (chs : List (List Char)) : List Char :=
  match chs with
  | [_, v, _, _, _, inner, _] => strL "diff(" ++ sinxFix inner ++ strL ", " ++ v ++ strL ", 2)"
  | _ => []

def mkPartialDeriv (chs : List (List Char)) : List Char :=
  match chs with
  | [_, v, _, _, inner, _] => strL "diff(" ++ sinxFix inner ++ strL ", " ++ v ++ strL ")"
  | _ => []

def mkSecondPartial (chs : List (List Char)) : List Char :=
  match chs with
  | [_, v, _, _, _, inner, _] => strL "diff(" ++ inner ++ strL ", " ++ v ++ strL ", 2)"
  | _ => []

def mkMixedPartial (chs : List (List Char)) : List Char :=
  match chs with
  | [_, v1, _, v2, _, _, inner, _] =>
      strL "diff(diff(" ++ inner ++ strL ", " ++ v1 ++ strL "), " ++ v2 ++ strL ")"
  | _ => []

def mkFirstDeriv (chs : List (List Char)) : List Char :=
  match chs with
  | [_, v, _, _, inner, _] => strL "diff(" ++ sinxFix inner ++ strL ", " ++ v ++ strL ")"
  | _ => []

def mkDefInt (chs : List (List Char)) : List Char :=
  match chs with
  | [_, lower, _, upper, _, _, inner, _, _, _, v] =>
      strL "integrate(" ++ inner ++ strL ", (" ++ v ++ strL ", " ++ lower ++ strL ", " ++
        upper ++ strL "))"
  | _ => []

/-- Python `str.isdigit()` on the inputs in scope. -/
def pyIsDigit (l : List Char) : Bool := !l.isEmpty && l.all isDig

/-- lines 233-236: the `isdigit` / digit-variable tweaks applied to the
stripped integrand of the indefinite-integral loop. -/
def indefTweak (g1 v : List Char) : List Char :=
  if pyIsDigit (pyStrip g1) && (v == strL "x") then pyStrip g1 ++ strL "*x"
  else if decide (2 ≤ (pyStrip g1).length) && isDig ((pyStrip g1).headD ' ') &&
      (((pyStrip g1).drop 1).headD ' ' == v.headD ' ') then
    [(pyStrip g1).headD ' '] ++ strL "*" ++ (pyStrip g1).drop 1
  else pyStrip g1

/-- lines 239-240: drop one unbalanced trailing parenthesis. -/
def indefStripParen (l : List Char) : List Char :=
  if l.getLast? == some ')' && decide (l.count '(' < l.count ')') then pyStrip l.dropLast
  else l

def mkIndefInt (chs : List (List Char)) : List Char :=
  match chs with
  | [_, _, g1, _, _, v] =>
      strL "integrate(" ++ indefStripParen (indefTweak g1 v) ++ strL ", " ++ v ++ strL ")"
  | _ => []

/-- lines 254-258: normalize infinity spellings in the approach value. -/
def limApproach (app : List Char) : List Char :=
  if app = strL "inf" ∨ app = strL "infinity" ∨ app = strL "∞" then strL "oo"
  else if app = strL "-inf" ∨ app = strL "-infinity" ∨ app = strL "-∞" then strL "-oo"
  else app

def mkLimit (chs : List (List Char)) : List Char :=
  match chs with
  | [_, _, v, _, app, _, _, _, inner, _] =>
      strL "limit(" ++ inner ++ strL ", " ++ v ++ strL ", " ++ limApproach app ++ strL ")"
  | _ => []

/-! ## `parse_combined_expression` -/

/-- lines 95-263 of the source, after the preprocessing step: the three
nested-form searches that run on preprocessed text, and the eight rewrite
loops.  The argument is the already-preprocessed text. -/
def parseRewrites (e : List Char) : List Char :=
  match searchPre pDerivOfInt e with
  | some (_, chs, _) =>
    (match chs with
    | [_, xv, _, _, _, _, _, g2, _, _, tv, _, _] =>
      if tv ≠ xv then replaceChar (tv.headD ' ') (xv.headD ' ') (pyStrip g2)
      else strL "diff(integrate(" ++ pyStrip g2 ++ strL ", " ++ tv ++ strL "), " ++ xv ++ strL ")"
    | _ => e)
  | none =>
  match searchPre pDerivOfLimit e with
  | some (_, chs, _) =>
    (match chs with
    | [_, xv, _, _, _, _, _, tv, _, app, _, _, _, inner, _, _, _] =>
      if tv ≠ xv ∧ (xv.headD ' ') ∉ inner then strL "0"
      else strL "diff(limit(" ++ inner ++ strL ", " ++ tv ++ strL ", " ++ app ++ strL "), " ++
        xv ++ strL ")"
    | _ => e)
  | none =>
  match searchPre pIntOfLimit e with
  | some (_, chs, _) =>
    (match chs with
    | [_, _, _, _, _, _, tv, _, app, _, _, _, inner, _, _, _, _, _, xv] =>
      if app = xv then
        strL "integrate(" ++ replaceChar (tv.headD ' ') (xv.headD ' ') inner ++ strL ", " ++
          xv ++ strL ")"
      else strL "integrate(limit(" ++ inner ++ strL ", " ++ tv ++ strL ", " ++ app ++
        strL "), " ++ xv ++ strL ")"
    | _ => e)
  | none =>
    runLoop pLimit mkLimit '>'
      (runLoop pIndefInt mkIndefInt '∫'
      (runLoop pDefInt mkDefInt '∫'
      (runLoop pFirstDeriv mkFirstDeriv '/'
      (runLoop pMixedPartial mkMixedPartial '∂'
      (runLoop pSecondPartial mkSecondPartial '∂'
      (runLoop pPartialDeriv mkPartialDeriv '∂'
      (runLoop pSecondDeriv mkSecondDeriv '²' e)))))))

/-- lines 93-263: preprocess, then rewrite. -/
def parseFromPre (expr0 : List Char) : List Char :=
  parseRewrites (preprocess_expression expr0)

/-- `parse_combined_expression` (lines 25-263 of the source). -/
def parse_combined_expression (expr : List Char) : List Char :=
  if pyStrip expr = strL "d/dx sin(x)" ∨ pyStrip expr = strL "d/dx(sin(x))" ∨
     pyStrip expr = strL "d/dx sin x" ∨ pyStrip expr = strL "d/dx(sin x)" then
    strL "cos(x)"
  else if pyStrip expr = strL "d²/dx²(sin(x))" ∨ pyStrip expr = strL "d²/dx²(sin x)" ∨
     pyStrip expr = strL "d²/dx² sin(x)" ∨ pyStrip expr = strL "d²/dx² sin x" then
    strL "-sin(x)"
  else if pyStrip expr = strL "∂/∂x(sin(x))" ∨ pyStrip expr = strL "∂/∂x sin(x)" ∨
     pyStrip expr = strL "∂/∂x(sin x)" ∨ pyStrip expr = strL "∂/∂x sin x" then
    strL "cos(x)"
  else if isSub (strL "∫(d/dx(x^2)) dx") expr = true ∨
      isSub (strL "∫(d/dx(x**2)) dx") expr = true then
    strL "x^2"
  else if isSub (strL "lim_{x->0}(sin(x)/x)") expr = true ∨
      isSub (strL "lim x->0 sin(x)/x") expr = true then
    strL "1"
  else if isSub (strL "d/dx(lim_{t->0}(sin(t)/t))") expr = true then
    strL "0"
  else if isSub (strL "∫(lim_{t->x}(t^2)) dx") expr = true then
    strL "x^3/3"
  else if (strL "∫").isPrefixOf (pyStrip expr) = true ∧ 'd' ∈ expr ∧
      (strL "d/d").isPrefixOf expr = false then
    match searchPre pIntOfDeriv expr with
    | some (_, chs, _) =>
      (match chs with
      | [_, _, _, _, _, dv, _, _, inner, _, _, _, _, _, iv] =>
        if dv = iv then inner
        else strL "integrate(diff(" ++ inner ++ strL ", " ++ dv ++ strL "), " ++ iv ++ strL ")"
      | _ => parseFromPre expr)
    | none =>
      if 2 ≤ (pySplit 'd' (pyStrip expr)).length then
        strL "integrate(" ++ pyStrip (((pySplit 'd' (pyStrip expr)).headD []).drop 1) ++
          strL ", " ++ pyStrip ((pySplit 'd' (pyStrip expr)).getLastD []) ++ strL ")"
      else parseFromPre expr
  else parseFromPre expr

/-! ## `evaluate_combined_expression`

The sympy engine is an opaque dependency whose parser may throw; it is a
structure parameter.  Streamlit notifications are collected in an ordered
log.  The function value `none` models Python's implicit `return None`
when control falls off the end of the function body. -/

/-- a UI notification: `st.info` / `st.success` / `st.warning` / `st.error`
(lines 376, 380, 425, 477, 513 of the source). -/
inductive Msg where
  | info (s : List Char)
  | success (s : List Char)
  | warning (s : List Char)
  | error (s : List Char)
deriving DecidableEq

/-- the symbolic engine.  `sympify` may fail with a message, mirroring the
exceptions the source catches; `cosx`, `sinx`, `negSinx` model the
expressions the source constructs directly (`sp.cos(x)`, …); `render` is
`str` on engine values. -/
structure Engine (α : Type) where
  sympify : List Char → Except (List Char) α
  integrate : α → List Char → α
  simplify : α → α
  render : α → List Char
  cosx : α
  sinx : α
  negSinx : α

/-- the two record shapes `evaluate_combined_expression` is documented to
return: `{result, parsed, steps}` or `{error, parsed}`. -/
inductive Res (α : Type) where
  | ok (result : α) (parsed : List Char) (steps : List (List Char))
  | err (emsg : List Char) (parsed : Option (List Char))
deriving DecidableEq

/-- `re.sub(r'(\d)([a-zA-Z])', r'\1*\2', ...)` (line 494, letters only). -/
def insNumMulB : List Char → List Char
  | [] => []
  | [c] => [c]
  | a :: b :: r =>
    if isDig a && isLett b then a :: '*' :: b :: insNumMulB r
    else a :: insNumMulB (b :: r)

/-- lines 463-515 of the source: the `except` ladder around the generic
evaluation; `m` is the message of the caught exception `inner_e`. -/
def evalFallback {α : Type} (eng : Engine α) (s parsed m : List Char) :
    Option (Res α) × List Msg :=
  if parsed = strL "sin(x)" then
    (some (.ok eng.sinx parsed
      [strL "Original expression: " ++ s,
       strL "Applied Fundamental Theorem of Calculus",
       strL "Result: sin(x)"]), [])
  else if (strL "integrate(").isPrefixOf parsed = true then
    let log := [Msg.warning (strL "Attempting direct integration...")]
    match searchPre pIntegrateCall parsed with
    | some (_, chs, _) =>
      (match chs with
      | [_, g1, _, _, v, _] =>
        let integrand0 :=
          if pyIsDigit g1 && (v == strL "x") then g1 ++ strL "*x"
          else if decide (2 ≤ g1.length) && isDig (g1.headD ' ') &&
              ((g1.drop 1).headD ' ' == v.headD ' ') then
            [g1.headD ' '] ++ strL "*" ++ g1.drop 1
          else g1
        let integrand := insNumMulB integrand0
        match eng.sympify integrand with
        | .ok ie =>
          let simplified := eng.simplify (eng.integrate ie v)
          (some (.ok simplified parsed
            [strL "Original expression: " ++ s,
             strL "Integrand: " ++ integrand,
             strL "Variable of integration: " ++ v,
             strL "Result: " ++ eng.render simplified ++ strL " + C"]), log)
        | .error m2 =>
          (none, log ++ [Msg.error (strL "Direct integration failed: " ++ m2)])
      | _ => (none, log))
    | none => (none, log)
  else
    (some (.err m (some parsed)), [])

/-- lines 428-515 of the source: the generic sympify/simplify evaluation
with its fallback ladder. -/
def evalGeneric {α : Type} (eng : Engine α) (s parsed : List Char) :
    Option (Res α) × List Msg :=
  if parsed = strL "x^2" ∨ parsed = strL "1" ∨ parsed = strL "0" ∨
      parsed = strL "x^3/3" then
    let src := if parsed = strL "x^2" then strL "x**2"
      else if parsed = strL "x^3/3" then strL "x**3/3" else parsed
    match eng.sympify src with
    | .ok v =>
      (some (.ok v parsed
        [strL "Original expression: " ++ s,
         strL "Evaluated result: " ++ eng.render v]), [])
    | .error m => evalFallback eng s parsed m
  else
    match eng.sympify parsed with
    | .ok v =>
      let simplified := eng.simplify v
      (some (.ok simplified parsed
        [strL "Original expression: " ++ s,
         strL "Parsed as: " ++ parsed,
         strL "Evaluated result: " ++ eng.render simplified]), [])
    | .error m => evalFallback eng s parsed m

/-- `evaluate_combined_expression` (lines 265-520 of the source). -/
def evaluate_combined_expression {α : Type} (eng : Engine α) (s : List Char) :
    Option (Res α) × List Msg :=
  if pyStrip s = strL "d/dx sin(x)" ∨ pyStrip s = strL "d/dx(sin(x))" ∨
     pyStrip s = strL "d/dx sin x" ∨ pyStrip s = strL "d/dx(sin x)" then
    (some (.ok eng.cosx (strL "cos(x)")
      [strL "Original expression: " ++ s,
       strL "Taking the derivative of sin(x) with respect to x",
       strL "The derivative of sin(x) is cos(x)",
       strL "Therefore: d/dx sin(x) = cos(x)"]), [])
  else if pyStrip s = strL "d²/dx² sin(x)" ∨ pyStrip s = strL "d²/dx²(sin(x))" ∨
     pyStrip s = strL "d²/dx² sin x" ∨ pyStrip s = strL "d²/dx²(sin x)" then
    (some (.ok eng.negSinx (strL "-sin(x)")
      [strL "Original expression: " ++ s,
       strL "Taking the second derivative of sin(x) with respect to x",
       strL "The first derivative of sin(x) is cos(x)",
       strL "The second derivative of sin(x) is -sin(x)",
       strL "Therefore: d²/dx² sin(x) = -sin(x)"]), [])
  else if pyStrip s = strL "∂/∂x sin(x)" ∨ pyStrip s = strL "∂/∂x(sin(x))" ∨
     pyStrip s = strL "∂/∂x sin x" ∨ pyStrip s = strL "∂/∂x(sin x)" then
    (some (.ok eng.cosx (strL "cos(x)")
      [strL "Original expression: " ++ s,
       strL "Taking the partial derivative of sin(x) with respect to x",
       strL "The partial derivative of sin(x) with respect to x is cos(x)",
       strL "Therefore: ∂/∂x sin(x) = cos(x)"]), [])
  else if isSub (strL "∫(d/dx(x^2)) dx") s = true ∨
      isSub (strL "∫(d/dx(x**2)) dx") s = true then
    match eng.sympify (strL "x**2") with
    | .ok v =>
      (some (.ok v (strL "x^2")
        [strL "Original expression: " ++ s,
         strL "This is the integral of a derivative",
         strL "By the Fundamental Theorem of Calculus: ∫(d/dx(f(x))) dx = f(x) + C",
         strL "Therefore: ∫(d/dx(x^2)) dx = x^2 + C"]), [])
    | .error m => (some (.err m none), [])
  else if isSub (strL "lim_{x->0}(sin(x)/x)") s = true ∨
      isSub (strL "lim x->0 sin(x)/x") s = true then
    match eng.sympify (strL "1") with
    | .ok v =>
      (some (.ok v (strL "1")
        [strL "Original expression: " ++ s,
         strL "This is a well-known limit in calculus",
         strL "Using L'Hôpital's rule or Taylor series expansion",
         strL "The limit of sin(x)/x as x approaches 0 is 1"]), [])
    | .error m => (some (.err m none), [])
  else if isSub (strL "d/dx(lim_{t->0}(sin(t)/t))") s = true then
    match eng.sympify (strL "0") with
    | .ok v =>
      (some (.ok v (strL "0")
        [strL "Original expression: " ++ s,
         strL "The limit lim_{t->0}(sin(t)/t) = 1 is a constant",
         strL "The derivative of a constant is 0",
         strL "Therefore: d/dx(lim_{t->0}(sin(t)/t)) = 0"]), [])
    | .error m => (some (.err m none), [])
  else if isSub (strL "∫(lim_{t->x}(t^2)) dx") s = true then
    match eng.sympify (strL "x**3/3") with
    | .ok v =>
      (some (.ok v (strL "x^3/3")
        [strL "Original expression: " ++ s,
         strL "When t approaches x, lim_{t->x}(t^2) = x^2",
         strL "So we're integrating x^2 with respect to x",
         strL "The integral of x^2 dx = x^3/3 + C"]), [])
    | .error m => (some (.err m none), [])
  else
    let parsed := parse_combined_expression s
    let log1 := [Msg.info (strL "Parsed expression: `" ++ parsed ++ strL "`")]
    if pyStrip s = strL "d/dx(∫sin(t) dt)" then
      (some (.ok eng.sinx parsed
        [strL "Original expression: " ++ s,
         strL "This is the derivative of an indefinite integral",
         strL "By the Fundamental Theorem of Calculus: d/dx(∫f(t) dt) = f(x)",
         strL "Therefore: d/dx(∫sin(t) dt) = sin(x)"]),
       log1 ++ [Msg.success (strL "Special case detected: d/dx(∫sin(t) dt) = sin(x)")])
    else if (strL "∫").isPrefixOf (pyStrip s) = true ∧ 'd' ∈ s ∧
        (strL "d/d").isPrefixOf s = false then
      let parts := pySplit 'd' (pyStrip s)
      if 2 ≤ parts.length then
        let integrand := pyStrip ((parts.headD []).drop 1)
        let v := pyStrip (parts.getLastD [])
        match eng.sympify integrand with
        | .ok ie =>
          let simplified := eng.simplify (eng.integrate ie v)
          (some (.ok simplified parsed
            [strL "Original expression: " ++ s,
             strL "Integrand: " ++ integrand,
             strL "Variable of integration: " ++ v,
             strL "Result: " ++ eng.render simplified ++ strL " + C"]), log1)
        | .error m2 =>
          let g := evalGeneric eng s parsed
          (g.1, log1 ++ [Msg.warning (strL "Special case handling failed: " ++ m2)] ++ g.2)
      else
        let g := evalGeneric eng s parsed
        (g.1, log1 ++ g.2)
    else
      let g := evalGeneric eng s parsed
      (g.1, log1 ++ g.2)

/-- a small concrete engine used to instantiate the theorems about
`evaluate_combined_expression`: expressions are their source strings;
`sympify` fails exactly on the empty string, on strings still containing
an empty call argument (`(,`) and on strings containing the `∫` glyph,
as sympy's parser does on these inputs. -/
def strEngine : Engine (List Char) where
  sympify := fun l =>
    if l = [] ∨ isSub (strL "(,") l = true ∨ '∫' ∈ l then
      .error (strL "Sympify could not parse the expression")
    else .ok l
  integrate := fun e v => strL "Integral(" ++ e ++ strL ", " ++ v ++ strL ")"
  simplify := fun e => e
  render := fun e => e
  cosx := strL "cos(x)"
  sinx := strL "sin(x)"
  negSinx := strL "-sin(x)"

/-! ## Claim C1 -/

/-- C1: the claim says `evaluate_combined_expression` always returns a
success record or an error record.  It does not: on input `∫ dx` the
parsed form is `integrate(, x)`; when the engine rejects both the empty
integrand and that string (as sympy does), the direct-integration regex
`integrate\((.+),\s*([a-z])\)` fails to match, the `except` ladder ends
without a `return`, and the function falls off its end returning `None`.
The hypotheses state exactly the two sympy behaviours involved. -/
theorem evaluate_none_on_empty_integrand {α : Type} (eng : Engine α) (m1 m2 : List Char)
    (h1 : eng.sympify [] = .error m1)
    (h2 : eng.sympify (strL "integrate(, x)") = .error m2) :
    (evaluate_combined_expression eng (strL "∫ dx")).1 = none := by
  unfold evaluate_combined_expression
  rw [if_neg (by decide), if_neg (by decide), if_neg (by decide), if_neg (by decide),
    if_neg (by decide), if_neg (by decide), if_neg (by decide), if_neg (by decide),
    if_pos (by decide), if_pos (by decide)]
  rw [show parse_combined_expression (strL "∫ dx") = strL "integrate(, x)" from by decide]
  dsimp only
  rw [show pyStrip (((pySplit 'd' (pyStrip (strL "∫ dx"))).headD []).drop 1) = [] from by decide]
  rw [h1]
  dsimp only
  unfold evalGeneric
  rw [if_neg (by decide), h2]
  dsimp only
  unfold evalFallback
  rw [if_neg (by decide), if_pos (by decide)]
  rw [show searchPre pIntegrateCall (strL "integrate(, x)") = none from by decide]

/-- C1 witness: the concrete model engine realizes both hypotheses. -/
theorem evaluate_none_on_empty_integrand_wit :
    (evaluate_combined_expression strEngine (strL "∫ dx")).1 = none :=
  evaluate_none_on_empty_integrand strEngine
    (strL "Sympify could not parse the expression")
    (strL "Sympify could not parse the expression") rfl rfl

/-! ## Claims C8 and C9 -/

theorem mem_dropWhile_of_mem {p : Char → Bool} {c : Char} {l : List Char}
    (hc : c ∈ l) (hp : p c = false) : c ∈ l.dropWhile p := by
  induction l with
  | nil => simp at hc
  | cons a l ih =>
    rw [List.dropWhile_cons]
    by_cases ha : p a = true
    · rw [if_pos ha]
      rcases List.mem_cons.mp hc with rfl | hc'
      · rw [ha] at hp; exact absurd hp (by simp)
      · exact ih hc'
    · rw [if_neg ha]
      exact hc

/-- a non-whitespace character survives `strip()`. -/
theorem mem_pyStrip {c : Char} {l : List Char} (hc : c ∈ l) (hw : isWsC c = false) :
    c ∈ pyStrip l := by
  unfold pyStrip
  rw [List.mem_reverse]
  refine mem_dropWhile_of_mem ?_ hw
  rw [List.mem_reverse]
  exact mem_dropWhile_of_mem hc hw

theorem mem_of_isSub {pat s : List Char} {c : Char} (h : isSub pat s = true) (hc : c ∈ pat) :
    c ∈ s := by
  obtain ⟨pre, post, rfl⟩ := isSub_iff.mp h
  simp [hc]

/-- C8 amended: an input containing the catalog limit string hits the
literal fast path with value `sympify("1")`, parsed form `1` and the
canned step trace — provided no earlier catalog entry (the
`∫(d/dx(x^2)) dx` / `∫(d/dx(x**2)) dx` checks, which the source tests
first) also matches the input. -/
theorem evaluate_limit_catalog {α : Type} (eng : Engine α) (s : List Char) (one : α)
    (hlim : isSub (strL "lim_{x->0}(sin(x)/x)") s = true ∨
      isSub (strL "lim x->0 sin(x)/x") s = true)
    (hint1 : isSub (strL "∫(d/dx(x^2)) dx") s = false)
    (hint2 : isSub (strL "∫(d/dx(x**2)) dx") s = false)
    (h1 : eng.sympify (strL "1") = .ok one) :
    evaluate_combined_expression eng s =
      (some (.ok one (strL "1")
        [strL "Original expression: " ++ s,
         strL "This is a well-known limit in calculus",
         strL "Using L'Hôpital's rule or Taylor series expansion",
         strL "The limit of sin(x)/x as x approaches 0 is 1"]), []) := by
  have hgt : '>' ∈ s := by
    rcases hlim with h | h
    · exact mem_of_isSub h (by decide)
    · exact mem_of_isSub h (by decide)
  have hstrip : ∀ L : List Char, '>' ∉ L → pyStrip s ≠ L := by
    intro L hL heq
    exact hL (heq ▸ mem_pyStrip hgt (by decide))
  unfold evaluate_combined_expression
  rw [if_neg (by
    push_neg
    exact ⟨hstrip _ (by decide), hstrip _ (by decide), hstrip _ (by decide),
      hstrip _ (by decide)⟩)]
  rw [if_neg (by
    push_neg
    exact ⟨hstrip _ (by decide), hstrip _ (by decide), hstrip _ (by decide),
      hstrip _ (by decide)⟩)]
  rw [if_neg (by
    push_neg
    exact ⟨hstrip _ (by decide), hstrip _ (by decide), hstrip _ (by decide),
      hstrip _ (by decide)⟩)]
  rw [if_neg (by simp [hint1, hint2])]
  rw [if_pos hlim, h1]

/-- C8 witness at a concrete input and the model engine. -/
theorem evaluate_limit_catalog_wit :
    evaluate_combined_expression strEngine (strL "see lim x->0 sin(x)/x") =
      (some (.ok (strL "1") (strL "1")
        [strL "Original expression: " ++ strL "see lim x->0 sin(x)/x",
         strL "This is a well-known limit in calculus",
         strL "Using L'Hôpital's rule or Taylor series expansion",
         strL "The limit of sin(x)/x as x approaches 0 is 1"]), []) :=
  evaluate_limit_catalog strEngine (strL "see lim x->0 sin(x)/x") (strL "1")
    (Or.inr (by decide)) (by decide) (by decide) rfl

/-- C8 counterexample: an input that contains the catalog limit string but
also the `∫(d/dx(x^2)) dx` catalog string is answered by the earlier
integral-of-derivative fast path (`parsed = "x^2"`), not by the limit fast
path with result 1, refuting the claim as stated. -/
theorem evaluate_limit_shadowed :
    isSub (strL "lim_{x->0}(sin(x)/x)") (strL "∫(d/dx(x^2)) dx lim_{x->0}(sin(x)/x)") = true ∧
    evaluate_combined_expression strEngine (strL "∫(d/dx(x^2)) dx lim_{x->0}(sin(x)/x)") =
      (some (.ok (strL "x**2") (strL "x^2")
        [strL "Original expression: " ++ strL "∫(d/dx(x^2)) dx lim_{x->0}(sin(x)/x)",
         strL "This is the integral of a derivative",
         strL "By the Fundamental Theorem of Calculus: ∫(d/dx(f(x))) dx = f(x) + C",
         strL "Therefore: ∫(d/dx(x^2)) dx = x^2 + C"]), []) := by
  constructor
  · decide
  · decide

/-- C9 counterexample: a single call of `evaluate_combined_expression` is
not free of I/O beyond the engine: already on input `x` it emits a
Streamlit notification (`st.info` at line 376), so the UI log is
non-empty. -/
theorem evaluate_emits_ui : (evaluate_combined_expression strEngine (strL "x")).2 ≠ [] := by
  decide

/-- C9 amended: the call reads and writes no shared mutable state — in the
embedding it is a pure function of the input and the engine — but it does
perform UI I/O: whenever the literal fast paths do not fire, the pipeline
emits the `st.info` notification carrying the parsed expression. -/
theorem evaluate_pipeline_info {α : Type} (eng : Engine α) (s : List Char)
    (h1 : ¬(pyStrip s = strL "d/dx sin(x)" ∨ pyStrip s = strL "d/dx(sin(x))" ∨
      pyStrip s = strL "d/dx sin x" ∨ pyStrip s = strL "d/dx(sin x)"))
    (h2 : ¬(pyStrip s = strL "d²/dx² sin(x)" ∨ pyStrip s = strL "d²/dx²(sin(x))" ∨
      pyStrip s = strL "d²/dx² sin x" ∨ pyStrip s = strL "d²/dx²(sin x)"))
    (h3 : ¬(pyStrip s = strL "∂/∂x sin(x)" ∨ pyStrip s = strL "∂/∂x(sin(x))" ∨
      pyStrip s = strL "∂/∂x sin x" ∨ pyStrip s = strL "∂/∂x(sin x)"))
    (h4 : isSub (strL "∫(d/dx(x^2)) dx") s = false)
    (h5 : isSub (strL "∫(d/dx(x**2)) dx") s = false)
    (h6 : isSub (strL "lim_{x->0}(sin(x)/x)") s = false)
    (h7 : isSub (strL "lim x->0 sin(x)/x") s = false)
    (h8 : isSub (strL "d/dx(lim_{t->0}(sin(t)/t))") s = false)
    (h9 : isSub (strL "∫(lim_{t->x}(t^2)) dx") s = false) :
    Msg.info (strL "Parsed expression: `" ++ parse_combined_expression s ++ strL "`") ∈
      (evaluate_combined_expression eng s).2 := by
  unfold evaluate_combined_expression
  rw [if_neg h1, if_neg h2, if_neg h3, if_neg (by simp [h4, h5]),
    if_neg (by simp [h6, h7]), if_neg (by simp [h8]), if_neg (by simp [h9])]
  dsimp only
  split
  · simp
  · split
    · split
      · split
        · simp
        · simp
      · simp
    · simp

/-- C9 witness: the hypotheses hold at the concrete input `x`. -/
theorem evaluate_pipeline_info_wit :
    Msg.info (strL "Parsed expression: `" ++ parse_combined_expression (strL "x") ++ strL "`") ∈
      (evaluate_combined_expression strEngine (strL "x")).2 :=
  evaluate_pipeline_info strEngine (strL "x") (by decide) (by decide) (by decide)
    (by decide) (by decide) (by decide) (by decide) (by decide) (by decide)

/-! ## Claim C6 -/

/-- every character that any replacement template of
`parse_combined_expression` can introduce. -/
def introChar (c : Char) : Bool := c ∈ strL "acdefgilmnorstx0123(), ^/*-"

theorem not_mem_of_introChar {c : Char} (hI : introChar c = false) {tpl : List Char}
    (htpl : tpl.all introChar = true) : c ∉ tpl := by
  intro hc
  have := List.all_eq_true.mp htpl c hc
  rw [this] at hI
  exact absurd hI (by simp)

theorem introChar_star {c : Char} (hI : introChar c = false) : c ≠ '*' := by
  rintro rfl; exact absurd hI (by decide)

theorem introChar_space {c : Char} (hI : introChar c = false) : c ≠ ' ' := by
  rintro rfl; exact absurd hI (by decide)

theorem mem_caretExpand {c : Char} : ∀ {l : List Char}, c ∈ caretExpand l → c ∈ l ∨ c = '*' := by
  intro l
  induction l with
  | nil => intro h; simp [caretExpand] at h
  | cons a r ih =>
    intro h
    unfold caretExpand at h
    by_cases ha : a = '^'
    · rw [if_pos ha] at h
      rcases List.mem_cons.mp h with rfl | h'
      · right; rfl
      · rcases List.mem_cons.mp h' with rfl | h''
        · right; rfl
        · rcases ih h'' with h3 | h3
          · left; exact List.mem_cons_of_mem a h3
          · right; exact h3
    · rw [if_neg ha] at h
      rcases List.mem_cons.mp h with rfl | h'
      · left; exact List.mem_cons_self ..
      · rcases ih h' with h3 | h3
        · left; exact List.mem_cons_of_mem a h3
        · right; exact h3

theorem mem_preprocess {c : Char} {s : List Char} (h : c ∈ preprocess_expression s) :
    c ∈ s ∨ c = '*' := by
  unfold preprocess_expression at h
  rcases mem_insParMul h with h1 | h1
  · rcases mem_insNumMul h1 with h2 | h2
    · exact mem_caretExpand h2
    · exact Or.inr h2
  · exact Or.inr h1

theorem mem_of_pyStrip {c : Char} {l : List Char} (h : c ∈ pyStrip l) : c ∈ l := by
  unfold pyStrip at h
  rw [List.mem_reverse] at h
  have h2 := (List.dropWhile_sublist _).subset h
  rw [List.mem_reverse] at h2
  exact (List.dropWhile_sublist _).subset h2

theorem mem_of_pySplit {sep c : Char} : ∀ {s p : List Char},
    p ∈ pySplit sep s → c ∈ p → c ∈ s := by
  intro s
  induction s with
  | nil =>
    intro p hp hc
    simp only [pySplit, List.mem_singleton] at hp
    subst hp; simp at hc
  | cons a r ih =>
    intro p hp hc
    unfold pySplit at hp
    by_cases ha : a = sep
    · rw [if_pos ha] at hp
      rcases List.mem_cons.mp hp with rfl | hp'
      · simp at hc
      · exact List.mem_cons_of_mem a (ih hp' hc)
    · rw [if_neg ha] at hp
      cases hps : pySplit sep r with
      | nil =>
        rw [hps] at hp
        simp only [List.mem_singleton] at hp
        subst hp
        rcases List.mem_singleton.mp hc with rfl
        exact List.mem_cons_self ..
      | cons q qs =>
        rw [hps] at hp
        rcases List.mem_cons.mp hp with rfl | hp'
        · rcases List.mem_cons.mp hc with rfl | hc'
          · exact List.mem_cons_self ..
          · exact List.mem_cons_of_mem a (ih (hps ▸ List.mem_cons_self ..) hc')
        · exact List.mem_cons_of_mem a (ih (hps ▸ List.mem_cons_of_mem q hp') hc)

theorem mem_replaceChar {t x c : Char} {l : List Char} (h : c ∈ replaceChar t x l) :
    c ∈ l ∨ c = x := by
  unfold replaceChar at h
  obtain ⟨d, hd, hdc⟩ := List.mem_map.mp h
  by_cases hdt : d = t
  · rw [if_pos hdt] at hdc
    exact Or.inr hdc.symm
  · rw [if_neg hdt] at hdc
    subst hdc
    exact Or.inl hd

theorem mem_headD {c : Char} {l : List Char} (h : c = l.headD ' ') : c ∈ l ∨ c = ' ' := by
  cases l with
  | nil => exact Or.inr h
  | cons a r => exact Or.inl (h ▸ List.mem_cons_self ..)

theorem searchPre_mem_chunk {its : List RItem} {s pre rest : List Char}
    {chs : List (List Char)} (hs : searchPre its s = some (pre, chs, rest))
    {ch : List Char} (hch : ch ∈ chs) {c : Char} (hc : c ∈ ch) : c ∈ s := by
  obtain ⟨hdecomp, -, -⟩ := searchPre_sound hs
  rw [hdecomp]
  simp only [List.mem_append]
  exact Or.inl (Or.inr (List.mem_flatten.mpr ⟨ch, hch, hc⟩))

theorem mem_sinxFix {c : Char} (hI : introChar c = false) {l : List Char}
    (h : c ∈ sinxFix l) : c ∈ l := by
  unfold sinxFix at h
  split at h
  · exact absurd h (not_mem_of_introChar hI (by decide))
  · exact h

theorem mem_mkSecondDeriv {c : Char} (hI : introChar c = false) {chs : List (List Char)}
    (h : c ∈ mkSecondDeriv chs) : c ∈ chs.flatten := by
  unfold mkSecondDeriv at h
  split at h
  · simp only [List.mem_append] at h
    rcases h with (((h | h) | h) | h) | h
    · exact absurd h (not_mem_of_introChar hI (by decide))
    · simp [mem_sinxFix hI h]
    · exact absurd h (not_mem_of_introChar hI (by decide))
    · simp [h]
    · exact absurd h (not_mem_of_introChar hI (by decide))
  · simp at h

theorem mem_mkPartialDeriv {c : Char} (hI : introChar c = false) {chs : List (List Char)}
    (h : c ∈ mkPartialDeriv chs) : c ∈ chs.flatten := by
  unfold mkPartialDeriv at h
  split at h
  · simp only [List.mem_append] at h
    rcases h with (((h | h) | h) | h) | h
    · exact absurd h (not_mem_of_introChar hI (by decide))
    · simp [mem_sinxFix hI h]
    · exact absurd h (not_mem_of_introChar hI (by decide))
    · simp [h]
    · exact absurd h (not_mem_of_introChar hI (by decide))
  · simp at h

theorem mem_mkSecondPartial {c : Char} (hI : introChar c = false) {chs : List (List Char)}
    (h : c ∈ mkSecondPartial chs) : c ∈ chs.flatten := by
  unfold mkSecondPartial at h
  split at h
  · simp only [List.mem_append] at h
    rcases h with (((h | h) | h) | h) | h
    · exact absurd h (not_mem_of_introChar hI (by decide))
    · simp [h]
    · exact absurd h (not_mem_of_introChar hI (by decide))
    · simp [h]
    · exact absurd h (not_mem_of_introChar hI (by decide))
  · simp at h

theorem mem_mkMixedPartial {c : Char} (hI : introChar c = false) {chs : List (List Char)}
    (h : c ∈ mkMixedPartial chs) : c ∈ chs.flatten := by
  unfold mkMixedPartial at h
  split at h
  · simp only [List.mem_append] at h
    rcases h with (((((h | h) | h) | h) | h) | h) | h
    · exact absurd h (not_mem_of_introChar hI (by decide))
    · simp [h]
    · exact absurd h (not_mem_of_introChar hI (by decide))
    · simp [h]
    · exact absurd h (not_mem_of_introChar hI (by decide))
    · simp [h]
    · exact absurd h (not_mem_of_introChar hI (by decide))
  · simp at h

theorem mem_mkFirstDeriv {c : Char} (hI : introChar c = false) {chs : List (List Char)}
    (h : c ∈ mkFirstDeriv chs) : c ∈ chs.flatten := by
  unfold mkFirstDeriv at h
  split at h
  · simp only [List.mem_append] at h
    rcases h with (((h | h) | h) | h) | h
    · exact absurd h (not_mem_of_introChar hI (by decide))
    · simp [mem_sinxFix hI h]
    · exact absurd h (not_mem_of_introChar hI (by decide))
    · simp [h]
    · exact absurd h (not_mem_of_introChar hI (by decide))
  · simp at h

theorem mem_mkDefInt {c : Char} (hI : introChar c = false) {chs : List (List Char)}
    (h : c ∈ mkDefInt chs) : c ∈ chs.flatten := by
  unfold mkDefInt at h
  split at h
  · simp only [List.mem_append] at h
    rcases h with (((((((h | h) | h) | h) | h) | h) | h) | h) | h
    · exact absurd h (not_mem_of_introChar hI (by decide))
    · simp [h]
    · exact absurd h (not_mem_of_introChar hI (by decide))
    · simp [h]
    · exact absurd h (not_mem_of_introChar hI (by decide))
    · simp [h]
    · exact absurd h (not_mem_of_introChar hI (by decide))
    · simp [h]
    · exact absurd h (not_mem_of_introChar hI (by decide))
  · simp at h

theorem mem_indefTweak {c : Char} (hI : introChar c = false) {g1 v : List Char}
    (h : c ∈ indefTweak g1 v) : c ∈ g1 := by
  unfold indefTweak at h
  split at h
  · rcases List.mem_append.mp h with h1 | h1
    · exact mem_of_pyStrip h1
    · exact absurd h1 (not_mem_of_introChar hI (by decide))
  · split at h
    · simp only [List.mem_append] at h
      rcases h with (h1 | h1) | h1
      · rcases mem_headD (List.mem_singleton.mp h1) with h2 | h2
        · exact mem_of_pyStrip h2
        · exact absurd h2 (introChar_space hI)
      · exact absurd h1 (not_mem_of_introChar hI (by decide))
      · exact mem_of_pyStrip (List.drop_subset _ _ h1)
    · exact mem_of_pyStrip h

theorem mem_indefStripParen {c : Char} {l : List Char} (h : c ∈ indefStripParen l) : c ∈ l := by
  unfold indefStripParen at h
  split at h
  · exact List.dropLast_subset _ (mem_of_pyStrip h)
  · exact h

theorem mem_mkIndefInt {c : Char} (hI : introChar c = false) {chs : List (List Char)}
    (h : c ∈ mkIndefInt chs) : c ∈ chs.flatten := by
  unfold mkIndefInt at h
  split at h
  · simp only [List.mem_append] at h
    rcases h with (((h | h) | h) | h) | h
    · exact absurd h (not_mem_of_introChar hI (by decide))
    · simp [mem_indefTweak hI (mem_indefStripParen h)]
    · exact absurd h (not_mem_of_introChar hI (by decide))
    · simp [h]
    · exact absurd h (not_mem_of_introChar hI (by decide))
  · simp at h

theorem mem_limApproach {c : Char} (hI : introChar c = false) {app : List Char}
    (h : c ∈ limApproach app) : c ∈ app := by
  unfold limApproach at h
  split at h
  · exact absurd h (not_mem_of_introChar hI (by decide))
  · split at h
    · exact absurd h (not_mem_of_introChar hI (by decide))
    · exact h

theorem mem_mkLimit {c : Char} (hI : introChar c = false) {chs : List (List Char)}
    (h : c ∈ mkLimit chs) : c ∈ chs.flatten := by
  unfold mkLimit at h
  split at h
  · simp only [List.mem_append] at h
    rcases h with (((((h | h) | h) | h) | h) | h) | h
    · exact absurd h (not_mem_of_introChar hI (by decide))
    · simp [h]
    · exact absurd h (not_mem_of_introChar hI (by decide))
    · simp [h]
    · exact absurd h (not_mem_of_introChar hI (by decide))
    · simp [mem_limApproach hI h]
    · exact absurd h (not_mem_of_introChar hI (by decide))
  · simp at h

theorem mem_rwLoop {its : List RItem} {mk : List (List Char) → List Char}
    (hmk : ∀ {c : Char}, introChar c = false → ∀ {chs : List (List Char)},
      c ∈ mk chs → c ∈ chs.flatten)
    {c : Char} (hI : introChar c = false) :
    ∀ (f : Nat) (s : List Char), c ∈ rwLoop its mk f s → c ∈ s := by
  intro f
  induction f with
  | zero => intro s h; exact h
  | succ f ih =>
    intro s h
    rw [rwLoop] at h
    cases hs : searchPre its s with
    | none => rw [hs] at h; exact h
    | some t =>
      obtain ⟨pre, chs, rest⟩ := t
      rw [hs] at h
      dsimp only at h
      have h2 := ih _ h
      obtain ⟨hdecomp, -, -⟩ := searchPre_sound hs
      rw [hdecomp]
      simp only [List.mem_append] at h2 ⊢
      rcases h2 with (h2 | h2) | h2
      · tauto
      · exact Or.inl (Or.inr (hmk hI h2))
      · tauto

theorem mem_runLoop {its : List RItem} {mk : List (List Char) → List Char}
    (hmk : ∀ {c : Char}, introChar c = false → ∀ {chs : List (List Char)},
      c ∈ mk chs → c ∈ chs.flatten)
    {c : Char} (hI : introChar c = false) {ch : Char} {s : List Char}
    (h : c ∈ runLoop its mk ch s) : c ∈ s :=
  mem_rwLoop hmk hI _ s h

theorem mem_parseRewrites {c : Char} (hI : introChar c = false) {e : List Char}
    (h : c ∈ parseRewrites e) : c ∈ e := by
  unfold parseRewrites at h
  split at h
  case h_1 t fst chs snd heq =>
    split at h
    case h_1 k0 xv k2 k3 k4 k5 k6 g2 k8 k9 tv k11 k12 =>
      split at h
      · rcases mem_replaceChar h with h1 | h1
        · exact searchPre_mem_chunk heq (by simp) (mem_of_pyStrip h1)
        · rcases mem_headD h1 with h2 | h2
          · exact searchPre_mem_chunk heq (by simp) h2
          · exact absurd h2 (introChar_space hI)
      · simp only [List.mem_append] at h
        rcases h with (((((h | h) | h) | h) | h) | h) | h
        · exact absurd h (not_mem_of_introChar hI (by decide))
        · exact searchPre_mem_chunk heq (by simp) (mem_of_pyStrip h)
        · exact absurd h (not_mem_of_introChar hI (by decide))
        · exact searchPre_mem_chunk heq (by simp) h
        · exact absurd h (not_mem_of_introChar hI (by decide))
        · exact searchPre_mem_chunk heq (by simp) h
        · exact absurd h (not_mem_of_introChar hI (by decide))
    case h_2 => exact h
  case h_2 =>
  split at h
  case h_1 t fst chs snd heq =>
    split at h
    case h_1 k0 xv k2 k3 k4 k5 k6 tv k8 app k10 k11 k12 inner k14 k15 k16 =>
      split at h
      · exact absurd h (not_mem_of_introChar hI (by decide))
      · simp only [List.mem_append] at h
        rcases h with (((((((h | h) | h) | h) | h) | h) | h) | h) | h
        · exact absurd h (not_mem_of_introChar hI (by decide))
        · exact searchPre_mem_chunk heq (by simp) h
        · exact absurd h (not_mem_of_introChar hI (by decide))
        · exact searchPre_mem_chunk heq (by simp) h
        · exact absurd h (not_mem_of_introChar hI (by decide))
        · exact searchPre_mem_chunk heq (by simp) h
        · exact absurd h (not_mem_of_introChar hI (by decide))
        · exact searchPre_mem_chunk heq (by simp) h
        · exact absurd h (not_mem_of_introChar hI (by decide))
    case h_2 => exact h
  case h_2 =>
  split at h
  case h_1 t fst chs snd heq =>
    split at h
    case h_1 k0 k1 k2 k3 k4 k5 tv k7 app k9 k10 k11 inner k13 k14 k15 k16 k17 xv =>
      split at h
      · simp only [List.mem_append] at h
        rcases h with (((h | h) | h) | h) | h
        · exact absurd h (not_mem_of_introChar hI (by decide))
        · rcases mem_replaceChar h with h1 | h1
          · exact searchPre_mem_chunk heq (by simp) h1
          · rcases mem_headD h1 with h2 | h2
            · exact searchPre_mem_chunk heq (by simp) h2
            · exact absurd h2 (introChar_space hI)
        · exact absurd h (not_mem_of_introChar hI (by decide))
        · exact searchPre_mem_chunk heq (by simp) h
        · exact absurd h (not_mem_of_introChar hI (by decide))
      · simp only [List.mem_append] at h
        rcases h with (((((((h | h) | h) | h) | h) | h) | h) | h) | h
        · exact absurd h (not_mem_of_introChar hI (by decide))
        · exact searchPre_mem_chunk heq (by simp) h
        · exact absurd h (not_mem_of_introChar hI (by decide))
        · exact searchPre_mem_chunk heq (by simp) h
        · exact absurd h (not_mem_of_introChar hI (by decide))
        · exact searchPre_mem_chunk heq (by simp) h
        · exact absurd h (not_mem_of_introChar hI (by decide))
        · exact searchPre_mem_chunk heq (by simp) h
        · exact absurd h (not_mem_of_introChar hI (by decide))
    case h_2 => exact h
  case h_2 =>
    exact mem_runLoop mem_mkSecondDeriv hI
      (mem_runLoop mem_mkPartialDeriv hI
      (mem_runLoop mem_mkSecondPartial hI
      (mem_runLoop mem_mkMixedPartial hI
      (mem_runLoop mem_mkFirstDeriv hI
      (mem_runLoop mem_mkDefInt hI
      (mem_runLoop mem_mkIndefInt hI
      (mem_runLoop mem_mkLimit hI h)))))))

theorem mem_parseFromPre {c : Char} (hI : introChar c = false) {expr : List Char}
    (h : c ∈ parseFromPre expr) : c ∈ expr := by
  unfold parseFromPre at h
  rcases mem_preprocess (mem_parseRewrites hI h) with h1 | h1
  · exact h1
  · exact absurd h1 (introChar_star hI)

theorem mem_listHeadD {c : Char} {L : List (List Char)} (h : c ∈ L.headD []) :
    ∃ p ∈ L, c ∈ p := by
  cases L with
  | nil => simp at h
  | cons a r => exact ⟨a, List.mem_cons_self .., h⟩

theorem mem_listGetLastD {c : Char} {L : List (List Char)} (h : c ∈ L.getLastD []) :
    ∃ p ∈ L, c ∈ p := by
  cases L with
  | nil => simp at h
  | cons a r =>
    rw [List.getLastD_cons] at h
    exact ⟨r.getLastD a, List.getLastD_mem_cons r a, h⟩

theorem parse_no_new_chars {c : Char} (hI : introChar c = false) {expr : List Char}
    (h : c ∈ parse_combined_expression expr) : c ∈ expr := by
  unfold parse_combined_expression at h
  split at h
  · exact absurd h (not_mem_of_introChar hI (by decide))
  split at h
  · exact absurd h (not_mem_of_introChar hI (by decide))
  split at h
  · exact absurd h (not_mem_of_introChar hI (by decide))
  split at h
  · exact absurd h (not_mem_of_introChar hI (by decide))
  split at h
  · exact absurd h (not_mem_of_introChar hI (by decide))
  split at h
  · exact absurd h (not_mem_of_introChar hI (by decide))
  split at h
  · exact absurd h (not_mem_of_introChar hI (by decide))
  split at h
  · split at h
    case h_1 t fst chs snd heq =>
      split at h
      case h_1 k0 k1 k2 k3 k4 dv k6 k7 inner k9 k10 k11 k12 k13 iv =>
        split at h
        · exact searchPre_mem_chunk heq (by simp) h
        · simp only [List.mem_append] at h
          rcases h with (((((h | h) | h) | h) | h) | h) | h
          · exact absurd h (not_mem_of_introChar hI (by decide))
          · exact searchPre_mem_chunk heq (by simp) h
          · exact absurd h (not_mem_of_introChar hI (by decide))
          · exact searchPre_mem_chunk heq (by simp) h
          · exact absurd h (not_mem_of_introChar hI (by decide))
          · exact searchPre_mem_chunk heq (by simp) h
          · exact absurd h (not_mem_of_introChar hI (by decide))
      case h_2 => exact mem_parseFromPre hI h
    case h_2 =>
      split at h
      · simp only [List.mem_append] at h
        rcases h with (((h | h) | h) | h) | h
        · exact absurd h (not_mem_of_introChar hI (by decide))
        · obtain ⟨p, hp, hcp⟩ := mem_listHeadD (List.mem_of_mem_drop (mem_of_pyStrip h))
          exact mem_of_pyStrip (mem_of_pySplit hp hcp)
        · exact absurd h (not_mem_of_introChar hI (by decide))
        · obtain ⟨p, hp, hcp⟩ := mem_listGetLastD (mem_of_pyStrip h)
          exact mem_of_pyStrip (mem_of_pySplit hp hcp)
        · exact absurd h (not_mem_of_introChar hI (by decide))
      · exact mem_parseFromPre hI h
  · exact mem_parseFromPre hI h

/-- C6 (corrected): the parser never *introduces* the notation glyphs: if none
of `∫`, `∂`, `²` occurs in the input text, then none occurs in the string
returned by `parse_combined_expression`.  The claim as stated — that the
returned string never contains these glyphs — is false: a glyph of the input
can survive rewriting into the output (see the counterexample). -/
theorem parse_no_glyph_introduction (expr : List Char)
    (h1 : '∫' ∉ expr) (h2 : '∂' ∉ expr) (h3 : '²' ∉ expr) :
    '∫' ∉ parse_combined_expression expr ∧ '∂' ∉ parse_combined_expression expr ∧
      '²' ∉ parse_combined_expression expr :=
  ⟨fun h => h1 (parse_no_new_chars (by decide) h),
   fun h => h2 (parse_no_new_chars (by decide) h),
   fun h => h3 (parse_no_new_chars (by decide) h)⟩

/-- Witness for C6 at the concrete input `d/dy(y^2)`. -/
theorem parse_no_glyph_introduction_wit :
    '∫' ∉ parse_combined_expression (strL "d/dy(y^2)") ∧
      '∂' ∉ parse_combined_expression (strL "d/dy(y^2)") ∧
      '²' ∉ parse_combined_expression (strL "d/dy(y^2)") :=
  parse_no_glyph_introduction (strL "d/dy(y^2)") (by decide) (by decide) (by decide)

/-- C6 counterexample: on input `∫∫x dx dx` the split-on-`d` fallback of the
`∫` branch (source lines 80-90) keeps the second `∫` inside the produced
integrand, so the returned canonical form still contains the glyph `∫`. -/
theorem parse_glyph_survives :
    parse_combined_expression (strL "∫∫x dx dx") = strL "integrate(∫x, x)" ∧
      '∫' ∈ parse_combined_expression (strL "∫∫x dx dx") :=
  ⟨by decide, by decide⟩

/-! ## C2: each rewrite loop strictly consumes its measure character -/

theorem count_pyStrip_le (m : Char) (l : List Char) : (pyStrip l).count m ≤ l.count m := by
  unfold pyStrip
  calc ((l.dropWhile isWsC).reverse.dropWhile isWsC).reverse.count m
      = ((l.dropWhile isWsC).reverse.dropWhile isWsC).count m := List.count_reverse ..
    _ ≤ (l.dropWhile isWsC).reverse.count m := (List.dropWhile_sublist _).count_le m
    _ = (l.dropWhile isWsC).count m := List.count_reverse ..
    _ ≤ l.count m := (List.dropWhile_sublist _).count_le m

theorem count_sinxFix_le {m : Char} (hm : (strL "sin(x)").count m = 0) (l : List Char) :
    (sinxFix l).count m ≤ l.count m := by
  unfold sinxFix
  split
  · exact le_of_eq_of_le hm (Nat.zero_le _)
  · exact le_refl _

theorem count_indefStripParen_le (m : Char) (l : List Char) :
    (indefStripParen l).count m ≤ l.count m := by
  unfold indefStripParen
  split
  · exact le_trans (count_pyStrip_le m _) ((List.dropLast_sublist l).count_le m)
  · exact le_refl _

theorem count_indefTweak_le {m : Char} (hm1 : m ≠ '*') (hm2 : m ≠ 'x') (g1 v : List Char) :
    (indefTweak g1 v).count m ≤ g1.count m := by
  have hps := count_pyStrip_le m g1
  have hstar : (strL "*").count m = 0 := by
    rw [List.count_eq_zero]; intro h; simp [strL] at h; exact hm1 h
  unfold indefTweak
  split
  · have h2 : (strL "*x").count m = 0 := by
      rw [List.count_eq_zero]; intro h; simp [strL] at h
      rcases h with rfl | rfl
      · exact hm1 rfl
      · exact hm2 rfl
    rw [List.count_append, h2]
    omega
  split
  · rename_i hcond
    simp only [Bool.and_eq_true, decide_eq_true_eq] at hcond
    obtain ⟨⟨hlen, -⟩, -⟩ := hcond
    cases hpg : pyStrip g1 with
    | nil => rw [hpg] at hlen; simp at hlen
    | cons a t =>
      rw [hpg] at hps
      have hkey : (List.cons a []).count m + t.count m = (a :: t).count m := by
        rw [show a :: t = [a] ++ t from rfl, List.count_append]
      simp only [List.headD_cons, List.drop_succ_cons, List.drop_zero,
        List.count_append, hstar]
      omega
  · exact hps

theorem count_limApproach_le {m : Char} (hm1 : m ≠ 'o') (hm2 : m ≠ '-') (app : List Char) :
    (limApproach app).count m ≤ app.count m := by
  have h1 : (strL "oo").count m = 0 := by
    rw [List.count_eq_zero]; intro h; simp [strL] at h; exact hm1 h
  have h2 : (strL "-oo").count m = 0 := by
    rw [List.count_eq_zero]; intro h; simp [strL] at h
    rcases h with rfl | rfl
    · exact hm2 rfl
    · exact hm1 rfl
  unfold limApproach
  split
  · exact le_of_eq_of_le h1 (Nat.zero_le _)
  split
  · exact le_of_eq_of_le h2 (Nat.zero_le _)
  · exact le_refl _

theorem dec_secondDeriv : ∀ s pre chs rest,
    searchPre pSecondDeriv s = some (pre, chs, rest) →
    (pre ++ mkSecondDeriv chs ++ rest).count '²' < s.count '²' := by
  intro s pre chs rest h
  obtain ⟨hdecomp, hf, -⟩ := searchPre_sound h
  unfold pSecondDeriv at hf
  obtain ⟨b1, u1, h1, hg1, rfl⟩ := List.forall₂_cons_left_iff.mp hf
  obtain ⟨b2, u2, h2, hg2, rfl⟩ := List.forall₂_cons_left_iff.mp hg1
  obtain ⟨b3, u3, h3, hg3, rfl⟩ := List.forall₂_cons_left_iff.mp hg2
  obtain ⟨b4, u4, h4, hg4, rfl⟩ := List.forall₂_cons_left_iff.mp hg3
  obtain ⟨b5, u5, h5, hg5, rfl⟩ := List.forall₂_cons_left_iff.mp hg4
  obtain ⟨b6, u6, h6, hg6, rfl⟩ := List.forall₂_cons_left_iff.mp hg5
  obtain ⟨b7, u7, h7, hg7, rfl⟩ := List.forall₂_cons_left_iff.mp hg6
  obtain rfl := List.forall₂_nil_left_iff.mp hg7
  have hb1 : b1 = strL "d²/d" := h1
  have hb3 : b3 = strL "²" := h3
  subst hb1 hb3 hdecomp
  rw [show mkSecondDeriv [strL "d²/d", b2, strL "²", b4, b5, b6, b7] =
    strL "diff(" ++ sinxFix b6 ++ strL ", " ++ b2 ++ strL ", 2)" from rfl]
  have hs : (sinxFix b6).count '²' ≤ b6.count '²' := count_sinxFix_le (by decide) b6
  simp only [List.flatten_cons, List.flatten_nil, List.count_append, List.count_nil,
    List.append_nil]
  rw [show (strL "d²/d").count '²' = 1 from by decide,
    show (strL "²").count '²' = 1 from by decide,
    show (strL "diff(").count '²' = 0 from by decide,
    show (strL ", ").count '²' = 0 from by decide,
    show (strL ", 2)").count '²' = 0 from by decide]
  omega


theorem dec_partialDeriv : ∀ s pre chs rest,
    searchPre pPartialDeriv s = some (pre, chs, rest) →
    (pre ++ mkPartialDeriv chs ++ rest).count '∂' < s.count '∂' := by
  intro s pre chs rest h
  obtain ⟨hdecomp, hf, -⟩ := searchPre_sound h
  unfold pPartialDeriv at hf
  obtain ⟨b1, u1, h1, hg1, rfl⟩ := List.forall₂_cons_left_iff.mp hf
  obtain ⟨b2, u2, h2, hg2, rfl⟩ := List.forall₂_cons_left_iff.mp hg1
  obtain ⟨b3, u3, h3, hg3, rfl⟩ := List.forall₂_cons_left_iff.mp hg2
  obtain ⟨b4, u4, h4, hg4, rfl⟩ := List.forall₂_cons_left_iff.mp hg3
  obtain ⟨b5, u5, h5, hg5, rfl⟩ := List.forall₂_cons_left_iff.mp hg4
  obtain ⟨b6, u6, h6, hg6, rfl⟩ := List.forall₂_cons_left_iff.mp hg5
  obtain rfl := List.forall₂_nil_left_iff.mp hg6
  have hb1 : b1 = strL "∂/∂" := h1
  subst hb1 hdecomp
  rw [show mkPartialDeriv [strL "∂/∂", b2, b3, b4, b5, b6] =
    strL "diff(" ++ sinxFix b5 ++ strL ", " ++ b2 ++ strL ")" from rfl]
  have hs : (sinxFix b5).count '∂' ≤ b5.count '∂' :=
    count_sinxFix_le (by decide) b5
  simp only [List.flatten_cons, List.flatten_nil, List.count_append, List.count_nil,
    List.append_nil]
  rw [show (strL "∂/∂").count '∂' = 2 from by decide,
    show (strL "diff(").count '∂' = 0 from by decide,
    show (strL ", ").count '∂' = 0 from by decide,
    show (strL ")").count '∂' = 0 from by decide]
  omega

theorem dec_secondPartial : ∀ s pre chs rest,
    searchPre pSecondPartial s = some (pre, chs, rest) →
    (pre ++ mkSecondPartial chs ++ rest).count '∂' < s.count '∂' := by
  intro s pre chs rest h
  obtain ⟨hdecomp, hf, -⟩ := searchPre_sound h
  unfold pSecondPartial at hf
  obtain ⟨b1, u1, h1, hg1, rfl⟩ := List.forall₂_cons_left_iff.mp hf
  obtain ⟨b2, u2, h2, hg2, rfl⟩ := List.forall₂_cons_left_iff.mp hg1
  obtain ⟨b3, u3, h3, hg3, rfl⟩ := List.forall₂_cons_left_iff.mp hg2
  obtain ⟨b4, u4, h4, hg4, rfl⟩ := List.forall₂_cons_left_iff.mp hg3
  obtain ⟨b5, u5, h5, hg5, rfl⟩ := List.forall₂_cons_left_iff.mp hg4
  obtain ⟨b6, u6, h6, hg6, rfl⟩ := List.forall₂_cons_left_iff.mp hg5
  obtain ⟨b7, u7, h7, hg7, rfl⟩ := List.forall₂_cons_left_iff.mp hg6
  obtain rfl := List.forall₂_nil_left_iff.mp hg7
  have hb1 : b1 = strL "∂²/∂" := h1
  subst hb1 hdecomp
  rw [show mkSecondPartial [strL "∂²/∂", b2, b3, b4, b5, b6, b7] =
    strL "diff(" ++ b6 ++ strL ", " ++ b2 ++ strL ", 2)" from rfl]
  simp only [List.flatten_cons, List.flatten_nil, List.count_append, List.count_nil,
    List.append_nil]
  rw [show (strL "∂²/∂").count '∂' = 2 from by decide,
    show (strL "diff(").count '∂' = 0 from by decide,
    show (strL ", ").count '∂' = 0 from by decide,
    show (strL ", 2)").count '∂' = 0 from by decide]
  omega

theorem dec_mixedPartial : ∀ s pre chs rest,
    searchPre pMixedPartial s = some (pre, chs, rest) →
    (pre ++ mkMixedPartial chs ++ rest).count '∂' < s.count '∂' := by
  intro s pre chs rest h
  obtain ⟨hdecomp, hf, -⟩ := searchPre_sound h
  unfold pMixedPartial at hf
  obtain ⟨b1, u1, h1, hg1, rfl⟩ := List.forall₂_cons_left_iff.mp hf
  obtain ⟨b2, u2, h2, hg2, rfl⟩ := List.forall₂_cons_left_iff.mp hg1
  obtain ⟨b3, u3, h3, hg3, rfl⟩ := List.forall₂_cons_left_iff.mp hg2
  obtain ⟨b4, u4, h4, hg4, rfl⟩ := List.forall₂_cons_left_iff.mp hg3
  obtain ⟨b5, u5, h5, hg5, rfl⟩ := List.forall₂_cons_left_iff.mp hg4
  obtain ⟨b6, u6, h6, hg6, rfl⟩ := List.forall₂_cons_left_iff.mp hg5
  obtain ⟨b7, u7, h7, hg7, rfl⟩ := List.forall₂_cons_left_iff.mp hg6
  obtain ⟨b8, u8, h8, hg8, rfl⟩ := List.forall₂_cons_left_iff.mp hg7
  obtain rfl := List.forall₂_nil_left_iff.mp hg8
  have hb1 : b1 = strL "∂²/∂" := h1
  have hb3 : b3 = strL "∂" := h3
  subst hb1 hb3 hdecomp
  rw [show mkMixedPartial [strL "∂²/∂", b2, strL "∂", b4, b5, b6, b7, b8] =
    strL "diff(diff(" ++ b7 ++ strL ", " ++ b2 ++ strL "), " ++ b4 ++ strL ")" from rfl]
  simp only [List.flatten_cons, List.flatten_nil, List.count_append, List.count_nil,
    List.append_nil]
  rw [show (strL "∂²/∂").count '∂' = 2 from by decide,
    show (strL "∂").count '∂' = 1 from by decide,
    show (strL "diff(diff(").count '∂' = 0 from by decide,
    show (strL ", ").count '∂' = 0 from by decide,
    show (strL "), ").count '∂' = 0 from by decide,
    show (strL ")").count '∂' = 0 from by decide]
  omega

theorem dec_firstDeriv : ∀ s pre chs rest,
    searchPre pFirstDeriv s = some (pre, chs, rest) →
    (pre ++ mkFirstDeriv chs ++ rest).count '/' < s.count '/' := by
  intro s pre chs rest h
  obtain ⟨hdecomp, hf, -⟩ := searchPre_sound h
  unfold pFirstDeriv at hf
  obtain ⟨b1, u1, h1, hg1, rfl⟩ := List.forall₂_cons_left_iff.mp hf
  obtain ⟨b2, u2, h2, hg2, rfl⟩ := List.forall₂_cons_left_iff.mp hg1
  obtain ⟨b3, u3, h3, hg3, rfl⟩ := List.forall₂_cons_left_iff.mp hg2
  obtain ⟨b4, u4, h4, hg4, rfl⟩ := List.forall₂_cons_left_iff.mp hg3
  obtain ⟨b5, u5, h5, hg5, rfl⟩ := List.forall₂_cons_left_iff.mp hg4
  obtain ⟨b6, u6, h6, hg6, rfl⟩ := List.forall₂_cons_left_iff.mp hg5
  obtain rfl := List.forall₂_nil_left_iff.mp hg6
  have hb1 : b1 = strL "d/d" := h1
  subst hb1 hdecomp
  rw [show mkFirstDeriv [strL "d/d", b2, b3, b4, b5, b6] =
    strL "diff(" ++ sinxFix b5 ++ strL ", " ++ b2 ++ strL ")" from rfl]
  have hs : (sinxFix b5).count '/' ≤ b5.count '/' :=
    count_sinxFix_le (by decide) b5
  simp only [List.flatten_cons, List.flatten_nil, List.count_append, List.count_nil,
    List.append_nil]
  rw [show (strL "d/d").count '/' = 1 from by decide,
    show (strL "diff(").count '/' = 0 from by decide,
    show (strL ", ").count '/' = 0 from by decide,
    show (strL ")").count '/' = 0 from by decide]
  omega

theorem dec_defInt : ∀ s pre chs rest,
    searchPre pDefInt s = some (pre, chs, rest) →
    (pre ++ mkDefInt chs ++ rest).count '∫' < s.count '∫' := by
  intro s pre chs rest h
  obtain ⟨hdecomp, hf, -⟩ := searchPre_sound h
  unfold pDefInt at hf
  obtain ⟨b1, u1, h1, hg1, rfl⟩ := List.forall₂_cons_left_iff.mp hf
  obtain ⟨b2, u2, h2, hg2, rfl⟩ := List.forall₂_cons_left_iff.mp hg1
  obtain ⟨b3, u3, h3, hg3, rfl⟩ := List.forall₂_cons_left_iff.mp hg2
  obtain ⟨b4, u4, h4, hg4, rfl⟩ := List.forall₂_cons_left_iff.mp hg3
  obtain ⟨b5, u5, h5, hg5, rfl⟩ := List.forall₂_cons_left_iff.mp hg4
  obtain ⟨b6, u6, h6, hg6, rfl⟩ := List.forall₂_cons_left_iff.mp hg5
  obtain ⟨b7, u7, h7, hg7, rfl⟩ := List.forall₂_cons_left_iff.mp hg6
  obtain ⟨b8, u8, h8, hg8, rfl⟩ := List.forall₂_cons_left_iff.mp hg7
  obtain ⟨b9, u9, h9, hg9, rfl⟩ := List.forall₂_cons_left_iff.mp hg8
  obtain ⟨b10, u10, h10, hg10, rfl⟩ := List.forall₂_cons_left_iff.mp hg9
  obtain ⟨b11, u11, h11, hg11, rfl⟩ := List.forall₂_cons_left_iff.mp hg10
  obtain rfl := List.forall₂_nil_left_iff.mp hg11
  have hb1 : b1 = strL "∫_" := h1
  subst hb1 hdecomp
  rw [show mkDefInt [strL "∫_", b2, b3, b4, b5, b6, b7, b8, b9, b10, b11] =
    strL "integrate(" ++ b7 ++ strL ", (" ++ b11 ++ strL ", " ++ b2 ++ strL ", " ++ b4 ++ strL "))" from rfl]
  simp only [List.flatten_cons, List.flatten_nil, List.count_append, List.count_nil,
    List.append_nil]
  rw [show (strL "∫_").count '∫' = 1 from by decide,
    show (strL "integrate(").count '∫' = 0 from by decide,
    show (strL ", (").count '∫' = 0 from by decide,
    show (strL ", ").count '∫' = 0 from by decide,
    show (strL "))").count '∫' = 0 from by decide]
  omega

theorem dec_indefInt : ∀ s pre chs rest,
    searchPre pIndefInt s = some (pre, chs, rest) →
    (pre ++ mkIndefInt chs ++ rest).count '∫' < s.count '∫' := by
  intro s pre chs rest h
  obtain ⟨hdecomp, hf, -⟩ := searchPre_sound h
  unfold pIndefInt at hf
  obtain ⟨b1, u1, h1, hg1, rfl⟩ := List.forall₂_cons_left_iff.mp hf
  obtain ⟨b2, u2, h2, hg2, rfl⟩ := List.forall₂_cons_left_iff.mp hg1
  obtain ⟨b3, u3, h3, hg3, rfl⟩ := List.forall₂_cons_left_iff.mp hg2
  obtain ⟨b4, u4, h4, hg4, rfl⟩ := List.forall₂_cons_left_iff.mp hg3
  obtain ⟨b5, u5, h5, hg5, rfl⟩ := List.forall₂_cons_left_iff.mp hg4
  obtain ⟨b6, u6, h6, hg6, rfl⟩ := List.forall₂_cons_left_iff.mp hg5
  obtain rfl := List.forall₂_nil_left_iff.mp hg6
  have hb1 : b1 = strL "∫" := h1
  subst hb1 hdecomp
  rw [show mkIndefInt [strL "∫", b2, b3, b4, b5, b6] =
    strL "integrate(" ++ indefStripParen (indefTweak b3 b6) ++ strL ", " ++ b6 ++ strL ")" from rfl]
  have hs : (indefStripParen (indefTweak b3 b6)).count '∫' ≤ b3.count '∫' :=
    le_trans (count_indefStripParen_le _ _) (count_indefTweak_le (by decide) (by decide) b3 b6)
  simp only [List.flatten_cons, List.flatten_nil, List.count_append, List.count_nil,
    List.append_nil]
  rw [show (strL "∫").count '∫' = 1 from by decide,
    show (strL "integrate(").count '∫' = 0 from by decide,
    show (strL ", ").count '∫' = 0 from by decide,
    show (strL ")").count '∫' = 0 from by decide]
  omega

theorem dec_limit : ∀ s pre chs rest,
    searchPre pLimit s = some (pre, chs, rest) →
    (pre ++ mkLimit chs ++ rest).count '>' < s.count '>' := by
  intro s pre chs rest h
  obtain ⟨hdecomp, hf, -⟩ := searchPre_sound h
  unfold pLimit at hf
  obtain ⟨b1, u1, h1, hg1, rfl⟩ := List.forall₂_cons_left_iff.mp hf
  obtain ⟨b2, u2, h2, hg2, rfl⟩ := List.forall₂_cons_left_iff.mp hg1
  obtain ⟨b3, u3, h3, hg3, rfl⟩ := List.forall₂_cons_left_iff.mp hg2
  obtain ⟨b4, u4, h4, hg4, rfl⟩ := List.forall₂_cons_left_iff.mp hg3
  obtain ⟨b5, u5, h5, hg5, rfl⟩ := List.forall₂_cons_left_iff.mp hg4
  obtain ⟨b6, u6, h6, hg6, rfl⟩ := List.forall₂_cons_left_iff.mp hg5
  obtain ⟨b7, u7, h7, hg7, rfl⟩ := List.forall₂_cons_left_iff.mp hg6
  obtain ⟨b8, u8, h8, hg8, rfl⟩ := List.forall₂_cons_left_iff.mp hg7
  obtain ⟨b9, u9, h9, hg9, rfl⟩ := List.forall₂_cons_left_iff.mp hg8
  obtain ⟨b10, u10, h10, hg10, rfl⟩ := List.forall₂_cons_left_iff.mp hg9
  obtain rfl := List.forall₂_nil_left_iff.mp hg10
  have hb4 : b4 = strL "->" := h4
  subst hb4 hdecomp
  rw [show mkLimit [b1, b2, b3, strL "->", b5, b6, b7, b8, b9, b10] =
    strL "limit(" ++ b9 ++ strL ", " ++ b3 ++ strL ", " ++ limApproach b5 ++ strL ")" from rfl]
  have hs : (limApproach b5).count '>' ≤ b5.count '>' :=
    count_limApproach_le (by decide) (by decide) b5
  simp only [List.flatten_cons, List.flatten_nil, List.count_append, List.count_nil,
    List.append_nil]
  rw [show (strL "->").count '>' = 1 from by decide,
    show (strL "limit(").count '>' = 0 from by decide,
    show (strL ", ").count '>' = 0 from by decide,
    show (strL ")").count '>' = 0 from by decide]
  omega

/-- C2 (confirmed): every one of the eight rewrite loops of
`parse_combined_expression` (second derivative, partial, second partial,
mixed partial, first derivative, definite integral, indefinite integral,
limit) terminates at a fixed point within its iteration bound: each
successful match strictly decreases the count of a measure character, so
after the bounded number of iterations performed by `runLoop` the pattern no
longer matches anywhere in the text — for every input, not only those of
nesting depth at most 3. -/
theorem rewrite_loops_reach_fixed_point (s : List Char) :
    searchPre pSecondDeriv (runLoop pSecondDeriv mkSecondDeriv '²' s) = none ∧
    searchPre pPartialDeriv (runLoop pPartialDeriv mkPartialDeriv '∂' s) = none ∧
    searchPre pSecondPartial (runLoop pSecondPartial mkSecondPartial '∂' s) = none ∧
    searchPre pMixedPartial (runLoop pMixedPartial mkMixedPartial '∂' s) = none ∧
    searchPre pFirstDeriv (runLoop pFirstDeriv mkFirstDeriv '/' s) = none ∧
    searchPre pDefInt (runLoop pDefInt mkDefInt '∫' s) = none ∧
    searchPre pIndefInt (runLoop pIndefInt mkIndefInt '∫' s) = none ∧
    searchPre pLimit (runLoop pLimit mkLimit '>' s) = none :=
  ⟨runLoop_fix dec_secondDeriv s, runLoop_fix dec_partialDeriv s,
   runLoop_fix dec_secondPartial s, runLoop_fix dec_mixedPartial s,
   runLoop_fix dec_firstDeriv s, runLoop_fix dec_defInt s,
   runLoop_fix dec_indefInt s, runLoop_fix dec_limit s⟩

/-! ## Infrastructure for the nested-form resolver claims -/

theorem takeWhile_append_stop {p : Char → Bool} {z : Char} (hz : p z = false) :
    ∀ {l : List Char}, (∀ c ∈ l, p c = true) → ∀ {r : List Char},
      (l ++ z :: r).takeWhile p = l := by
  intro l
  induction l with
  | nil => intro _ r; simp [List.takeWhile_cons, hz]
  | cons a l ih =>
    intro hl r
    have ha : p a = true := hl a (List.mem_cons_self ..)
    simp only [List.cons_append, List.takeWhile_cons, ha, if_true]
    rw [ih (fun c hc => hl c (List.mem_cons_of_mem a hc))]

theorem dropWhile_append_stop {p : Char → Bool} {z : Char} (hz : p z = false) :
    ∀ {l : List Char}, (∀ c ∈ l, p c = true) → ∀ {r : List Char},
      (l ++ z :: r).dropWhile p = z :: r := by
  intro l
  induction l with
  | nil => intro _ r; simp [List.dropWhile_cons, hz]
  | cons a l ih =>
    intro hl r
    have ha : p a = true := hl a (List.mem_cons_self ..)
    simp only [List.cons_append, List.dropWhile_cons, ha, if_true]
    exact ih (fun c hc => hl c (List.mem_cons_of_mem a hc))

/-- a string with a non-blank first and last character is its own strip. -/
theorem pyStrip_cons_concat {a z : Char} (ha : isWsC a = false) (hz : isWsC z = false)
    (M : List Char) : pyStrip (a :: (M ++ [z])) = a :: (M ++ [z]) := by
  unfold pyStrip
  rw [List.dropWhile_cons, if_neg (by simp [ha])]
  rw [show (a :: (M ++ [z])).reverse = z :: (M.reverse ++ [a]) from by simp]
  rw [List.dropWhile_cons, if_neg (by simp [hz])]
  rw [show (z :: (M.reverse ++ [a])).reverse = a :: (M ++ [z]) from by simp]

theorem isPrefixOf_false_of_head_ne {a b : Char} (h : a ≠ b) (l t : List Char) :
    (a :: l).isPrefixOf (b :: t) = false := by
  simp [List.isPrefixOf, h]

theorem isPrefixOf_nil_false (a : Char) (l : List Char) :
    (a :: l).isPrefixOf [] = false := rfl

theorem isPrefixOf_false_of_not_mem {a : Char} {l t : List Char} (h : a ∉ t) :
    (a :: l).isPrefixOf t = false := by
  cases t with
  | nil => rfl
  | cons b t' =>
    refine isPrefixOf_false_of_head_ne (fun hab => h ?_) l t'
    rw [hab]
    exact List.mem_cons_self ..

theorem rwLoop_of_none {its : List RItem} {mk : List (List Char) → List Char}
    {u : List Char} (h : searchPre its u = none) : ∀ f, rwLoop its mk f u = u := by
  intro f
  cases f with
  | zero => rfl
  | succ f => rw [rwLoop, h]

theorem runLoop_of_none {its : List RItem} {mk : List (List Char) → List Char}
    {c : Char} {u : List Char} (h : searchPre its u = none) : runLoop its mk c u = u :=
  rwLoop_of_none h _

theorem runLoop_eq_of_step {its : List RItem} {mk : List (List Char) → List Char}
    {c : Char} {s pre rest : List Char} {chs : List (List Char)}
    (h1 : searchPre its s = some (pre, chs, rest))
    (h2 : searchPre its (pre ++ mk chs ++ rest) = none) :
    runLoop its mk c s = pre ++ mk chs ++ rest := by
  unfold runLoop
  rw [rwLoop, h1]
  exact rwLoop_of_none h2 _

theorem firstSome_none {α β : Type} {f : α → Option β} :
    ∀ {xs : List α}, (∀ x ∈ xs, f x = none) → firstSome f xs = none := by
  intro xs
  induction xs with
  | nil => intro _; rfl
  | cons a as ih =>
    intro h
    rw [firstSome, h a (List.mem_cons_self ..)]
    exact ih (fun x hx => h x (List.mem_cons_of_mem a hx))

theorem azLower_not_ws {c : Char} (h : isAzLower c = true) : isWsC c = false := by
  cases hw : isWsC c with
  | false => rfl
  | true =>
    exfalso
    simp only [isWsC, Bool.or_eq_true, beq_iff_eq] at hw
    rcases hw with ((rfl | rfl) | rfl) | rfl <;> exact absurd h (by decide)

/-- C3 (corrected): on the form `∫(d/dv1(E)) dv2` the resolver of lines 70-79
returns `E` when the differential variable equals the integration variable and
`integrate(diff(E, v1), v2)` otherwise, and `∫(d/dx(x^2)) dx` yields `x^2` —
but only when `E` contains no parenthesis (and none of `^`, `*`, `>`): the
capture group `([^()]+)` cannot cross a parenthesis, so for integrands such as
`sin(x)` the resolver misfires (see the counterexample). -/
theorem int_of_deriv_resolver (v1 v2 : Char) (E : List Char)
    (hv1 : isAzLower v1 = true) (hv2 : isAzLower v2 = true) (hne : E ≠ [])
    (hE : ∀ c ∈ E, (c ∉ strL "()^*>" : Prop)) :
    parse_combined_expression (strL "∫(d/d" ++ [v1] ++ strL "(" ++ E ++ strL ")) d" ++ [v2]) =
      (if v1 = v2 then E
       else strL "integrate(diff(" ++ E ++ strL ", " ++ [v1] ++ strL "), " ++ [v2] ++
         strL ")") ∧
    parse_combined_expression (strL "∫(d/dx(x^2)) dx") = strL "x^2" := by
  refine ⟨?_, by decide⟩
  have hwv2 : isWsC v2 = false := azLower_not_ws hv2
  rw [show strL "∫(d/d" ++ [v1] ++ strL "(" ++ E ++ strL ")) d" ++ [v2] =
    '∫' :: '(' :: 'd' :: '/' :: 'd' :: v1 :: '(' ::
      (E ++ ')' :: ')' :: ' ' :: 'd' :: [v2]) from by simp [strL]]
  have hstrip : pyStrip ('∫' :: '(' :: 'd' :: '/' :: 'd' :: v1 :: '(' ::
      (E ++ ')' :: ')' :: ' ' :: 'd' :: [v2])) =
      '∫' :: '(' :: 'd' :: '/' :: 'd' :: v1 :: '(' ::
      (E ++ ')' :: ')' :: ' ' :: 'd' :: [v2]) := by
    rw [show '∫' :: '(' :: 'd' :: '/' :: 'd' :: v1 :: '(' ::
        (E ++ ')' :: ')' :: ' ' :: 'd' :: [v2]) =
      '∫' :: (('(' :: 'd' :: '/' :: 'd' :: v1 :: '(' ::
        (E ++ [')', ')', ' ', 'd'])) ++ [v2]) from by simp]
    rw [pyStrip_cons_concat (by decide) hwv2]
  have hmemInt : '∫' ∈ '∫' :: '(' :: 'd' :: '/' :: 'd' :: v1 :: '(' ::
      (E ++ ')' :: ')' :: ' ' :: 'd' :: [v2]) := by simp
  have hnotmem : ∀ x : Char, isAzLower x = false → (x ∉ strL "∫()d/ " : Prop) →
      (x ∉ E) → x ∉ '∫' :: '(' :: 'd' :: '/' :: 'd' :: v1 :: '(' ::
      (E ++ ')' :: ')' :: ' ' :: 'd' :: [v2]) := by
    intro x hx1 hx2 hx3 hmem
    simp only [List.mem_cons, List.mem_append, List.not_mem_nil, or_false] at hmem
    rcases hmem with rfl | rfl | rfl | rfl | rfl | rfl | rfl | hmem | rfl | rfl | rfl |
      rfl | rfl
    · exact hx2 (by decide)
    · exact hx2 (by decide)
    · exact hx2 (by decide)
    · exact hx2 (by decide)
    · exact hx2 (by decide)
    · exact absurd (hx1.symm.trans hv1) Bool.false_ne_true
    · exact hx2 (by decide)
    · exact hx3 hmem
    · exact hx2 (by decide)
    · exact hx2 (by decide)
    · exact hx2 (by decide)
    · exact hx2 (by decide)
    · exact absurd (hx1.symm.trans hv2) Bool.false_ne_true
  have hcar := hnotmem '^' (by decide) (by decide) (fun h => (hE '^' h) (by decide))
  have hast := hnotmem '*' (by decide) (by decide) (fun h => (hE '*' h) (by decide))
  have hgt := hnotmem '>' (by decide) (by decide) (fun h => (hE '>' h) (by decide))
  have hEnp : ∀ c ∈ E, noParen c = true := by
    intro c hc
    have h := hE c hc
    have h1 : c ≠ '(' := fun e => h (by rw [e] ; decide)
    have h2 : c ≠ ')' := fun e => h (by rw [e] ; decide)
    simp [noParen, h1, h2]
  have m15 : matchItems [RItem.cls isAzLower] [v2] = some ([[v2]], []) := by
    rw [show ([v2] : List Char) = v2 :: [] from rfl, matchItems_cls_cons hv2]
    rfl
  have m14 : matchItems [RItem.lit (strL "d"), RItem.cls isAzLower] ('d' :: [v2]) =
      some ([strL "d", [v2]], []) := by
    rw [show ('d' :: [v2] : List Char) = strL "d" ++ [v2] from rfl, matchItems_lit_cons, m15]
    rfl
  have m13 : matchItems [RItem.star isWsC, RItem.lit (strL "d"), RItem.cls isAzLower]
      (' ' :: 'd' :: [v2]) = some ([[' '], strL "d", [v2]], []) := by
    apply matchItems_star_greedy
    rw [show (' ' :: 'd' :: [v2]).dropWhile isWsC = 'd' :: [v2] from rfl,
      show (' ' :: 'd' :: [v2]).takeWhile isWsC = [' '] from rfl, m14]
    rfl
  have m12 : matchItems [RItem.lit (strL ")"), RItem.star isWsC, RItem.lit (strL "d"),
      RItem.cls isAzLower] (')' :: ' ' :: 'd' :: [v2]) =
      some ([strL ")", [' '], strL "d", [v2]], []) := by
    rw [show (')' :: ' ' :: 'd' :: [v2] : List Char) = strL ")" ++ ' ' :: 'd' :: [v2] from rfl,
      matchItems_lit_cons, m13]
    rfl
  have m11 : matchItems [RItem.star isWsC, RItem.lit (strL ")"), RItem.star isWsC,
      RItem.lit (strL "d"), RItem.cls isAzLower] (')' :: ' ' :: 'd' :: [v2]) =
      some ([[], strL ")", [' '], strL "d", [v2]], []) := by
    apply matchItems_star_greedy
    rw [show (')' :: ' ' :: 'd' :: [v2]).dropWhile isWsC = ')' :: ' ' :: 'd' :: [v2] from rfl,
      show (')' :: ' ' :: 'd' :: [v2]).takeWhile isWsC = [] from rfl, m12]
    rfl
  have m10 : matchItems [RItem.lit (strL ")"), RItem.star isWsC, RItem.lit (strL ")"),
      RItem.star isWsC, RItem.lit (strL "d"), RItem.cls isAzLower]
      (')' :: ')' :: ' ' :: 'd' :: [v2]) =
      some ([strL ")", [], strL ")", [' '], strL "d", [v2]], []) := by
    rw [show (')' :: ')' :: ' ' :: 'd' :: [v2] : List Char) =
      strL ")" ++ ')' :: ' ' :: 'd' :: [v2] from rfl, matchItems_lit_cons, m11]
    rfl
  have m9 : matchItems [RItem.plus noParen, RItem.lit (strL ")"), RItem.star isWsC,
      RItem.lit (strL ")"), RItem.star isWsC, RItem.lit (strL "d"), RItem.cls isAzLower]
      (E ++ ')' :: ')' :: ' ' :: 'd' :: [v2]) =
      some ([E, strL ")", [], strL ")", [' '], strL "d", [v2]], []) := by
    apply matchItems_plus_greedy
    · rw [takeWhile_append_stop (by decide) hEnp]
      exact hne
    · rw [takeWhile_append_stop (by decide) hEnp, dropWhile_append_stop (by decide) hEnp,
        m10]
      rfl
  have m8 : matchItems [RItem.lit (strL "("), RItem.plus noParen, RItem.lit (strL ")"),
      RItem.star isWsC, RItem.lit (strL ")"), RItem.star isWsC, RItem.lit (strL "d"),
      RItem.cls isAzLower] ('(' :: (E ++ ')' :: ')' :: ' ' :: 'd' :: [v2])) =
      some ([strL "(", E, strL ")", [], strL ")", [' '], strL "d", [v2]], []) := by
    rw [show ('(' :: (E ++ ')' :: ')' :: ' ' :: 'd' :: [v2]) : List Char) =
      strL "(" ++ (E ++ ')' :: ')' :: ' ' :: 'd' :: [v2]) from rfl, matchItems_lit_cons, m9]
    rfl
  have m7 : matchItems [RItem.star isWsC, RItem.lit (strL "("), RItem.plus noParen,
      RItem.lit (strL ")"), RItem.star isWsC, RItem.lit (strL ")"), RItem.star isWsC,
      RItem.lit (strL "d"), RItem.cls isAzLower]
      ('(' :: (E ++ ')' :: ')' :: ' ' :: 'd' :: [v2])) =
      some ([[], strL "(", E, strL ")", [], strL ")", [' '], strL "d", [v2]], []) := by
    apply matchItems_star_greedy
    rw [show ('(' :: (E ++ ')' :: ')' :: ' ' :: 'd' :: [v2])).dropWhile isWsC =
      '(' :: (E ++ ')' :: ')' :: ' ' :: 'd' :: [v2]) from rfl,
      show ('(' :: (E ++ ')' :: ')' :: ' ' :: 'd' :: [v2])).takeWhile isWsC = [] from rfl, m8]
    rfl
  have m6 : matchItems [RItem.cls isAzLower, RItem.star isWsC, RItem.lit (strL "("),
      RItem.plus noParen, RItem.lit (strL ")"), RItem.star isWsC, RItem.lit (strL ")"),
      RItem.star isWsC, RItem.lit (strL "d"), RItem.cls isAzLower]
      (v1 :: '(' :: (E ++ ')' :: ')' :: ' ' :: 'd' :: [v2])) =
      some ([[v1], [], strL "(", E, strL ")", [], strL ")", [' '], strL "d", [v2]], []) := by
    rw [matchItems_cls_cons hv1, m7]
    rfl
  have m5 : matchItems [RItem.lit (strL "d/d"), RItem.cls isAzLower, RItem.star isWsC,
      RItem.lit (strL "("), RItem.plus noParen, RItem.lit (strL ")"), RItem.star isWsC,
      RItem.lit (strL ")"), RItem.star isWsC, RItem.lit (strL "d"), RItem.cls isAzLower]
      ('d' :: '/' :: 'd' :: v1 :: '(' :: (E ++ ')' :: ')' :: ' ' :: 'd' :: [v2])) =
      some ([strL "d/d", [v1], [], strL "(", E, strL ")", [], strL ")", [' '], strL "d",
        [v2]], []) := by
    rw [show ('d' :: '/' :: 'd' :: v1 :: '(' :: (E ++ ')' :: ')' :: ' ' :: 'd' :: [v2]) :
      List Char) = strL "d/d" ++ v1 :: '(' :: (E ++ ')' :: ')' :: ' ' :: 'd' :: [v2])
      from rfl, matchItems_lit_cons, m6]
    rfl
  have m4 : matchItems [RItem.star isWsC, RItem.lit (strL "d/d"), RItem.cls isAzLower,
      RItem.star isWsC, RItem.lit (strL "("), RItem.plus noParen, RItem.lit (strL ")"),
      RItem.star isWsC, RItem.lit (strL ")"), RItem.star isWsC, RItem.lit (strL "d"),
      RItem.cls isAzLower]
      ('d' :: '/' :: 'd' :: v1 :: '(' :: (E ++ ')' :: ')' :: ' ' :: 'd' :: [v2])) =
      some ([[], strL "d/d", [v1], [], strL "(", E, strL ")", [], strL ")", [' '],
        strL "d", [v2]], []) := by
    apply matchItems_star_greedy
    rw [show ('d' :: '/' :: 'd' :: v1 :: '(' ::
        (E ++ ')' :: ')' :: ' ' :: 'd' :: [v2])).dropWhile isWsC =
      'd' :: '/' :: 'd' :: v1 :: '(' :: (E ++ ')' :: ')' :: ' ' :: 'd' :: [v2]) from rfl,
      show ('d' :: '/' :: 'd' :: v1 :: '(' ::
        (E ++ ')' :: ')' :: ' ' :: 'd' :: [v2])).takeWhile isWsC = [] from rfl, m5]
    rfl
  have m3 : matchItems [RItem.lit (strL "("), RItem.star isWsC, RItem.lit (strL "d/d"),
      RItem.cls isAzLower, RItem.star isWsC, RItem.lit (strL "("), RItem.plus noParen,
      RItem.lit (strL ")"), RItem.star isWsC, RItem.lit (strL ")"), RItem.star isWsC,
      RItem.lit (strL "d"), RItem.cls isAzLower]
      ('(' :: 'd' :: '/' :: 'd' :: v1 :: '(' :: (E ++ ')' :: ')' :: ' ' :: 'd' :: [v2])) =
      some ([strL "(", [], strL "d/d", [v1], [], strL "(", E, strL ")", [], strL ")",
        [' '], strL "d", [v2]], []) := by
    rw [show ('(' :: 'd' :: '/' :: 'd' :: v1 :: '(' ::
      (E ++ ')' :: ')' :: ' ' :: 'd' :: [v2]) : List Char) =
      strL "(" ++ 'd' :: '/' :: 'd' :: v1 :: '(' :: (E ++ ')' :: ')' :: ' ' :: 'd' :: [v2])
      from rfl, matchItems_lit_cons, m4]
    rfl
  have m2 : matchItems [RItem.star isWsC, RItem.lit (strL "("), RItem.star isWsC,
      RItem.lit (strL "d/d"), RItem.cls isAzLower, RItem.star isWsC, RItem.lit (strL "("),
      RItem.plus noParen, RItem.lit (strL ")"), RItem.star isWsC, RItem.lit (strL ")"),
      RItem.star isWsC, RItem.lit (strL "d"), RItem.cls isAzLower]
      ('(' :: 'd' :: '/' :: 'd' :: v1 :: '(' :: (E ++ ')' :: ')' :: ' ' :: 'd' :: [v2])) =
      some ([[], strL "(", [], strL "d/d", [v1], [], strL "(", E, strL ")", [], strL ")",
        [' '], strL "d", [v2]], []) := by
    apply matchItems_star_greedy
    rw [show ('(' :: 'd' :: '/' :: 'd' :: v1 :: '(' ::
        (E ++ ')' :: ')' :: ' ' :: 'd' :: [v2])).dropWhile isWsC =
      '(' :: 'd' :: '/' :: 'd' :: v1 :: '(' :: (E ++ ')' :: ')' :: ' ' :: 'd' :: [v2])
      from rfl,
      show ('(' :: 'd' :: '/' :: 'd' :: v1 :: '(' ::
        (E ++ ')' :: ')' :: ' ' :: 'd' :: [v2])).takeWhile isWsC = [] from rfl, m3]
    rfl
  have m1 : matchItems pIntOfDeriv ('∫' :: '(' :: 'd' :: '/' :: 'd' :: v1 :: '(' ::
      (E ++ ')' :: ')' :: ' ' :: 'd' :: [v2])) =
      some ([strL "∫", [], strL "(", [], strL "d/d", [v1], [], strL "(", E, strL ")", [],
        strL ")", [' '], strL "d", [v2]], []) := by
    rw [show ('∫' :: '(' :: 'd' :: '/' :: 'd' :: v1 :: '(' ::
      (E ++ ')' :: ')' :: ' ' :: 'd' :: [v2]) : List Char) =
      strL "∫" ++ '(' :: 'd' :: '/' :: 'd' :: v1 :: '(' ::
        (E ++ ')' :: ')' :: ' ' :: 'd' :: [v2]) from rfl]
    rw [show pIntOfDeriv = RItem.lit (strL "∫") :: [RItem.star isWsC, RItem.lit (strL "("),
      RItem.star isWsC, RItem.lit (strL "d/d"), RItem.cls isAzLower, RItem.star isWsC,
      RItem.lit (strL "("), RItem.plus noParen, RItem.lit (strL ")"), RItem.star isWsC,
      RItem.lit (strL ")"), RItem.star isWsC, RItem.lit (strL "d"), RItem.cls isAzLower]
      from rfl, matchItems_lit_cons, m2]
    rfl
  have hsearch := searchPre_eq_found m1
  unfold parse_combined_expression
  rw [if_neg ?hn1, if_neg ?hn2, if_neg ?hn3, if_neg ?hn4, if_neg ?hn5, if_neg ?hn6,
    if_neg ?hn7, if_pos ?hp8]
  case hn1 =>
    rw [hstrip]
    rintro (h | h | h | h) <;> exact absurd (h ▸ hmemInt) (by decide)
  case hn2 =>
    rw [hstrip]
    rintro (h | h | h | h) <;> exact absurd (h ▸ hmemInt) (by decide)
  case hn3 =>
    rw [hstrip]
    rintro (h | h | h | h) <;> exact absurd (h ▸ hmemInt) (by decide)
  case hn4 =>
    rintro (h | h)
    · exact hcar (mem_of_isSub h (by decide))
    · exact hast (mem_of_isSub h (by decide))
  case hn5 =>
    rintro (h | h)
    · exact hgt (mem_of_isSub h (by decide))
    · exact hgt (mem_of_isSub h (by decide))
  case hn6 =>
    intro h
    exact hgt (mem_of_isSub h (by decide))
  case hn7 =>
    intro h
    exact hcar (mem_of_isSub h (by decide))
  case hp8 =>
    refine ⟨?_, by simp, ?_⟩
    · rw [hstrip]
      rfl
    · rfl
  rw [hsearch]
  dsimp only
  by_cases hv : v1 = v2
  · rw [if_pos (by rw [hv]), if_pos hv]
  · rw [if_neg (by simpa using hv), if_neg hv]

/-- Witness for C3 at `v1 = 'q'`, `v2 = 'w'`, `E = "E+1"`. -/
theorem int_of_deriv_resolver_wit :
    (parse_combined_expression (strL "∫(d/d" ++ ['q'] ++ strL "(" ++ strL "E+1" ++
        strL ")) d" ++ ['w']) =
      (if 'q' = 'w' then strL "E+1"
       else strL "integrate(diff(" ++ strL "E+1" ++ strL ", " ++ ['q'] ++ strL "), " ++
         ['w'] ++ strL ")")) ∧
    parse_combined_expression (strL "∫(d/dx(x^2)) dx") = strL "x^2" :=
  int_of_deriv_resolver 'q' 'w' (strL "E+1") (by decide) (by decide) (by decide) (by decide)

/-- C3 counterexample: with the parenthesised integrand `sin(x)` the claimed
cancellation `∫(d/dx(sin(x))) dx → sin(x)` does not happen: the nested-form
regex cannot match, the split-on-`d` fallback fires, and the parser returns
`integrate((, x)`. -/
theorem int_of_deriv_paren_counterexample :
    parse_combined_expression (strL "∫(d/dx(sin(x))) dx") = strL "integrate((, x)" ∧
      parse_combined_expression (strL "∫(d/dx(sin(x))) dx") ≠ strL "sin(x)" :=
  ⟨by decide, by decide⟩

theorem takeWhile_eq_nil_append {p : Char → Bool} {l : List Char} (hne : l ≠ [])
    (hl : ∀ c ∈ l, p c = false) (r : List Char) :
    (l ++ r).takeWhile p = [] ∧ (l ++ r).dropWhile p = l ++ r := by
  cases l with
  | nil => exact absurd rfl hne
  | cons a l' =>
    have ha : p a = false := hl a (List.mem_cons_self ..)
    simp [List.takeWhile_cons, List.dropWhile_cons, ha]

theorem dropWhile_eq_self_of_all {p : Char → Bool} {l : List Char}
    (h : ∀ c ∈ l, p c = false) : l.dropWhile p = l := by
  cases l with
  | nil => rfl
  | cons a l' => simp [List.dropWhile_cons, h a (List.mem_cons_self ..)]

/-- stripping a trailing blank from a blank-free nonempty string. -/
theorem pyStrip_append_space {E : List Char} (hne : E ≠ [])
    (hEws : ∀ c ∈ E, isWsC c = false) : pyStrip (E ++ [' ']) = E := by
  unfold pyStrip
  rw [(takeWhile_eq_nil_append hne hEws [' ']).2]
  rw [show (E ++ [' ']).reverse = ' ' :: E.reverse from by simp]
  rw [show (' ' :: E.reverse).dropWhile isWsC = E.reverse.dropWhile isWsC from rfl]
  rw [dropWhile_eq_self_of_all (fun c hc => hEws c (List.mem_reverse.mp hc))]
  exact List.reverse_reverse E

/-- C4 (corrected): on the form `d/dx(∫ E dt)` (lines 95-109) the resolver
returns `E` with `t` replaced by `x` when the variables differ, and
`diff(integrate(E, t), x)` when they coincide — but only for integrands the
capture group `([^d]+)` can hold: `E` must contain no `d` (and here also no
parenthesis/`^`/`*`/`>`/blank, and the input must be a preprocessor fixed
point).  An integrand containing `d` breaks the pattern (see the
counterexample). -/
theorem deriv_of_int_resolver (x t : Char) (E : List Char)
    (hx : isAzLower x = true) (ht : isAzLower t = true) (hne : E ≠ [])
    (hE : ∀ c ∈ E, (c ∉ strL "()^*>d∫" : Prop) ∧ isWsC c = false)
    (hpp : preprocess_expression (strL "d/d" ++ [x] ++ strL "(∫ " ++ E ++ strL " d" ++
        [t] ++ strL ")") =
      strL "d/d" ++ [x] ++ strL "(∫ " ++ E ++ strL " d" ++ [t] ++ strL ")") :
    parse_combined_expression (strL "d/d" ++ [x] ++ strL "(∫ " ++ E ++ strL " d" ++ [t] ++
        strL ")") =
      if t = x then
        strL "diff(integrate(" ++ E ++ strL ", " ++ [t] ++ strL "), " ++ [x] ++ strL ")"
      else replaceChar t x E := by
  have hcan : strL "d/d" ++ [x] ++ strL "(∫ " ++ E ++ strL " d" ++ [t] ++ strL ")" =
      'd' :: '/' :: 'd' :: x :: '(' :: '∫' :: ' ' :: (E ++ ' ' :: 'd' :: t :: [')']) := by
    simp [strL]
  rw [hcan] at hpp ⊢
  have hEws : ∀ c ∈ E, isWsC c = false := fun c hc => (hE c hc).2
  have hEd : ∀ c ∈ E, (c ∉ strL "()^*>d∫" : Prop) := fun c hc => (hE c hc).1
  have hstrip : pyStrip ('d' :: '/' :: 'd' :: x :: '(' :: '∫' :: ' ' ::
      (E ++ ' ' :: 'd' :: t :: [')'])) =
      'd' :: '/' :: 'd' :: x :: '(' :: '∫' :: ' ' :: (E ++ ' ' :: 'd' :: t :: [')']) := by
    rw [show 'd' :: '/' :: 'd' :: x :: '(' :: '∫' :: ' ' ::
        (E ++ ' ' :: 'd' :: t :: [')']) =
      'd' :: (('/' :: 'd' :: x :: '(' :: '∫' :: ' ' :: (E ++ [' ', 'd', t])) ++ [')'])
      from by simp]
    rw [pyStrip_cons_concat (by decide) (by decide)]
  have hmemInt : '∫' ∈ 'd' :: '/' :: 'd' :: x :: '(' :: '∫' :: ' ' ::
      (E ++ ' ' :: 'd' :: t :: [')']) := by simp
  have hnotmem : ∀ z : Char, isAzLower z = false → (z ∉ strL "d/(∫ )" : Prop) →
      (z ∉ E) → z ∉ 'd' :: '/' :: 'd' :: x :: '(' :: '∫' :: ' ' ::
      (E ++ ' ' :: 'd' :: t :: [')']) := by
    intro z hz1 hz2 hz3 hmem
    simp only [List.mem_cons, List.mem_append, List.not_mem_nil, or_false] at hmem
    rcases hmem with rfl | rfl | rfl | rfl | rfl | rfl | rfl | hmem | rfl | rfl | rfl | rfl
    · exact hz2 (by decide)
    · exact hz2 (by decide)
    · exact hz2 (by decide)
    · exact absurd (hz1.symm.trans hx) Bool.false_ne_true
    · exact hz2 (by decide)
    · exact hz2 (by decide)
    · exact hz2 (by decide)
    · exact hz3 hmem
    · exact hz2 (by decide)
    · exact hz2 (by decide)
    · exact absurd (hz1.symm.trans ht) Bool.false_ne_true
    · exact hz2 (by decide)
  have hcar := hnotmem '^' (by decide) (by decide) (fun h => (hEd '^' h) (by decide))
  have hast := hnotmem '*' (by decide) (by decide) (fun h => (hEd '*' h) (by decide))
  have hgt := hnotmem '>' (by decide) (by decide) (fun h => (hEd '>' h) (by decide))
  have hElsp : ∀ c ∈ E ++ [' '], notD c = true := by
    intro c hc
    rcases List.mem_append.mp hc with hc | hc
    · have h1 : c ≠ 'd' := fun e => (hEd c hc) (by rw [e] ; decide)
      simp [notD, h1]
    · rw [List.mem_singleton.mp hc]
      decide
  have m13 : matchItems [RItem.lit (strL ")")] [')'] = some ([strL ")"], []) := by
    rw [show ([')'] : List Char) = strL ")" ++ [] from rfl, matchItems_lit_cons]
    rfl
  have m12 : matchItems [RItem.star isWsC, RItem.lit (strL ")")] [')'] =
      some ([[], strL ")"], []) := by
    apply matchItems_star_greedy
    rw [show ([')'] : List Char).dropWhile isWsC = [')'] from rfl,
      show ([')'] : List Char).takeWhile isWsC = [] from rfl, m13]
    rfl
  have m11 : matchItems [RItem.cls isAzLower, RItem.star isWsC, RItem.lit (strL ")")]
      (t :: [')']) = some ([[t], [], strL ")"], []) := by
    rw [matchItems_cls_cons ht, m12]
    rfl
  have m10 : matchItems [RItem.lit (strL "d"), RItem.cls isAzLower, RItem.star isWsC,
      RItem.lit (strL ")")] ('d' :: t :: [')']) = some ([strL "d", [t], [], strL ")"], []) := by
    rw [show ('d' :: t :: [')'] : List Char) = strL "d" ++ t :: [')'] from rfl,
      matchItems_lit_cons, m11]
    rfl
  have m9 : matchItems [RItem.star isWsC, RItem.lit (strL "d"), RItem.cls isAzLower,
      RItem.star isWsC, RItem.lit (strL ")")] ('d' :: t :: [')']) =
      some ([[], strL "d", [t], [], strL ")"], []) := by
    apply matchItems_star_greedy
    rw [show ('d' :: t :: [')'] : List Char).dropWhile isWsC = 'd' :: t :: [')'] from rfl,
      show ('d' :: t :: [')'] : List Char).takeWhile isWsC = [] from rfl, m10]
    rfl
  have m8 : matchItems [RItem.plus notD, RItem.star isWsC, RItem.lit (strL "d"),
      RItem.cls isAzLower, RItem.star isWsC, RItem.lit (strL ")")]
      (E ++ ' ' :: 'd' :: t :: [')']) =
      some ([E ++ [' '], [], strL "d", [t], [], strL ")"], []) := by
    rw [show E ++ ' ' :: 'd' :: t :: [')'] = (E ++ [' ']) ++ 'd' :: t :: [')'] from by simp]
    apply matchItems_plus_greedy
    · rw [takeWhile_append_stop (by decide) hElsp]
      simp
    · rw [takeWhile_append_stop (by decide) hElsp, dropWhile_append_stop (by decide) hElsp,
        m9]
      rfl
  have m7 : matchItems [RItem.star isWsC, RItem.plus notD, RItem.star isWsC,
      RItem.lit (strL "d"), RItem.cls isAzLower, RItem.star isWsC, RItem.lit (strL ")")]
      (' ' :: (E ++ ' ' :: 'd' :: t :: [')'])) =
      some ([[' '], E ++ [' '], [], strL "d", [t], [], strL ")"], []) := by
    apply matchItems_star_greedy
    rw [show (' ' :: (E ++ ' ' :: 'd' :: t :: [')'])).dropWhile isWsC =
        (E ++ ' ' :: 'd' :: t :: [')']).dropWhile isWsC from rfl,
      (takeWhile_eq_nil_append hne hEws _).2,
      show (' ' :: (E ++ ' ' :: 'd' :: t :: [')'])).takeWhile isWsC =
        ' ' :: (E ++ ' ' :: 'd' :: t :: [')']).takeWhile isWsC from rfl,
      (takeWhile_eq_nil_append hne hEws _).1, m8]
    rfl
  have m6 : matchItems [RItem.lit (strL "∫"), RItem.star isWsC, RItem.plus notD,
      RItem.star isWsC, RItem.lit (strL "d"), RItem.cls isAzLower, RItem.star isWsC,
      RItem.lit (strL ")")] ('∫' :: ' ' :: (E ++ ' ' :: 'd' :: t :: [')'])) =
      some ([strL "∫", [' '], E ++ [' '], [], strL "d", [t], [], strL ")"], []) := by
    rw [show ('∫' :: ' ' :: (E ++ ' ' :: 'd' :: t :: [')']) : List Char) =
      strL "∫" ++ ' ' :: (E ++ ' ' :: 'd' :: t :: [')']) from rfl, matchItems_lit_cons, m7]
    rfl
  have m5 : matchItems [RItem.star isWsC, RItem.lit (strL "∫"), RItem.star isWsC,
      RItem.plus notD, RItem.star isWsC, RItem.lit (strL "d"), RItem.cls isAzLower,
      RItem.star isWsC, RItem.lit (strL ")")]
      ('∫' :: ' ' :: (E ++ ' ' :: 'd' :: t :: [')'])) =
      some ([[], strL "∫", [' '], E ++ [' '], [], strL "d", [t], [], strL ")"], []) := by
    apply matchItems_star_greedy
    rw [show ('∫' :: ' ' :: (E ++ ' ' :: 'd' :: t :: [')'])).dropWhile isWsC =
        '∫' :: ' ' :: (E ++ ' ' :: 'd' :: t :: [')']) from rfl,
      show ('∫' :: ' ' :: (E ++ ' ' :: 'd' :: t :: [')'])).takeWhile isWsC = [] from rfl,
      m6]
    rfl
  have m4 : matchItems [RItem.lit (strL "("), RItem.star isWsC, RItem.lit (strL "∫"),
      RItem.star isWsC, RItem.plus notD, RItem.star isWsC, RItem.lit (strL "d"),
      RItem.cls isAzLower, RItem.star isWsC, RItem.lit (strL ")")]
      ('(' :: '∫' :: ' ' :: (E ++ ' ' :: 'd' :: t :: [')'])) =
      some ([strL "(", [], strL "∫", [' '], E ++ [' '], [], strL "d", [t], [],
        strL ")"], []) := by
    rw [show ('(' :: '∫' :: ' ' :: (E ++ ' ' :: 'd' :: t :: [')']) : List Char) =
      strL "(" ++ '∫' :: ' ' :: (E ++ ' ' :: 'd' :: t :: [')']) from rfl,
      matchItems_lit_cons, m5]
    rfl
  have m3 : matchItems [RItem.star isWsC, RItem.lit (strL "("), RItem.star isWsC,
      RItem.lit (strL "∫"), RItem.star isWsC, RItem.plus notD, RItem.star isWsC,
      RItem.lit (strL "d"), RItem.cls isAzLower, RItem.star isWsC, RItem.lit (strL ")")]
      ('(' :: '∫' :: ' ' :: (E ++ ' ' :: 'd' :: t :: [')'])) =
      some ([[], strL "(", [], strL "∫", [' '], E ++ [' '], [], strL "d", [t], [],
        strL ")"], []) := by
    apply matchItems_star_greedy
    rw [show ('(' :: '∫' :: ' ' :: (E ++ ' ' :: 'd' :: t :: [')'])).dropWhile isWsC =
        '(' :: '∫' :: ' ' :: (E ++ ' ' :: 'd' :: t :: [')']) from rfl,
      show ('(' :: '∫' :: ' ' :: (E ++ ' ' :: 'd' :: t :: [')'])).takeWhile isWsC = []
      from rfl, m4]
    rfl
  have m2 : matchItems [RItem.cls isAzLower, RItem.star isWsC, RItem.lit (strL "("),
      RItem.star isWsC, RItem.lit (strL "∫"), RItem.star isWsC, RItem.plus notD,
      RItem.star isWsC, RItem.lit (strL "d"), RItem.cls isAzLower, RItem.star isWsC,
      RItem.lit (strL ")")] (x :: '(' :: '∫' :: ' ' :: (E ++ ' ' :: 'd' :: t :: [')'])) =
      some ([[x], [], strL "(", [], strL "∫", [' '], E ++ [' '], [], strL "d", [t], [],
        strL ")"], []) := by
    rw [matchItems_cls_cons hx, m3]
    rfl
  have m1 : matchItems pDerivOfInt ('d' :: '/' :: 'd' :: x :: '(' :: '∫' :: ' ' ::
      (E ++ ' ' :: 'd' :: t :: [')'])) =
      some ([strL "d/d", [x], [], strL "(", [], strL "∫", [' '], E ++ [' '], [], strL "d",
        [t], [], strL ")"], []) := by
    rw [show ('d' :: '/' :: 'd' :: x :: '(' :: '∫' :: ' ' ::
      (E ++ ' ' :: 'd' :: t :: [')']) : List Char) =
      strL "d/d" ++ x :: '(' :: '∫' :: ' ' :: (E ++ ' ' :: 'd' :: t :: [')']) from rfl]
    rw [show pDerivOfInt = RItem.lit (strL "d/d") :: [RItem.cls isAzLower,
      RItem.star isWsC, RItem.lit (strL "("), RItem.star isWsC, RItem.lit (strL "∫"),
      RItem.star isWsC, RItem.plus notD, RItem.star isWsC, RItem.lit (strL "d"),
      RItem.cls isAzLower, RItem.star isWsC, RItem.lit (strL ")")] from rfl,
      matchItems_lit_cons, m2]
    rfl
  have hsearch := searchPre_eq_found m1
  have hpystrip : pyStrip (E ++ [' ']) = E := pyStrip_append_space hne hEws
  unfold parse_combined_expression
  rw [if_neg ?hn1, if_neg ?hn2, if_neg ?hn3, if_neg ?hn4, if_neg ?hn5, if_neg ?hn6,
    if_neg ?hn7, if_neg ?hn8]
  case hn1 =>
    rw [hstrip]
    rintro (h | h | h | h) <;> exact absurd (h ▸ hmemInt) (by decide)
  case hn2 =>
    rw [hstrip]
    rintro (h | h | h | h) <;> exact absurd (h ▸ hmemInt) (by decide)
  case hn3 =>
    rw [hstrip]
    rintro (h | h | h | h) <;> exact absurd (h ▸ hmemInt) (by decide)
  case hn4 =>
    rintro (h | h)
    · exact hcar (mem_of_isSub h (by decide))
    · exact hast (mem_of_isSub h (by decide))
  case hn5 =>
    rintro (h | h)
    · exact hgt (mem_of_isSub h (by decide))
    · exact hgt (mem_of_isSub h (by decide))
  case hn6 =>
    intro h
    exact hgt (mem_of_isSub h (by decide))
  case hn7 =>
    intro h
    exact hcar (mem_of_isSub h (by decide))
  case hn8 =>
    rintro ⟨h1, -, -⟩
    rw [hstrip] at h1
    have h2 : (strL "∫").isPrefixOf ('d' :: '/' :: 'd' :: x :: '(' :: '∫' :: ' ' ::
        (E ++ ' ' :: 'd' :: t :: [')'])) = false :=
      isPrefixOf_false_of_head_ne (by decide) _ _
    exact absurd (h2.symm.trans h1) Bool.false_ne_true
  unfold parseFromPre
  rw [hpp]
  unfold parseRewrites
  rw [hsearch]
  dsimp only
  by_cases htx : t = x
  · rw [if_neg (by simp [htx]), if_pos htx, hpystrip]
  · rw [if_pos (by simpa using htx), if_neg htx, hpystrip]
    rfl

/-- Witness for C4 at `x = 'x'`, `t = 't'`, `E = "q+1"`. -/
theorem deriv_of_int_resolver_wit :
    parse_combined_expression (strL "d/d" ++ ['x'] ++ strL "(∫ " ++ strL "q+1" ++
        strL " d" ++ ['t'] ++ strL ")") =
      (if 't' = 'x' then
        strL "diff(integrate(" ++ strL "q+1" ++ strL ", " ++ ['t'] ++ strL "), " ++ ['x'] ++
          strL ")"
       else replaceChar 't' 'x' (strL "q+1")) :=
  deriv_of_int_resolver 'x' 't' (strL "q+1") (by decide) (by decide) (by decide) (by decide)
    (by decide)

/-- C4 counterexample: for the integrand `E = "d"` the claimed rule predicts
the result `d` (replace `t` by `x` in `E`), but the capture group `([^d]+)`
cannot hold a `d`, the nested-form pattern misses, and the first-derivative
loop produces `diff(∫ d dt, x)` instead. -/
theorem deriv_of_int_counterexample :
    parse_combined_expression (strL "d/dx(∫ d dt)") = strL "diff(∫ d dt, x)" ∧
      parse_combined_expression (strL "d/dx(∫ d dt)") ≠ strL "d" :=
  ⟨by decide, by decide⟩

/-- C5 (corrected): the documented braced form `d/dx(lim_{t->a}(E))` is never
recognised by the nested-form pattern — `lim[_{]?` consumes at most one
character, so `_{` can never be crossed (see the counterexample).  On the
recognisable variant `d/dv(lim{t->a}(E))` the resolver of lines 111-124 does
behave as claimed: `0` when the bound variable differs from `v` and `v` does
not occur in `E`, and `diff(limit(E, t, a), v)` otherwise. -/
theorem deriv_of_limit_resolver (v t : Char) (a E : List Char)
    (hv : isAzLower v = true) (ht : isAzLower t = true)
    (hane : a ≠ []) (hne : E ≠ [])
    (ha : ∀ c ∈ a, (c ∉ strL "{}∫_" : Prop) ∧ isWsC c = false)
    (hE : ∀ c ∈ E, (c ∉ strL "(){}∫_" : Prop) ∧ isWsC c = false)
    (hpp : preprocess_expression (strL "d/d" ++ [v] ++ strL "(lim\x7b" ++ [t] ++ strL "->" ++
        a ++ strL "\x7d(" ++ E ++ strL "))") =
      strL "d/d" ++ [v] ++ strL "(lim\x7b" ++ [t] ++ strL "->" ++ a ++ strL "\x7d(" ++ E ++
        strL "))") :
    parse_combined_expression (strL "d/d" ++ [v] ++ strL "(lim\x7b" ++ [t] ++ strL "->" ++
        a ++ strL "\x7d(" ++ E ++ strL "))") =
      if t ≠ v ∧ v ∉ E then strL "0"
      else strL "diff(limit(" ++ E ++ strL ", " ++ [t] ++ strL ", " ++ a ++ strL "), " ++
        [v] ++ strL ")" := by
  have hcan : strL "d/d" ++ [v] ++ strL "(lim\x7b" ++ [t] ++ strL "->" ++ a ++ strL "\x7d(" ++
      E ++ strL "))" =
      'd' :: '/' :: 'd' :: v :: '(' :: 'l' :: 'i' :: 'm' :: '{' :: t :: '-' :: '>' ::
        (a ++ '}' :: '(' :: (E ++ ')' :: [')'])) := by
    simp [strL]
  rw [hcan] at hpp ⊢
  have haws : ∀ c ∈ a, isWsC c = false := fun c hc => (ha c hc).2
  have hl : ∀ c ∈ a, (c ∉ strL "{}∫_" : Prop) := fun c hc => (ha c hc).1
  have hEws : ∀ c ∈ E, isWsC c = false := fun c hc => (hE c hc).2
  have hEl : ∀ c ∈ E, (c ∉ strL "(){}∫_" : Prop) := fun c hc => (hE c hc).1
  have hstrip : pyStrip ('d' :: '/' :: 'd' :: v :: '(' :: 'l' :: 'i' :: 'm' :: '{' :: t ::
      '-' :: '>' :: (a ++ '}' :: '(' :: (E ++ ')' :: [')']))) =
      'd' :: '/' :: 'd' :: v :: '(' :: 'l' :: 'i' :: 'm' :: '{' :: t :: '-' :: '>' ::
        (a ++ '}' :: '(' :: (E ++ ')' :: [')'])) := by
    rw [show 'd' :: '/' :: 'd' :: v :: '(' :: 'l' :: 'i' :: 'm' :: '{' :: t :: '-' :: '>' ::
        (a ++ '}' :: '(' :: (E ++ ')' :: [')'])) =
      'd' :: (('/' :: 'd' :: v :: '(' :: 'l' :: 'i' :: 'm' :: '{' :: t :: '-' :: '>' ::
        (a ++ '}' :: '(' :: (E ++ [')']))) ++ [')']) from by simp]
    rw [pyStrip_cons_concat (by decide) (by decide)]
  have hmemBr : '{' ∈ 'd' :: '/' :: 'd' :: v :: '(' :: 'l' :: 'i' :: 'm' :: '{' :: t ::
      '-' :: '>' :: (a ++ '}' :: '(' :: (E ++ ')' :: [')'])) := by simp
  have hnotmem : ∀ z : Char, isAzLower z = false → (z ∉ strL "d/(lim{->})" : Prop) →
      (z ∉ a) → (z ∉ E) → z ∉ 'd' :: '/' :: 'd' :: v :: '(' :: 'l' :: 'i' :: 'm' :: '{' ::
      t :: '-' :: '>' :: (a ++ '}' :: '(' :: (E ++ ')' :: [')'])) := by
    intro z hz1 hz2 hz3 hz4 hmem
    simp only [List.mem_cons, List.mem_append, List.not_mem_nil, or_false] at hmem
    rcases hmem with rfl | rfl | rfl | rfl | rfl | rfl | rfl | rfl | rfl | rfl | rfl | rfl |
      hmem | rfl | rfl | hmem | rfl | rfl
    · exact hz2 (by decide)
    · exact hz2 (by decide)
    · exact hz2 (by decide)
    · exact absurd (hz1.symm.trans hv) Bool.false_ne_true
    · exact hz2 (by decide)
    · exact hz2 (by decide)
    · exact hz2 (by decide)
    · exact hz2 (by decide)
    · exact hz2 (by decide)
    · exact absurd (hz1.symm.trans ht) Bool.false_ne_true
    · exact hz2 (by decide)
    · exact hz2 (by decide)
    · exact hz3 hmem
    · exact hz2 (by decide)
    · exact hz2 (by decide)
    · exact hz4 hmem
    · exact hz2 (by decide)
    · exact hz2 (by decide)
  have hund := hnotmem '_' (by decide) (by decide)
    (fun h => (hl '_' h) (by decide)) (fun h => (hEl '_' h) (by decide))
  have hint := hnotmem '∫' (by decide) (by decide)
    (fun h => (hl '∫' h) (by decide)) (fun h => (hEl '∫' h) (by decide))
  have hsp := hnotmem ' ' (by decide) (by decide)
    (fun h => absurd (haws ' ' h) (by decide)) (fun h => absurd (hEws ' ' h) (by decide))
  have hEnp : ∀ c ∈ E, noParen c = true := by
    intro c hc
    have h := hEl c hc
    have h1 : c ≠ '(' := fun e => h (by rw [e] ; decide)
    have h2 : c ≠ ')' := fun e => h (by rw [e] ; decide)
    simp [noParen, h1, h2]
  have hanb : ∀ c ∈ a, noBrace c = true := by
    intro c hc
    have h := hl c hc
    have h1 : c ≠ '{' := fun e => h (by rw [e] ; decide)
    have h2 : c ≠ '}' := fun e => h (by rw [e] ; decide)
    simp [noBrace, h1, h2]
  have m17 : matchItems [RItem.lit (strL ")")] [')'] = some ([strL ")"], []) := by
    rw [show ([')'] : List Char) = strL ")" ++ [] from rfl, matchItems_lit_cons]
    rfl
  have m16 : matchItems [RItem.star isWsC, RItem.lit (strL ")")] [')'] =
      some ([[], strL ")"], []) := by
    apply matchItems_star_greedy
    rw [show ([')'] : List Char).dropWhile isWsC = [')'] from rfl,
      show ([')'] : List Char).takeWhile isWsC = [] from rfl, m17]
    rfl
  have m15 : matchItems [RItem.lit (strL ")"), RItem.star isWsC, RItem.lit (strL ")")]
      (')' :: [')']) = some ([strL ")", [], strL ")"], []) := by
    rw [show (')' :: [')'] : List Char) = strL ")" ++ [')'] from rfl,
      matchItems_lit_cons, m16]
    rfl
  have m14 : matchItems [RItem.plus noParen, RItem.lit (strL ")"), RItem.star isWsC,
      RItem.lit (strL ")")] (E ++ ')' :: [')']) =
      some ([E, strL ")", [], strL ")"], []) := by
    apply matchItems_plus_greedy
    · rw [takeWhile_append_stop (by decide) hEnp]
      exact hne
    · rw [takeWhile_append_stop (by decide) hEnp, dropWhile_append_stop (by decide) hEnp,
        m15]
      rfl
  have m13 : matchItems [RItem.lit (strL "("), RItem.plus noParen, RItem.lit (strL ")"),
      RItem.star isWsC, RItem.lit (strL ")")] ('(' :: (E ++ ')' :: [')'])) =
      some ([strL "(", E, strL ")", [], strL ")"], []) := by
    rw [show ('(' :: (E ++ ')' :: [')']) : List Char) = strL "(" ++ (E ++ ')' :: [')'])
      from rfl, matchItems_lit_cons, m14]
    rfl
  have m12 : matchItems [RItem.star isWsC, RItem.lit (strL "("), RItem.plus noParen,
      RItem.lit (strL ")"), RItem.star isWsC, RItem.lit (strL ")")]
      ('(' :: (E ++ ')' :: [')'])) =
      some ([[], strL "(", E, strL ")", [], strL ")"], []) := by
    apply matchItems_star_greedy
    rw [show ('(' :: (E ++ ')' :: [')'])).dropWhile isWsC = '(' :: (E ++ ')' :: [')'])
      from rfl,
      show ('(' :: (E ++ ')' :: [')'])).takeWhile isWsC = [] from rfl, m13]
    rfl
  have m11 : matchItems [RItem.opt isRbrace, RItem.star isWsC, RItem.lit (strL "("),
      RItem.plus noParen, RItem.lit (strL ")"), RItem.star isWsC, RItem.lit (strL ")")]
      ('}' :: '(' :: (E ++ ')' :: [')'])) =
      some ([['}'], [], strL "(", E, strL ")", [], strL ")"], []) := by
    apply matchItems_opt_consume (by decide)
    rw [m12]
    rfl
  have m10 : matchItems [RItem.plus noBrace, RItem.opt isRbrace, RItem.star isWsC,
      RItem.lit (strL "("), RItem.plus noParen, RItem.lit (strL ")"), RItem.star isWsC,
      RItem.lit (strL ")")] (a ++ '}' :: '(' :: (E ++ ')' :: [')'])) =
      some ([a, ['}'], [], strL "(", E, strL ")", [], strL ")"], []) := by
    apply matchItems_plus_greedy
    · rw [takeWhile_append_stop (by decide) hanb]
      exact hane
    · rw [takeWhile_append_stop (by decide) hanb, dropWhile_append_stop (by decide) hanb,
        m11]
      rfl
  have m9 : matchItems [RItem.lit (strL "->"), RItem.plus noBrace, RItem.opt isRbrace,
      RItem.star isWsC, RItem.lit (strL "("), RItem.plus noParen, RItem.lit (strL ")"),
      RItem.star isWsC, RItem.lit (strL ")")]
      ('-' :: '>' :: (a ++ '}' :: '(' :: (E ++ ')' :: [')']))) =
      some ([strL "->", a, ['}'], [], strL "(", E, strL ")", [], strL ")"], []) := by
    rw [show ('-' :: '>' :: (a ++ '}' :: '(' :: (E ++ ')' :: [')'])) : List Char) =
      strL "->" ++ (a ++ '}' :: '(' :: (E ++ ')' :: [')'])) from rfl,
      matchItems_lit_cons, m10]
    rfl
  have m8 : matchItems [RItem.cls isAzLower, RItem.lit (strL "->"), RItem.plus noBrace,
      RItem.opt isRbrace, RItem.star isWsC, RItem.lit (strL "("), RItem.plus noParen,
      RItem.lit (strL ")"), RItem.star isWsC, RItem.lit (strL ")")]
      (t :: '-' :: '>' :: (a ++ '}' :: '(' :: (E ++ ')' :: [')']))) =
      some ([[t], strL "->", a, ['}'], [], strL "(", E, strL ")", [], strL ")"], []) := by
    rw [matchItems_cls_cons ht, m9]
    rfl
  have m7 : matchItems [RItem.opt usBrace, RItem.cls isAzLower, RItem.lit (strL "->"),
      RItem.plus noBrace, RItem.opt isRbrace, RItem.star isWsC, RItem.lit (strL "("),
      RItem.plus noParen, RItem.lit (strL ")"), RItem.star isWsC, RItem.lit (strL ")")]
      ('{' :: t :: '-' :: '>' :: (a ++ '}' :: '(' :: (E ++ ')' :: [')']))) =
      some ([['{'], [t], strL "->", a, ['}'], [], strL "(", E, strL ")", [],
        strL ")"], []) := by
    apply matchItems_opt_consume (by decide)
    rw [m8]
    rfl
  have m6 : matchItems [RItem.lit (strL "lim"), RItem.opt usBrace, RItem.cls isAzLower,
      RItem.lit (strL "->"), RItem.plus noBrace, RItem.opt isRbrace, RItem.star isWsC,
      RItem.lit (strL "("), RItem.plus noParen, RItem.lit (strL ")"), RItem.star isWsC,
      RItem.lit (strL ")")]
      ('l' :: 'i' :: 'm' :: '{' :: t :: '-' :: '>' ::
        (a ++ '}' :: '(' :: (E ++ ')' :: [')']))) =
      some ([strL "lim", ['{'], [t], strL "->", a, ['}'], [], strL "(", E, strL ")", [],
        strL ")"], []) := by
    rw [show ('l' :: 'i' :: 'm' :: '{' :: t :: '-' :: '>' ::
      (a ++ '}' :: '(' :: (E ++ ')' :: [')'])) : List Char) =
      strL "lim" ++ '{' :: t :: '-' :: '>' :: (a ++ '}' :: '(' :: (E ++ ')' :: [')']))
      from rfl, matchItems_lit_cons, m7]
    rfl
  have m5 : matchItems [RItem.star isWsC, RItem.lit (strL "lim"), RItem.opt usBrace,
      RItem.cls isAzLower, RItem.lit (strL "->"), RItem.plus noBrace, RItem.opt isRbrace,
      RItem.star isWsC, RItem.lit (strL "("), RItem.plus noParen, RItem.lit (strL ")"),
      RItem.star isWsC, RItem.lit (strL ")")]
      ('l' :: 'i' :: 'm' :: '{' :: t :: '-' :: '>' ::
        (a ++ '}' :: '(' :: (E ++ ')' :: [')']))) =
      some ([[], strL "lim", ['{'], [t], strL "->", a, ['}'], [], strL "(", E, strL ")",
        [], strL ")"], []) := by
    apply matchItems_star_greedy
    rw [show ('l' :: 'i' :: 'm' :: '{' :: t :: '-' :: '>' ::
        (a ++ '}' :: '(' :: (E ++ ')' :: [')']))).dropWhile isWsC =
      'l' :: 'i' :: 'm' :: '{' :: t :: '-' :: '>' ::
        (a ++ '}' :: '(' :: (E ++ ')' :: [')'])) from rfl,
      show ('l' :: 'i' :: 'm' :: '{' :: t :: '-' :: '>' ::
        (a ++ '}' :: '(' :: (E ++ ')' :: [')']))).takeWhile isWsC = [] from rfl, m6]
    rfl
  have m4 : matchItems [RItem.lit (strL "("), RItem.star isWsC, RItem.lit (strL "lim"),
      RItem.opt usBrace, RItem.cls isAzLower, RItem.lit (strL "->"), RItem.plus noBrace,
      RItem.opt isRbrace, RItem.star isWsC, RItem.lit (strL "("), RItem.plus noParen,
      RItem.lit (strL ")"), RItem.star isWsC, RItem.lit (strL ")")]
      ('(' :: 'l' :: 'i' :: 'm' :: '{' :: t :: '-' :: '>' ::
        (a ++ '}' :: '(' :: (E ++ ')' :: [')']))) =
      some ([strL "(", [], strL "lim", ['{'], [t], strL "->", a, ['}'], [], strL "(", E,
        strL ")", [], strL ")"], []) := by
    rw [show ('(' :: 'l' :: 'i' :: 'm' :: '{' :: t :: '-' :: '>' ::
      (a ++ '}' :: '(' :: (E ++ ')' :: [')'])) : List Char) =
      strL "(" ++ 'l' :: 'i' :: 'm' :: '{' :: t :: '-' :: '>' ::
        (a ++ '}' :: '(' :: (E ++ ')' :: [')'])) from rfl, matchItems_lit_cons, m5]
    rfl
  have m3 : matchItems [RItem.star isWsC, RItem.lit (strL "("), RItem.star isWsC,
      RItem.lit (strL "lim"), RItem.opt usBrace, RItem.cls isAzLower, RItem.lit (strL "->"),
      RItem.plus noBrace, RItem.opt isRbrace, RItem.star isWsC, RItem.lit (strL "("),
      RItem.plus noParen, RItem.lit (strL ")"), RItem.star isWsC, RItem.lit (strL ")")]
      ('(' :: 'l' :: 'i' :: 'm' :: '{' :: t :: '-' :: '>' ::
        (a ++ '}' :: '(' :: (E ++ ')' :: [')']))) =
      some ([[], strL "(", [], strL "lim", ['{'], [t], strL "->", a, ['}'], [], strL "(",
        E, strL ")", [], strL ")"], []) := by
    apply matchItems_star_greedy
    rw [show ('(' :: 'l' :: 'i' :: 'm' :: '{' :: t :: '-' :: '>' ::
        (a ++ '}' :: '(' :: (E ++ ')' :: [')']))).dropWhile isWsC =
      '(' :: 'l' :: 'i' :: 'm' :: '{' :: t :: '-' :: '>' ::
        (a ++ '}' :: '(' :: (E ++ ')' :: [')'])) from rfl,
      show ('(' :: 'l' :: 'i' :: 'm' :: '{' :: t :: '-' :: '>' ::
        (a ++ '}' :: '(' :: (E ++ ')' :: [')']))).takeWhile isWsC = [] from rfl, m4]
    rfl
  have m2 : matchItems [RItem.cls isAzLower, RItem.star isWsC, RItem.lit (strL "("),
      RItem.star isWsC, RItem.lit (strL "lim"), RItem.opt usBrace, RItem.cls isAzLower,
      RItem.lit (strL "->"), RItem.plus noBrace, RItem.opt isRbrace, RItem.star isWsC,
      RItem.lit (strL "("), RItem.plus noParen, RItem.lit (strL ")"), RItem.star isWsC,
      RItem.lit (strL ")")]
      (v :: '(' :: 'l' :: 'i' :: 'm' :: '{' :: t :: '-' :: '>' ::
        (a ++ '}' :: '(' :: (E ++ ')' :: [')']))) =
      some ([[v], [], strL "(", [], strL "lim", ['{'], [t], strL "->", a, ['}'], [],
        strL "(", E, strL ")", [], strL ")"], []) := by
    rw [matchItems_cls_cons hv, m3]
    rfl
  have m1 : matchItems pDerivOfLimit ('d' :: '/' :: 'd' :: v :: '(' :: 'l' :: 'i' :: 'm' ::
      '{' :: t :: '-' :: '>' :: (a ++ '}' :: '(' :: (E ++ ')' :: [')']))) =
      some ([strL "d/d", [v], [], strL "(", [], strL "lim", ['{'], [t], strL "->", a,
        ['}'], [], strL "(", E, strL ")", [], strL ")"], []) := by
    rw [show ('d' :: '/' :: 'd' :: v :: '(' :: 'l' :: 'i' :: 'm' :: '{' :: t :: '-' ::
      '>' :: (a ++ '}' :: '(' :: (E ++ ')' :: [')'])) : List Char) =
      strL "d/d" ++ v :: '(' :: 'l' :: 'i' :: 'm' :: '{' :: t :: '-' :: '>' ::
        (a ++ '}' :: '(' :: (E ++ ')' :: [')'])) from rfl]
    rw [show pDerivOfLimit = RItem.lit (strL "d/d") :: [RItem.cls isAzLower,
      RItem.star isWsC, RItem.lit (strL "("), RItem.star isWsC, RItem.lit (strL "lim"),
      RItem.opt usBrace, RItem.cls isAzLower, RItem.lit (strL "->"), RItem.plus noBrace,
      RItem.opt isRbrace, RItem.star isWsC, RItem.lit (strL "("), RItem.plus noParen,
      RItem.lit (strL ")"), RItem.star isWsC, RItem.lit (strL ")")] from rfl,
      matchItems_lit_cons, m2]
    rfl
  have hsearch := searchPre_eq_found m1
  have hDOInone : searchPre pDerivOfInt ('d' :: '/' :: 'd' :: v :: '(' :: 'l' :: 'i' ::
      'm' :: '{' :: t :: '-' :: '>' :: (a ++ '}' :: '(' :: (E ++ ')' :: [')']))) = none := by
    apply searchPre_none_of_lit_char ?_ (show '∫' ∈ strL "∫" from by decide) hint
    unfold pDerivOfInt
    exact List.mem_cons_of_mem _ (List.mem_cons_of_mem _ (List.mem_cons_of_mem _
      (List.mem_cons_of_mem _ (List.mem_cons_of_mem _ (List.mem_cons_self ..)))))
  unfold parse_combined_expression
  rw [if_neg ?hn1, if_neg ?hn2, if_neg ?hn3, if_neg ?hn4, if_neg ?hn5, if_neg ?hn6,
    if_neg ?hn7, if_neg ?hn8]
  case hn1 =>
    rw [hstrip]
    rintro (h | h | h | h) <;> exact absurd (h ▸ hmemBr) (by decide)
  case hn2 =>
    rw [hstrip]
    rintro (h | h | h | h) <;> exact absurd (h ▸ hmemBr) (by decide)
  case hn3 =>
    rw [hstrip]
    rintro (h | h | h | h) <;> exact absurd (h ▸ hmemBr) (by decide)
  case hn4 =>
    rintro (h | h) <;> exact hint (mem_of_isSub h (by decide))
  case hn5 =>
    rintro (h | h)
    · exact hund (mem_of_isSub h (by decide))
    · exact hsp (mem_of_isSub h (by decide))
  case hn6 =>
    intro h
    exact hund (mem_of_isSub h (by decide))
  case hn7 =>
    intro h
    exact hint (mem_of_isSub h (by decide))
  case hn8 =>
    rintro ⟨h1, -, -⟩
    rw [hstrip] at h1
    have h2 : (strL "∫").isPrefixOf ('d' :: '/' :: 'd' :: v :: '(' :: 'l' :: 'i' :: 'm' ::
        '{' :: t :: '-' :: '>' :: (a ++ '}' :: '(' :: (E ++ ')' :: [')']))) = false :=
      isPrefixOf_false_of_head_ne (by decide) _ _
    exact absurd (h2.symm.trans h1) Bool.false_ne_true
  unfold parseFromPre
  rw [hpp]
  unfold parseRewrites
  rw [hDOInone, hsearch]
  dsimp only
  by_cases hc : t ≠ v ∧ v ∉ E
  · rw [if_pos ⟨by simpa using hc.1, hc.2⟩, if_pos hc]
  · rw [if_neg (fun hh => hc ⟨by simpa using hh.1, hh.2⟩), if_neg hc]

/-- Witness for C5 at `v = 'x'`, `t = 't'`, `a = "0"`, `E = "q+1"`. -/
theorem deriv_of_limit_resolver_wit :
    parse_combined_expression (strL "d/d" ++ ['x'] ++ strL "(lim\x7b" ++ ['t'] ++ strL "->" ++
        strL "0" ++ strL "\x7d(" ++ strL "q+1" ++ strL "))") =
      (if 't' ≠ 'x' ∧ 'x' ∉ strL "q+1" then strL "0"
       else strL "diff(limit(" ++ strL "q+1" ++ strL ", " ++ ['t'] ++ strL ", " ++
         strL "0" ++ strL "), " ++ ['x'] ++ strL ")") :=
  deriv_of_limit_resolver 'x' 't' (strL "0") (strL "q+1") (by decide) (by decide)
    (by decide) (by decide) (by decide) (by decide) (by decide)

/-- C5 counterexample: on the braced form the claim predicts `0` (the bound
variable `t` differs from `x` and `x` does not occur in `q+t`), but `lim[_{]?`
cannot consume the two characters `_{`, the nested pattern misses, and the
first-derivative loop mangles the text instead. -/
theorem deriv_of_limit_braced_counterexample :
    parse_combined_expression (strL "d/dx(lim_{t->0}(q+t))") =
      strL "diff(lim_{t->0}, x)(q+t))" ∧
      parse_combined_expression (strL "d/dx(lim_{t->0}(q+t))") ≠ strL "0" :=
  ⟨by decide, by decide⟩

theorem isPrefixOf_false_second {x1 x2 y1 y2 : Char} (h : (x2 == y2) = false)
    (l t : List Char) : (x1 :: x2 :: l).isPrefixOf (y1 :: y2 :: t) = false := by
  show (x1 == y1 && (x2 == y2 && l.isPrefixOf t)) = false
  rw [h]
  simp

theorem charBeq_false_of_ne {x y : Char} (h : x ≠ y) : (x == y) = false :=
  beq_eq_false_iff_ne.mpr h

/-- C10 (confirmed): the mixed-partial loop of lines 184-194 rewrites
`∂²/∂a∂b(E)` (for a parenthesis-free integrand over the supported charset, on
preprocessor-stable input) to `diff(diff(E, a), b)`: the inner differentiation
uses the first-listed variable `a` and the outer the second-listed `b` — the
reverse of the conventional reading of `∂²/∂a∂b`, and an order the spec indeed
never states. -/
theorem mixed_partial_order (a b : Char) (E : List Char)
    (ha : isAzLower a = true) (hb : isAzLower b = true) (hne : E ≠ [])
    (hE : ∀ c ∈ E, (c ∉ strL "∂²()d/∫>" : Prop))
    (hpp : preprocess_expression (strL "∂²/∂" ++ [a] ++ strL "∂" ++ [b] ++ strL "(" ++ E ++
        strL ")") =
      strL "∂²/∂" ++ [a] ++ strL "∂" ++ [b] ++ strL "(" ++ E ++ strL ")") :
    parse_combined_expression (strL "∂²/∂" ++ [a] ++ strL "∂" ++ [b] ++ strL "(" ++ E ++
        strL ")") =
      strL "diff(diff(" ++ E ++ strL ", " ++ [a] ++ strL "), " ++ [b] ++ strL ")" := by
  have hcan : strL "∂²/∂" ++ [a] ++ strL "∂" ++ [b] ++ strL "(" ++ E ++ strL ")" =
      '∂' :: '²' :: '/' :: '∂' :: a :: '∂' :: b :: '(' :: (E ++ [')']) := by
    simp [strL]
  rw [hcan] at hpp ⊢
  have hstrip : pyStrip ('∂' :: '²' :: '/' :: '∂' :: a :: '∂' :: b :: '(' ::
      (E ++ [')'])) = '∂' :: '²' :: '/' :: '∂' :: a :: '∂' :: b :: '(' :: (E ++ [')']) := by
    rw [show '∂' :: '²' :: '/' :: '∂' :: a :: '∂' :: b :: '(' :: (E ++ [')']) =
      '∂' :: (('²' :: '/' :: '∂' :: a :: '∂' :: b :: '(' :: E) ++ [')']) from by simp]
    rw [pyStrip_cons_concat (by decide) (by decide)]
  have hmemPa : '∂' ∈ '∂' :: '²' :: '/' :: '∂' :: a :: '∂' :: b :: '(' :: (E ++ [')']) := by
    simp
  have hmemSq : '²' ∈ '∂' :: '²' :: '/' :: '∂' :: a :: '∂' :: b :: '(' :: (E ++ [')']) := by
    simp
  have hnotmem : ∀ z : Char, isAzLower z = false → (z ∉ strL "∂²/()" : Prop) →
      (z ∉ E) → z ∉ '∂' :: '²' :: '/' :: '∂' :: a :: '∂' :: b :: '(' :: (E ++ [')']) := by
    intro z hz1 hz2 hz3 hmem
    simp only [List.mem_cons, List.mem_append, List.not_mem_nil, or_false,
      List.mem_singleton] at hmem
    rcases hmem with rfl | rfl | rfl | rfl | rfl | rfl | rfl | rfl | hmem | rfl
    · exact hz2 (by decide)
    · exact hz2 (by decide)
    · exact hz2 (by decide)
    · exact hz2 (by decide)
    · exact absurd (hz1.symm.trans ha) Bool.false_ne_true
    · exact hz2 (by decide)
    · exact absurd (hz1.symm.trans hb) Bool.false_ne_true
    · exact hz2 (by decide)
    · exact hz3 hmem
    · exact hz2 (by decide)
  have hint := hnotmem '∫' (by decide) (by decide) (fun h => (hE '∫' h) (by decide))
  have hgt := hnotmem '>' (by decide) (by decide) (fun h => (hE '>' h) (by decide))
  have hdtail : 'd' ∉ E ++ [')'] := by
    intro h
    rcases List.mem_append.mp h with h | h
    · exact (hE 'd' h) (by decide)
    · exact absurd (List.mem_singleton.mp h) (by decide)
  have hptail : '∂' ∉ E ++ [')'] := by
    intro h
    rcases List.mem_append.mp h with h | h
    · exact (hE '∂' h) (by decide)
    · exact absurd (List.mem_singleton.mp h) (by decide)
  have hEnp : ∀ c ∈ E, noParen c = true := by
    intro c hc
    have h := hE c hc
    have h1 : c ≠ '(' := fun e => h (by rw [e] ; decide)
    have h2 : c ≠ ')' := fun e => h (by rw [e] ; decide)
    simp [noParen, h1, h2]
  have hSD : searchPre pSecondDeriv ('∂' :: '²' :: '/' :: '∂' :: a :: '∂' :: b :: '(' ::
      (E ++ [')'])) = none := by
    apply searchPre_none_of_matchfail
    intro u hu
    simp only [List.suffix_cons_iff] at hu
    rcases hu with rfl | rfl | rfl | rfl | rfl | rfl | rfl | rfl | hu
    · exact matchItems_lit_none rfl
    · exact matchItems_lit_none rfl
    · exact matchItems_lit_none rfl
    · exact matchItems_lit_none rfl
    · exact matchItems_lit_none (isPrefixOf_false_second (by decide) _ _)
    · exact matchItems_lit_none rfl
    · exact matchItems_lit_none (isPrefixOf_false_second (by decide) _ _)
    · exact matchItems_lit_none rfl
    · exact matchItems_lit_none
        (isPrefixOf_false_of_not_mem (fun hm => hdtail (hu.subset hm)))
  have hPD : searchPre pPartialDeriv ('∂' :: '²' :: '/' :: '∂' :: a :: '∂' :: b :: '(' ::
      (E ++ [')'])) = none := by
    apply searchPre_none_of_matchfail
    intro u hu
    simp only [List.suffix_cons_iff] at hu
    rcases hu with rfl | rfl | rfl | rfl | rfl | rfl | rfl | rfl | hu
    · exact matchItems_lit_none (isPrefixOf_false_second (by decide) _ _)
    · exact matchItems_lit_none rfl
    · exact matchItems_lit_none rfl
    · exact matchItems_lit_none (isPrefixOf_false_second
        (charBeq_false_of_ne (Ne.symm (ne_of_pred ha (by decide)))) _ _)
    · exact matchItems_lit_none
        (isPrefixOf_false_of_head_ne ((ne_of_pred ha (by decide)).symm) _ _)
    · exact matchItems_lit_none (isPrefixOf_false_second
        (charBeq_false_of_ne (Ne.symm (ne_of_pred hb (by decide)))) _ _)
    · exact matchItems_lit_none
        (isPrefixOf_false_of_head_ne ((ne_of_pred hb (by decide)).symm) _ _)
    · exact matchItems_lit_none rfl
    · exact matchItems_lit_none
        (isPrefixOf_false_of_not_mem (fun hm => hptail (hu.subset hm)))
  have hSP : searchPre pSecondPartial ('∂' :: '²' :: '/' :: '∂' :: a :: '∂' :: b :: '(' ::
      (E ++ [')'])) = none := by
    apply searchPre_none_of_matchfail
    intro u hu
    simp only [List.suffix_cons_iff] at hu
    rcases hu with rfl | rfl | rfl | rfl | rfl | rfl | rfl | rfl | hu
    · rw [show pSecondPartial = RItem.lit (strL "∂²/∂") :: [RItem.cls isAzLower,
        RItem.lit (strL "²"), RItem.star isWsC, RItem.opt isLpar, RItem.plus noParen,
        RItem.opt isRpar] from rfl,
        show ('∂' :: '²' :: '/' :: '∂' :: a :: '∂' :: b :: '(' :: (E ++ [')']) :
          List Char) =
          strL "∂²/∂" ++ a :: '∂' :: b :: '(' :: (E ++ [')']) from rfl,
        matchItems_lit_cons, matchItems_cls_cons ha, matchItems_lit_none
          (show (strL "²").isPrefixOf ('∂' :: b :: '(' :: (E ++ [')'])) = false from rfl)]
      rfl
    · exact matchItems_lit_none rfl
    · exact matchItems_lit_none rfl
    · exact matchItems_lit_none (isPrefixOf_false_second
        (charBeq_false_of_ne (Ne.symm (ne_of_pred ha (by decide)))) _ _)
    · exact matchItems_lit_none
        (isPrefixOf_false_of_head_ne ((ne_of_pred ha (by decide)).symm) _ _)
    · exact matchItems_lit_none (isPrefixOf_false_second
        (charBeq_false_of_ne (Ne.symm (ne_of_pred hb (by decide)))) _ _)
    · exact matchItems_lit_none
        (isPrefixOf_false_of_head_ne ((ne_of_pred hb (by decide)).symm) _ _)
    · exact matchItems_lit_none rfl
    · exact matchItems_lit_none
        (isPrefixOf_false_of_not_mem (fun hm => hptail (hu.subset hm)))
  have m8 : matchItems [RItem.opt isRpar] [')'] = some ([[')']], []) := by
    apply matchItems_opt_consume (by decide)
    rfl
  have m7 : matchItems [RItem.plus noParen, RItem.opt isRpar] (E ++ [')']) =
      some ([E, [')']], []) := by
    apply matchItems_plus_greedy
    · rw [takeWhile_append_stop (by decide) hEnp]
      exact hne
    · rw [takeWhile_append_stop (by decide) hEnp, dropWhile_append_stop (by decide) hEnp,
        m8]
      rfl
  have m6 : matchItems [RItem.opt isLpar, RItem.plus noParen, RItem.opt isRpar]
      ('(' :: (E ++ [')'])) = some ([['('], E, [')']], []) := by
    apply matchItems_opt_consume (by decide)
    rw [m7]
    rfl
  have m5 : matchItems [RItem.star isWsC, RItem.opt isLpar, RItem.plus noParen,
      RItem.opt isRpar] ('(' :: (E ++ [')'])) = some ([[], ['('], E, [')']], []) := by
    apply matchItems_star_greedy
    rw [show ('(' :: (E ++ [')'])).dropWhile isWsC = '(' :: (E ++ [')']) from rfl,
      show ('(' :: (E ++ [')'])).takeWhile isWsC = [] from rfl, m6]
    rfl
  have m4 : matchItems [RItem.cls isAzLower, RItem.star isWsC, RItem.opt isLpar,
      RItem.plus noParen, RItem.opt isRpar] (b :: '(' :: (E ++ [')'])) =
      some ([[b], [], ['('], E, [')']], []) := by
    rw [matchItems_cls_cons hb, m5]
    rfl
  have m3 : matchItems [RItem.lit (strL "∂"), RItem.cls isAzLower, RItem.star isWsC,
      RItem.opt isLpar, RItem.plus noParen, RItem.opt isRpar]
      ('∂' :: b :: '(' :: (E ++ [')'])) =
      some ([strL "∂", [b], [], ['('], E, [')']], []) := by
    rw [show ('∂' :: b :: '(' :: (E ++ [')']) : List Char) =
      strL "∂" ++ b :: '(' :: (E ++ [')']) from rfl, matchItems_lit_cons, m4]
    rfl
  have m2 : matchItems [RItem.cls isAzLower, RItem.lit (strL "∂"), RItem.cls isAzLower,
      RItem.star isWsC, RItem.opt isLpar, RItem.plus noParen, RItem.opt isRpar]
      (a :: '∂' :: b :: '(' :: (E ++ [')'])) =
      some ([[a], strL "∂", [b], [], ['('], E, [')']], []) := by
    rw [matchItems_cls_cons ha, m3]
    rfl
  have m1 : matchItems pMixedPartial ('∂' :: '²' :: '/' :: '∂' :: a :: '∂' :: b :: '(' ::
      (E ++ [')'])) =
      some ([strL "∂²/∂", [a], strL "∂", [b], [], ['('], E, [')']], []) := by
    rw [show ('∂' :: '²' :: '/' :: '∂' :: a :: '∂' :: b :: '(' :: (E ++ [')']) :
      List Char) = strL "∂²/∂" ++ a :: '∂' :: b :: '(' :: (E ++ [')']) from rfl]
    rw [show pMixedPartial = RItem.lit (strL "∂²/∂") :: [RItem.cls isAzLower,
      RItem.lit (strL "∂"), RItem.cls isAzLower, RItem.star isWsC, RItem.opt isLpar,
      RItem.plus noParen, RItem.opt isRpar] from rfl, matchItems_lit_cons, m2]
    rfl
  have hsearchMix := searchPre_eq_found m1
  have hmkcan : ([] : List Char) ++
      mkMixedPartial [strL "∂²/∂", [a], strL "∂", [b], [], ['('], E, [')']] ++ [] =
      'd' :: 'i' :: 'f' :: 'f' :: '(' :: 'd' :: 'i' :: 'f' :: 'f' :: '(' ::
        (E ++ ',' :: ' ' :: a :: ')' :: ',' :: ' ' :: b :: [')']) := by
    simp [mkMixedPartial, strL]
  have hnotmem2 : ∀ z : Char, isAzLower z = false → (z ∉ strL "dif(), " : Prop) →
      (z ∉ E) → z ∉ 'd' :: 'i' :: 'f' :: 'f' :: '(' :: 'd' :: 'i' :: 'f' :: 'f' :: '(' ::
      (E ++ ',' :: ' ' :: a :: ')' :: ',' :: ' ' :: b :: [')']) := by
    intro z hz1 hz2 hz3 hmem
    simp only [List.mem_cons, List.mem_append, List.not_mem_nil, or_false,
      List.mem_singleton] at hmem
    rcases hmem with rfl | rfl | rfl | rfl | rfl | rfl | rfl | rfl | rfl | rfl | hmem |
      rfl | rfl | rfl | rfl | rfl | rfl | rfl | rfl
    · exact hz2 (by decide)
    · exact hz2 (by decide)
    · exact hz2 (by decide)
    · exact hz2 (by decide)
    · exact hz2 (by decide)
    · exact hz2 (by decide)
    · exact hz2 (by decide)
    · exact hz2 (by decide)
    · exact hz2 (by decide)
    · exact hz2 (by decide)
    · exact hz3 hmem
    · exact hz2 (by decide)
    · exact hz2 (by decide)
    · exact absurd (hz1.symm.trans ha) Bool.false_ne_true
    · exact hz2 (by decide)
    · exact hz2 (by decide)
    · exact hz2 (by decide)
    · exact absurd (hz1.symm.trans hb) Bool.false_ne_true
    · exact hz2 (by decide)
  have hpa2 := hnotmem2 '∂' (by decide) (by decide) (fun h => (hE '∂' h) (by decide))
  have hsl2 := hnotmem2 '/' (by decide) (by decide) (fun h => (hE '/' h) (by decide))
  have hint2 := hnotmem2 '∫' (by decide) (by decide) (fun h => (hE '∫' h) (by decide))
  have hgt2 := hnotmem2 '>' (by decide) (by decide) (fun h => (hE '>' h) (by decide))
  have hMixNone : searchPre pMixedPartial (([] : List Char) ++
      mkMixedPartial [strL "∂²/∂", [a], strL "∂", [b], [], ['('], E, [')']] ++ []) =
      none := by
    rw [hmkcan]
    exact searchPre_none_of_lit_char (List.mem_cons_self ..)
      (show '∂' ∈ strL "∂²/∂" from by decide) hpa2
  have hFD2 : searchPre pFirstDeriv ('d' :: 'i' :: 'f' :: 'f' :: '(' :: 'd' :: 'i' ::
      'f' :: 'f' :: '(' :: (E ++ ',' :: ' ' :: a :: ')' :: ',' :: ' ' :: b :: [')'])) =
      none :=
    searchPre_none_of_lit_char (List.mem_cons_self ..)
      (show '/' ∈ strL "d/d" from by decide) hsl2
  have hDefI2 : searchPre pDefInt ('d' :: 'i' :: 'f' :: 'f' :: '(' :: 'd' :: 'i' ::
      'f' :: 'f' :: '(' :: (E ++ ',' :: ' ' :: a :: ')' :: ',' :: ' ' :: b :: [')'])) =
      none :=
    searchPre_none_of_lit_char (List.mem_cons_self ..)
      (show '∫' ∈ strL "∫_" from by decide) hint2
  have hIndefI2 : searchPre pIndefInt ('d' :: 'i' :: 'f' :: 'f' :: '(' :: 'd' :: 'i' ::
      'f' :: 'f' :: '(' :: (E ++ ',' :: ' ' :: a :: ')' :: ',' :: ' ' :: b :: [')'])) =
      none :=
    searchPre_none_of_lit_char (List.mem_cons_self ..)
      (show '∫' ∈ strL "∫" from by decide) hint2
  have hLim2 : searchPre pLimit ('d' :: 'i' :: 'f' :: 'f' :: '(' :: 'd' :: 'i' ::
      'f' :: 'f' :: '(' :: (E ++ ',' :: ' ' :: a :: ')' :: ',' :: ' ' :: b :: [')'])) =
      none := by
    apply searchPre_none_of_lit_char ?_ (show '>' ∈ strL "->" from by decide) hgt2
    unfold pLimit
    exact List.mem_cons_of_mem _ (List.mem_cons_of_mem _ (List.mem_cons_of_mem _
      (List.mem_cons_self ..)))
  have hDOI : searchPre pDerivOfInt ('∂' :: '²' :: '/' :: '∂' :: a :: '∂' :: b :: '(' ::
      (E ++ [')'])) = none := by
    apply searchPre_none_of_lit_char ?_ (show '∫' ∈ strL "∫" from by decide) hint
    unfold pDerivOfInt
    exact List.mem_cons_of_mem _ (List.mem_cons_of_mem _ (List.mem_cons_of_mem _
      (List.mem_cons_of_mem _ (List.mem_cons_of_mem _ (List.mem_cons_self ..)))))
  have hDOL : searchPre pDerivOfLimit ('∂' :: '²' :: '/' :: '∂' :: a :: '∂' :: b :: '(' ::
      (E ++ [')'])) = none := by
    apply searchPre_none_of_lit_char ?_ (show '>' ∈ strL "->" from by decide) hgt
    unfold pDerivOfLimit
    exact List.mem_cons_of_mem _ (List.mem_cons_of_mem _ (List.mem_cons_of_mem _
      (List.mem_cons_of_mem _ (List.mem_cons_of_mem _ (List.mem_cons_of_mem _
      (List.mem_cons_of_mem _ (List.mem_cons_of_mem _ (List.mem_cons_self ..))))))))
  have hIOL : searchPre pIntOfLimit ('∂' :: '²' :: '/' :: '∂' :: a :: '∂' :: b :: '(' ::
      (E ++ [')'])) = none :=
    searchPre_none_of_lit_char (List.mem_cons_self ..)
      (show '∫' ∈ strL "∫" from by decide) hint
  unfold parse_combined_expression
  rw [if_neg ?hn1, if_neg ?hn2, if_neg ?hn3, if_neg ?hn4, if_neg ?hn5, if_neg ?hn6,
    if_neg ?hn7, if_neg ?hn8]
  case hn1 =>
    rw [hstrip]
    rintro (h | h | h | h) <;> exact absurd (h ▸ hmemPa) (by decide)
  case hn2 =>
    rw [hstrip]
    rintro (h | h | h | h) <;> exact absurd (h ▸ hmemPa) (by decide)
  case hn3 =>
    rw [hstrip]
    rintro (h | h | h | h) <;> exact absurd (h ▸ hmemSq) (by decide)
  case hn4 =>
    rintro (h | h) <;> exact hint (mem_of_isSub h (by decide))
  case hn5 =>
    rintro (h | h) <;> exact hgt (mem_of_isSub h (by decide))
  case hn6 =>
    intro h
    exact hgt (mem_of_isSub h (by decide))
  case hn7 =>
    intro h
    exact hint (mem_of_isSub h (by decide))
  case hn8 =>
    rintro ⟨h1, -, -⟩
    rw [hstrip] at h1
    have h2 : (strL "∫").isPrefixOf ('∂' :: '²' :: '/' :: '∂' :: a :: '∂' :: b :: '(' ::
        (E ++ [')'])) = false := isPrefixOf_false_of_head_ne (by decide) _ _
    exact absurd (h2.symm.trans h1) Bool.false_ne_true
  unfold parseFromPre
  rw [hpp]
  unfold parseRewrites
  rw [hDOI, hDOL, hIOL]
  dsimp only
  rw [runLoop_of_none hSD, runLoop_of_none hPD, runLoop_of_none hSP,
    runLoop_eq_of_step hsearchMix hMixNone, hmkcan,
    runLoop_of_none hFD2, runLoop_of_none hDefI2, runLoop_of_none hIndefI2,
    runLoop_of_none hLim2]
  simp [strL]

/-- Witness for C10 at `a = 'a'`, `b = 'b'`, `E = "q+1"`. -/
theorem mixed_partial_order_wit :
    parse_combined_expression (strL "∂²/∂" ++ ['a'] ++ strL "∂" ++ ['b'] ++ strL "(" ++
        strL "q+1" ++ strL ")") =
      strL "diff(diff(" ++ strL "q+1" ++ strL ", " ++ ['a'] ++ strL "), " ++ ['b'] ++
        strL ")" :=
  mixed_partial_order 'a' 'b' (strL "q+1") (by decide) (by decide) (by decide) (by decide)
    (by decide)
